import Mathlib

/-!
ECE-297 storage client library: a shallow embedding

The client side of the key/value storage service (storage.c) together with the
transport helpers it calls (sendall and recvline of utils.c).

Conventions of the embedding.

* A C string is the list of its characters before the terminating NUL.
* A pointer argument that may be NULL is an Option; the connection handle is the
  integer behind the void pointer, NULL being 0.
* The two process-wide flags of storage.c (connected, authenticated) and
  errno are fields of an explicit state that every call threads through.
* The operating system is a script: the results that successive send and recv
  calls will produce, and a log of what the library passed to send, socket and
  close.
* Undefined behaviour of the C program (a NULL pointer handed to a %s
  conversion or dereferenced, a %s conversion of sscanf that overruns its
  destination array, a sprintf that overruns client_buffer) is the result none.
* Of the log lines that storage.c formats into client_buffer the model keeps the
  length, which decides whether sprintf stays inside the array; the text that
  logger then writes to the log file is not part of the state.
-/

namespace ECE297

/-- A C string, without its terminator. -/
abbrev CStr := List Char

/-! ## ctype.h, in the C locale -/

/-- The isalnum test of ctype.h: a decimal digit or an ASCII letter. -/
def isalnum (c : Char) : Bool :=
  (48 ≤ c.toNat && c.toNat ≤ 57) || (65 ≤ c.toNat && c.toNat ≤ 90) ||
    (97 ≤ c.toNat && c.toNat ≤ 122)

/-- The isspace test of ctype.h: space, and the five controls from tab to carriage return. -/
def isspace (c : Char) : Bool :=
  c.toNat == 32 || (9 ≤ c.toNat && c.toNat ≤ 13)

/-! ## Constants -/

/-- The max length in bytes of a command from the client to the server (utils.h). -/
def MAX_CMD_LEN : Nat := 1024 * 8

/-- Buffer size to send commands to logger (utils.h): the size of client_buffer. -/
def BUFFER_SIZE : Nat := 2 * MAX_CMD_LEN

/-- Modelled from the spec: storage.h is not among the sources. It declares the error
codes that the library stores in errno; the spec (section 7) lists them as distinct error
kinds, so they are distinct constructors here. The constructor sys stands for every other
value errno can hold, such as one left by the C library. -/
inductive Errno where
  | ERR_INVALID_PARAM
  | ERR_CONNECTION_FAIL
  | ERR_NOT_AUTHENTICATED
  | ERR_AUTHENTICATION_FAILED
  | ERR_TABLE_NOT_FOUND
  | ERR_KEY_NOT_FOUND
  | sys (n : Nat)
  deriving DecidableEq

/-- Sizes of the arrays that storage.h (absent from the sources) fixes by its
MAX_TABLE_LEN, MAX_KEY_LEN, MAX_VALUE_LEN and MAX_PORT_LEN definitions. They are a
parameter of the model. -/
structure Limits where
  MAX_TABLE_LEN : Nat
  MAX_KEY_LEN : Nat
  MAX_VALUE_LEN : Nat
  MAX_PORT_LEN : Nat
  deriving DecidableEq

/-- Modelled from the spec: storage.h is not among the sources and the spec fixes no
sizes. These are the sizes of the course skeleton, used only where the model is evaluated
at a concrete input; every general statement holds for all sizes. -/
def skeletonLimits : Limits := ⟨20, 20, 800, 8⟩

/-! ## The operating system as a script -/

/-- What one send call does: the kernel takes up to n bytes, or the call fails with -1 and
leaves a system error number in errno. -/
inductive SendResult where
  | accepts (n : Nat)
  | fails (e : Nat)
  deriving DecidableEq

/-- What one recv call of length 1 does: it delivers a byte (returns 1), reports that the
peer has closed the stream (returns 0), or fails (returns -1 and sets errno). -/
inductive RecvResult where
  | byte (c : Char)
  | closed
  | fails (e : Nat)
  deriving DecidableEq

/-- The part of the process state that the transport helpers touch. -/
structure Sys where
  /-- The value of errno. -/
  errno : Errno
  /-- Results of the send calls still to come; past its end a send fails. -/
  sendq : List SendResult
  /-- Results of the recv calls still to come; past its end the stream is closed. -/
  recvq : List RecvResult
  /-- One entry per send call made so far: socket, the bytes offered, the value returned. -/
  sendLog : List (Int × CStr × Int)
  /-- The value returned by every socket call made so far. -/
  socketLog : List Int
  /-- The descriptor passed to every close call made so far. -/
  closeLog : List Int
  deriving DecidableEq

/-- The send system call on len = buf.length bytes: returns the number of bytes taken
(at most len) or -1. -/
def send (sock : Int) (buf : CStr) (s : Sys) : Int × Sys :=
  match s.sendq with
  | [] =>
    (-1, { s with errno := Errno.sys 32, sendLog := s.sendLog ++ [(sock, buf, -1)] })
  | SendResult.accepts n :: rest =>
    let k : Int := (min n buf.length : Nat)
    (k, { s with sendq := rest, sendLog := s.sendLog ++ [(sock, buf, k)] })
  | SendResult.fails e :: rest =>
    (-1, { s with errno := Errno.sys e, sendq := rest,
                  sendLog := s.sendLog ++ [(sock, buf, -1)] })

/-- The recv system call for one byte: the value returned, the byte stored if any. -/
def recv (_sock : Int) (s : Sys) : Int × Option Char × Sys :=
  match s.recvq with
  | [] => (0, none, s)
  | RecvResult.byte c :: rest => (1, some c, { s with recvq := rest })
  | RecvResult.closed :: rest => (0, none, { s with recvq := rest })
  | RecvResult.fails e :: rest => (-1, none, { s with errno := Errno.sys e, recvq := rest })

/-! ## utils.c -/

/-- The loop of sendall. The argument buf is what is left to send, so tosend is its
length. The first argument bounds the number of iterations; every iteration that continues
has sent at least one byte, so buf.length iterations always suffice. Returns tosend at
loop exit. -/
def sendallLoop (sock : Int) : Nat → CStr → Sys → Nat × Sys
  | 0, buf, s => (buf.length, s)
  | fuel + 1, buf, s =>
    if buf.length > 0 then
      let r := send sock buf s
      if r.1 ≤ 0 then (buf.length, r.2)
      else sendallLoop sock fuel (buf.drop r.1.toNat) r.2
    else (0, s)

/-- Keep sending the contents of the buffer until complete: 0 on success, -1 otherwise. -/
def sendall (sock : Int) (buf : CStr) (s : Sys) : Int × Sys :=
  let r := sendallLoop sock buf.length buf s
  (if r.1 = 0 then 0 else -1, r.2)

/-- The loop of recvline, entered with bufleft = n + 1: acc is what has been stored in
buf so far. Returns the status and the bytes in buf before the final terminator. -/
def recvlineLoop (sock : Int) : Nat → CStr → Sys → Int × CStr × Sys
  | 0, acc, s => (0, acc, s)
  | n + 1, acc, s =>
    let r := recv sock s
    if r.1 ≤ 0 then (-1, acc, r.2.2)
    else
      match r.2.1 with
      | none => (-1, acc, r.2.2)
      | some c =>
        if c = Char.ofNat 10 then (0, acc, r.2.2)
        else recvlineLoop sock n (acc ++ [c]) r.2.2

/-- Receive an entire line from a socket into a buffer of buflen bytes: the status (0 on
success, -1 otherwise) and the bytes stored before the terminator. -/
def recvline (sock : Int) (buflen : Nat) (s : Sys) : Int × CStr × Sys :=
  recvlineLoop sock (buflen - 1) [] s

/-- The string a C function sees in a buffer: the bytes before the first NUL. -/
def cstr (buf : CStr) : CStr := buf.takeWhile (fun c => c != Char.ofNat 0)

/-- The result of snprintf into an array of size bytes: at most size - 1 characters. -/
def snprintf (size : Nat) (formatted : CStr) : CStr := formatted.take (size - 1)

/-! ## sscanf, for formats made of literal characters, white space and %s -/

/-- One directive of a scanf format. -/
inductive Directive where
  | lit (c : Char)
  | ws
  | str
  deriving DecidableEq

/-- Runs the directives over the input. Returns the strings converted so far, in order, and
whether scanning stopped on an input failure (end of input) rather than a mismatch. -/
def scan : List Directive → CStr → List CStr → List CStr × Bool
  | [], _, acc => (acc, false)
  | Directive.ws :: ds, inp, acc => scan ds (inp.dropWhile isspace) acc
  | Directive.lit c :: ds, inp, acc =>
    match inp with
    | [] => (acc, true)
    | x :: rest => if x = c then scan ds rest acc else (acc, false)
  | Directive.str :: ds, inp, acc =>
    match inp.dropWhile isspace with
    | [] => (acc, true)
    | x :: rest =>
      scan ds ((x :: rest).dropWhile (fun c => !isspace c))
        (acc ++ [(x :: rest).takeWhile (fun c => !isspace c)])

/-- The value sscanf returns: the number of conversions, or EOF (-1) when the input ended
before the first one. -/
def scanCount (r : List CStr × Bool) : Int :=
  if r.2 && r.1.isEmpty then -1 else r.1.length

/-- The format "VERB #%s #%s #%s\n" of storage_get and storage_set. -/
def replyFormat (verb : CStr) : List Directive :=
  verb.map Directive.lit ++
    [Directive.ws, Directive.lit '#', Directive.str,
     Directive.ws, Directive.lit '#', Directive.str,
     Directive.ws, Directive.lit '#', Directive.str, Directive.ws]

/-- Whether every converted string fits its destination array, terminator included: the
destinations are temp_table, temp_key and temp_value, in this order. -/
def fieldsFit (L : Limits) (fields : List CStr) : Bool :=
  (fields.zip [L.MAX_TABLE_LEN, L.MAX_KEY_LEN, L.MAX_VALUE_LEN]).all
    (fun p => p.1.length < p.2)

/-! ## storage.c -/

/-- The process state of a client: the two flags of storage.c and the system state. -/
structure Client where
  /-- Boolean variable to check if a connection is established with a server. -/
  connected : Bool
  /-- Boolean variable to check if the user has been authenticated. -/
  authenticated : Bool
  sys : Sys
  deriving DecidableEq

/-- The state of a process that has just started: both flags false. -/
def Client.start (s : Sys) : Client := ⟨false, false, s⟩

/-- What a call returns: its int status, the record value of the caller afterwards (none
when the caller passed NULL), and the new process state. -/
structure Ret where
  status : Int
  record : Option CStr
  st : Client
  deriving DecidableEq

/-- Stores a value in errno. -/
def Client.setErrno (st : Client) (e : Errno) : Client :=
  { st with sys := { st.sys with errno := e } }

/-- The reading of a reply line by storage_get and storage_set: the sscanf call on the
format of the verb and the branches on its result. The state st is the one after the
line has been received. -/
def readReply (L : Limits) (verb : CStr) (table : CStr) (record : Option CStr)
    (line : CStr) (st : Client) : Option Ret :=
  let p := scan (replyFormat verb) line []
  if fieldsFit L p.1 = false then none
  else if scanCount p = 3 then
    match record with
    | none => none
    | some _ => some ⟨0, some (p.1.getD 2 []), st⟩
  else if p.1.getD 0 [] ≠ table then
    some ⟨-1, record, st.setErrno Errno.ERR_TABLE_NOT_FOUND⟩
  else
    some ⟨-1, record, st.setErrno Errno.ERR_KEY_NOT_FOUND⟩

/-- The last branch of the chain in storage_get and storage_set: send the request, receive
one line, read it. -/
def transact (L : Limits) (verb : CStr) (table : CStr) (record : Option CStr)
    (sock : Int) (request : CStr) (st : Client) : Option Ret :=
  let s1 := sendall sock request st.sys
  if s1.1 = 0 then
    let r := recvline sock MAX_CMD_LEN s1.2
    if r.1 = 0 then readReply L verb table record (cstr r.2.1) { st with sys := r.2.2 }
    else some ⟨-1, record, { st with sys := r.2.2 }⟩
  else some ⟨-1, record, { st with sys := s1.2 }⟩

/-- Whether a sprintf of the formatted text into client_buffer stays inside the array: the
text and its terminator take at most BUFFER_SIZE bytes. Otherwise sprintf writes past the
array, into the objects that follow it (undefined behaviour). -/
def sprintfFits (formatted : CStr) : Bool := decide (formatted.length < BUFFER_SIZE)

/-- The text that a failing storage_get formats into client_buffer:
"Record retrieval failed. Table: %s and Key: %s.\n" with table and key. -/
def getFailureLog (table key : CStr) : CStr :=
  "Record retrieval failed. Table: ".toList ++ table ++ " and Key: ".toList ++ key ++
    ".\n".toList

/-- The text that a failing storage_set formats into client_buffer:
"Record modification failed. Table: %s, Key: %s and Value: %s.\n" with table, key and
record->value. -/
def setFailureLog (table key value : CStr) : CStr :=
  "Record modification failed. Table: ".toList ++ table ++ ", Key: ".toList ++ key ++
    " and Value: ".toList ++ value ++ ".\n".toList

/-- The end of storage_get and storage_set. The only return inside the chain is the
return 0 after a reply of three fields; every other path falls through to the sprintf of
the failure text into client_buffer, with no bound on its length, then logger and
return -1. The argument is the outcome of the chain. -/
def logFailure (failureLog : CStr) (chain : Option Ret) : Option Ret :=
  match chain with
  | none => none
  | some r =>
    if r.status = 0 then some r
    else if sprintfFits failureLog then some r
    else none

/-- The part shared by storage_get and storage_set after the request line has been
formatted: the chain of checks on connected and authenticated, then the exchange with the
server, then the log of a failure. The two texts that the first branches format into
client_buffer ("Not connected to a server.\n" and "Connected to a server, but not yet
authenticated.\n") are fixed and shorter than the array. -/
def exchange (L : Limits) (verb : CStr) (table : CStr) (record : Option CStr)
    (sock : Int) (request failureLog : CStr) (st : Client) : Option Ret :=
  logFailure failureLog
    (if st.connected = false then
      some ⟨-1, record, st.setErrno Errno.ERR_CONNECTION_FAIL⟩
    else if st.authenticated = false then
      some ⟨-1, record, st.setErrno Errno.ERR_AUTHENTICATION_FAILED⟩
    else transact L verb table record sock request st)

/-- The request line of storage_get, "GET #table #key\n", as snprintf leaves it in buf. -/
def getRequest (table key : CStr) : CStr :=
  snprintf MAX_CMD_LEN ("GET #".toList ++ table ++ " #".toList ++ key ++ [Char.ofNat 10])

/-- The request line of storage_set, "SET #table #key #value\n", as snprintf leaves it. -/
def setRequest (table key value : CStr) : CStr :=
  snprintf MAX_CMD_LEN
    ("SET #".toList ++ table ++ " #".toList ++ key ++ " #".toList ++ value ++ [Char.ofNat 10])

/-- The storage_get function of storage.c. -/
def storage_get (L : Limits) (table key : Option CStr) (record : Option CStr) (conn : Int)
    (st : Client) : Option Ret :=
  if conn = 0 then some ⟨-1, record, st.setErrno Errno.ERR_INVALID_PARAM⟩
  else
    match table, key with
    | some t, some k =>
      exchange L "GET".toList t record conn (getRequest t k) (getFailureLog t k) st
    | _, _ => none

/-- The storage_set function of storage.c. -/
def storage_set (L : Limits) (table key : Option CStr) (record : Option CStr) (conn : Int)
    (st : Client) : Option Ret :=
  if conn = 0 then some ⟨-1, record, st.setErrno Errno.ERR_INVALID_PARAM⟩
  else
    match table, key, record with
    | some t, some k, some v =>
      exchange L "SET".toList t record conn (setRequest t k v) (setFailureLog t k v) st
    | _, _, _ => none

/-- What the three system calls of storage_connect return when they are reached: socket
(a descriptor, negative on failure), getaddrinfo and connect (0 on success). -/
structure ConnectResults where
  sock : Int
  addrinfo : Int
  connect : Int
  deriving DecidableEq

/-- The %d conversion of printf: the decimal digits, after a minus sign when negative. -/
def printInt (n : Int) : CStr :=
  if n < 0 then '-' :: Nat.toDigits 10 n.natAbs else Nat.toDigits 10 n.toNat

/-- The text that storage_connect formats into client_buffer when getaddrinfo fails. -/
def addrinfoFailureLog (hostname portstr : CStr) : CStr :=
  "Unable to retrieve address info with hostname ".toList ++ hostname ++
    " and port ".toList ++ portstr ++ ".\n".toList

/-- The text that storage_connect formats into client_buffer when getaddrinfo succeeds. -/
def addrinfoLog (hostname portstr : CStr) : CStr :=
  "Address info retrieved with hostname ".toList ++ hostname ++
    " and port ".toList ++ portstr ++ ".\n".toList

/-- The storage_connect function of storage.c: the handle returned (0 is NULL) and the new
state. The port test comes first; its text "Incorrect port number entered: %d.\n" is
shorter than client_buffer for every int, as are the two texts that name the socket. After
getaddrinfo the hostname goes through a %s conversion of sprintf into client_buffer: the
result is none when the hostname is NULL or the text overruns the array. -/
def storage_connect (L : Limits) (hostname : Option CStr) (port : Int) (env : ConnectResults)
    (st : Client) : Option (Int × Client) :=
  if port = 0 ∨ port < 1024 ∨ port > 65535 then
    some (0, st.setErrno Errno.ERR_INVALID_PARAM)
  else
    let st1 : Client :=
      { st with sys := { st.sys with socketLog := st.sys.socketLog ++ [env.sock] } }
    if env.sock < 0 then some (0, st1.setErrno Errno.ERR_CONNECTION_FAIL)
    else
      let portstr := snprintf L.MAX_PORT_LEN (printInt port)
      match hostname with
      | none => none
      | some h =>
        if env.addrinfo ≠ 0 then
          if sprintfFits (addrinfoFailureLog h portstr) then
            some (0, st1.setErrno Errno.ERR_CONNECTION_FAIL)
          else none
        else if sprintfFits (addrinfoLog h portstr) = false then none
        else if env.connect ≠ 0 then some (0, st1.setErrno Errno.ERR_CONNECTION_FAIL)
        else some (env.sock, { st1 with connected := true })

/-- The request line of storage_auth, "AUTH #username #encrypted\n", as snprintf leaves
it. -/
def authRequest (username encrypted : CStr) : CStr :=
  snprintf MAX_CMD_LEN
    ("AUTH #".toList ++ username ++ " #".toList ++ encrypted ++ [Char.ofNat 10])

/-- The salt that generate_encrypted_password passes to crypt when given none (utils.h). -/
def DEFAULT_CRYPT_SALT : CStr := "xx".toList

/-- The array pass_asterik of storage_auth: one asterisk for each character of the
password. -/
def pass_asterik (passwd : CStr) : CStr := List.replicate passwd.length '*'

/-- The text that storage_auth formats into client_buffer before it returns 0. -/
def authSuccessLog (username passwd : CStr) : CStr :=
  "Client authorization successful. Username: ".toList ++ username ++
    " and Password: ".toList ++ pass_asterik passwd ++ ".\n".toList

/-- The text that storage_auth formats into client_buffer before its last return -1. -/
def authFailureLog (username passwd : CStr) : CStr :=
  "Client authorization failure. Username: ".toList ++ username ++
    " and Password: ".toList ++ pass_asterik passwd ++ ".\n".toList

/-- The end of storage_auth: sprintf of the text into client_buffer, with no bound on its
length, then logger and the return of the result. -/
def logAuth (text : CStr) (r : Ret) : Option Ret :=
  if sprintfFits text then some r else none

/-- The storage_auth function of storage.c. The one-way transform of the C library,
crypt, is a parameter: it maps a password and a salt to a string, or to NULL. The text
"Not connected to a server.\n" of the second branch is fixed and shorter than
client_buffer. -/
def storage_auth (crypt : CStr → CStr → Option CStr) (username passwd : Option CStr)
    (conn : Int) (st : Client) : Option Ret :=
  if conn = 0 then some ⟨-1, none, st.setErrno Errno.ERR_INVALID_PARAM⟩
  else if st.connected = false then some ⟨-1, none, st.setErrno Errno.ERR_CONNECTION_FAIL⟩
  else
    match passwd with
    | none => none
    | some p =>
      match username, crypt p DEFAULT_CRYPT_SALT with
      | some u, some e =>
        let s1 := sendall conn (authRequest u e) st.sys
        if s1.1 = 0 then
          let r := recvline conn MAX_CMD_LEN s1.2
          let st2 : Client := { st with sys := r.2.2 }
          if r.1 = 0 then
            if cstr r.2.1 = "AUTH #pass".toList then
              logAuth (authSuccessLog u p) ⟨0, none, { st2 with authenticated := true }⟩
            else
              logAuth (authFailureLog u p)
                ⟨-1, none, st2.setErrno Errno.ERR_AUTHENTICATION_FAILED⟩
          else logAuth (authFailureLog u p) ⟨-1, none, st2⟩
        else logAuth (authFailureLog u p) ⟨-1, none, { st with sys := s1.2 }⟩
      | _, _ => none

/-- The storage_disconnect function of storage.c: the status and the new state. The
result of close, which the source ignores, is a parameter: none when close succeeds, the
error number it leaves in errno when it fails. -/
def storage_disconnect (conn : Int) (closeErr : Option Nat) (st : Client) : Int × Client :=
  if conn = 0 then (-1, st.setErrno Errno.ERR_INVALID_PARAM)
  else
    let e : Errno := match closeErr with
      | none => st.sys.errno
      | some n => Errno.sys n
    (0, { st with connected := false,
                  sys := { st.sys with errno := e, closeLog := st.sys.closeLog ++ [conn] } })

/-! ## Sample inputs -/

/-- A script in which the kernel takes a whole request in one send call and the peer then
sends the given line followed by a newline. -/
def replyScript (line : CStr) : Sys :=
  ⟨Errno.sys 0, [SendResult.accepts MAX_CMD_LEN],
    line.map RecvResult.byte ++ [RecvResult.byte (Char.ofNat 10)], [], [], []⟩

/-- A connected and authenticated client whose next request is answered by the line. -/
def liveClient (line : CStr) : Client := ⟨true, true, replyScript line⟩

/-- A connected client that has not authenticated. -/
def freshClient (line : CStr) : Client := ⟨true, false, replyScript line⟩

/-- A connected and authenticated client whose peer closes the stream after taking the
request: the first recv returns 0. -/
def closedPeerClient : Client :=
  ⟨true, true, ⟨Errno.sys 0, [SendResult.accepts MAX_CMD_LEN], [RecvResult.closed], [], [], []⟩⟩

/-- A stand-in for crypt, used only where the model is evaluated at a concrete input. -/
def sampleCrypt (passwd salt : CStr) : Option CStr := some (salt ++ passwd.reverse)

/-- A connected client before authentication, on a script that answers a first request
with "AUTH #pass" and a second one with the given line. -/
def loginClient (line : CStr) : Client :=
  ⟨true, false, ⟨Errno.sys 0, [SendResult.accepts MAX_CMD_LEN, SendResult.accepts MAX_CMD_LEN],
    "AUTH #pass".toList.map RecvResult.byte ++ [RecvResult.byte (Char.ofNat 10)] ++
      line.map RecvResult.byte ++ [RecvResult.byte (Char.ofNat 10)], [], [], []⟩⟩

/-! ## Reading the logs and scripts -/

/-- The bytes the kernel has taken over a run of send calls: of every call, the first
bytes of what was offered, as many as the call returned. -/
def delivered : List (Int × CStr × Int) → CStr
  | [] => []
  | e :: l => e.2.1.take e.2.2.toNat ++ delivered l

/-- Whether the next recv call on this script returns 0 or -1: the script is at its end, or
its next entry is not a byte. -/
def isStop : List RecvResult → Bool
  | RecvResult.byte _ :: _ => false
  | _ => true

/-- The state after a recv call has consumed the head of the given script. -/
def afterStop (s : Sys) : List RecvResult → Sys
  | [] => { s with recvq := [] }
  | RecvResult.closed :: rest => { s with recvq := rest }
  | RecvResult.fails e :: rest => { s with errno := Errno.sys e, recvq := rest }
  | RecvResult.byte _ :: rest => { s with recvq := rest }

/-! ## utils.c: the configuration file -/

/-- Sizes that storage.h (absent from the sources) fixes for the configuration reader.
They are a parameter of the model. -/
structure ConfigLimits where
  MAX_CONFIG_LINE_LEN : Nat
  MAX_HOST_LEN : Nat
  MAX_USERNAME_LEN : Nat
  MAX_ENC_PASSWORD_LEN : Nat
  MAX_TABLES : Nat
  MAX_TABLE_LEN : Nat
  deriving DecidableEq

/-- Modelled from the spec: storage.h is not among the sources and the spec fixes no
sizes. These are the sizes of the course skeleton, used only where the model is evaluated
at a concrete input; every general statement holds for all sizes. -/
def skeletonConfigLimits : ConfigLimits := ⟨1024, 64, 64, 64, 100, 20⟩

/-- A struct to store config parameters (utils.h). A char array field is the bytes it
holds before its first NUL, or all its bytes when it holds none; table_names is the array
of rows. -/
structure config_params where
  /-- The hostname of the server. -/
  server_host : CStr
  /-- The listening port of the server. -/
  server_port : Int
  /-- The storage server's username. -/
  username : CStr
  /-- The storage server's encrypted password. -/
  password : CStr
  /-- The storage server's list of table names. -/
  table_names : List CStr
  /-- The number of valid tables. -/
  num_tables : Int
  deriving DecidableEq

/-- The content strncpy leaves in an array of size bytes: the source when it fits with its
terminator, else its first size bytes and no terminator. -/
def strncpy (size : Nat) (src : CStr) : CStr := src.take size

/-- The strcmp of an array of size bytes against a string, as an equality test. A row
without terminator differs from the string inside the array unless it is a head of the
string; in that case strcmp reads past the array (undefined behaviour, none). -/
def strcmpRow (size : Nat) (row value : CStr) : Option Bool :=
  if row.length < size then some (decide (row = value))
  else if row.isPrefixOf value then none
  else some false

/-- Checks for special characters in a string: true when every character is alphanumeric
or white space (utils.c). -/
def check_special (buf : CStr) : Bool :=
  buf.all (fun c => isalnum c || isspace c)

/-- The loop of process_config_line over the table list, entered at index i with the
given number of iterations left: some true when a row equals the value. -/
def tableLoop (CL : ConfigLimits) (names : List CStr) (value : CStr) : Nat → Nat → Option Bool
  | 0, _ => some false
  | n + 1, i =>
    if CL.MAX_TABLES ≤ i then none
    else
      match strcmpRow CL.MAX_TABLE_LEN (names.getD i []) value with
      | none => none
      | some true => some true
      | some false => tableLoop CL names value n (i + 1)

/-- Stores a row at an index of the table list. -/
def setRow (names : List CStr) (i : Nat) (row : CStr) : List CStr :=
  (names ++ List.replicate (i + 1 - names.length) []).set i row

/-- The format "%s %s %s\n" of process_config_line. -/
def configFormat : List Directive :=
  [Directive.str, Directive.ws, Directive.str, Directive.ws, Directive.str, Directive.ws]

/-- The second half of process_config_line, under its comment "Process this line": the
chain of tests on the name of the parameter. -/
def processEntry (CL : ConfigLimits) (atoi : CStr → Int) (name value : CStr)
    (params : config_params) : Option (Int × config_params) :=
  if name = "server_host".toList then
    if params.server_host = [] then
      some (0, { params with server_host := strncpy CL.MAX_HOST_LEN value })
    else some (1, params)
  else if name = "server_port".toList then
    if params.server_port = -1 ∧ atoi value > 1023 ∧ atoi value < 65536 then
      some (0, { params with server_port := atoi value })
    else some (1, params)
  else if name = "username".toList then
    if params.username = [] then
      some (0, { params with username := strncpy CL.MAX_USERNAME_LEN value })
    else some (1, params)
  else if name = "password".toList then
    if params.password = [] then
      some (0, { params with password := strncpy CL.MAX_ENC_PASSWORD_LEN value })
    else some (1, params)
  else if name = "table".toList then
    if check_special value = false then some (1, params)
    else
      match tableLoop CL params.table_names value params.num_tables.toNat 0 with
      | none => none
      | some true => some (1, params)
      | some false =>
        if params.num_tables < 0 ∨ (CL.MAX_TABLES : Int) ≤ params.num_tables then none
        else
          some (0, { params with
            table_names := setRow params.table_names params.num_tables.toNat
              (strncpy CL.MAX_TABLE_LEN value),
            num_tables := params.num_tables + 1 })
  else some (0, params)

/-- Parse and process a line in the config file (utils.c): the value returned and the
params afterwards. The atoi of the C library is a parameter. The result is none on
undefined behaviour: a token that overruns its array of MAX_CONFIG_LINE_LEN bytes, a table
row read or written outside the table list, a strcmp that runs past a row. -/
def process_config_line (CL : ConfigLimits) (atoi : CStr → Int) (line : CStr)
    (params : config_params) : Option (Int × config_params) :=
  if line.head? = some '#' then some (0, params)
  else
    let p := scan configFormat line []
    if p.1.all (fun w => w.length < CL.MAX_CONFIG_LINE_LEN) = false then none
    else if scanCount p ≠ 2 then some (1, params)
    else processEntry CL atoi (p.1.getD 0 []) (p.1.getD 1 []) params

/-- The fgets of the C library on what is left of a file, for at most n characters: the
characters read (through the first newline), what is left, and whether the end of the file
was met. -/
def fgetsChars : Nat → CStr → CStr × CStr × Bool
  | 0, cs => ([], cs, false)
  | _ + 1, [] => ([], [], true)
  | n + 1, c :: cs =>
    if c = Char.ofNat 10 then ([c], cs, false)
    else
      let r := fgetsChars n cs
      (c :: r.1, r.2.1, r.2.2)

/-- The loop of read_config on an open file: content is what is left to read, eof the
end-of-file indicator of the stream. Returns error_occurred and the params. The first
argument bounds the iterations; the length of the content plus 2 always suffices. A read
error of the stream is not part of the model. -/
def readLoop (CL : ConfigLimits) (atoi : CStr → Int) :
    Nat → CStr → Bool → config_params → Option (Int × config_params)
  | 0, _, _, _ => none
  | fuel + 1, content, eof, params =>
    if eof then some (0, params)
    else
      let r := fgetsChars (CL.MAX_CONFIG_LINE_LEN - 1) content
      if r.1 = [] ∧ r.2.2 = true then readLoop CL atoi fuel r.2.1 true params
      else
        match process_config_line CL atoi (cstr r.1) params with
        | none => none
        | some (e, params2) =>
          if e ≠ 0 then some (e, params2)
          else readLoop CL atoi fuel r.2.1 r.2.2 params2

/-- Read and load configuration parameters (utils.c): 0 on success, -1 otherwise, and the
params afterwards. The file is its content, or none when fopen fails. -/
def read_config (CL : ConfigLimits) (atoi : CStr → Int) (file : Option CStr)
    (params : config_params) : Option (Int × config_params) :=
  let r := match file with
    | none => some (1, params)
    | some content => readLoop CL atoi (content.length + 2) content false params
  match r with
  | none => none
  | some (e, params2) =>
    some (if (if params2.num_tables = 0 then 1 else e) ≠ 0 then -1 else 0, params2)

/-- The white-space separated words of a line, with the word being read in cur. -/
def tokensAux : CStr → CStr → List CStr
  | [], cur => if cur = [] then [] else [cur]
  | c :: cs, cur =>
    if isspace c then
      if cur = [] then tokensAux cs [] else cur :: tokensAux cs []
    else tokensAux cs (cur ++ [c])

/-- The white-space separated words of a line. -/
def tokens (line : CStr) : List CStr := tokensAux line []

/-- The strings fgets leaves in line over a whole file, in order; the first argument
bounds their number. -/
def fileLines (CL : ConfigLimits) : Nat → CStr → List CStr
  | 0, _ => []
  | _ + 1, [] => []
  | fuel + 1, c :: cs =>
    cstr (fgetsChars (CL.MAX_CONFIG_LINE_LEN - 1) (c :: cs)).1 ::
      fileLines CL fuel (fgetsChars (CL.MAX_CONFIG_LINE_LEN - 1) (c :: cs)).2.1

/-- Processes lines in order until one is not accepted: the value of error_occurred and
the params at that point. -/
def processLines (CL : ConfigLimits) (atoi : CStr → Int) :
    List CStr → config_params → Option (Int × config_params)
  | [], params => some (0, params)
  | l :: ls, params =>
    match process_config_line CL atoi l params with
    | none => none
    | some (e, params2) => if e ≠ 0 then some (e, params2) else processLines CL atoi ls params2

/-- The lines that process_config_line accepts in such a run, in order. -/
def acceptedLines (CL : ConfigLimits) (atoi : CStr → Int) :
    List CStr → config_params → List CStr
  | [], _ => []
  | l :: ls, params =>
    match process_config_line CL atoi l params with
    | some (0, params2) => l :: acceptedLines CL atoi ls params2
    | _ => []

/-- Whether a line is a two-token line whose first token is the word table. -/
def isTableLine (line : CStr) : Bool :=
  line.head? != some '#' && (tokens line).length == 2 &&
    (tokens line).head? == some "table".toList

/-- A stand-in for atoi on decimal digits, used only where the model is evaluated at a
concrete input. -/
def sampleAtoi (s : CStr) : Int :=
  ((s.takeWhile Char.isDigit).foldl (fun n c => 10 * n + (c.toNat - 48)) 0 : Nat)

/-- The isdigit test of ctype.h: a decimal digit. -/
def isdigit (c : Char) : Bool := 48 ≤ c.toNat && c.toNat ≤ 57

/-- The number that a string of decimal digits writes. -/
def digitsValue (s : CStr) : Nat := s.foldl (fun n c => 10 * n + (c.toNat - 48)) 0

/-- The strtol of the C library in base 10, for a long of lw bits: leading white space is
skipped, then an optional sign and the decimal digits that follow are read (none gives 0);
a value outside the range of long is replaced by the nearest bound of the range. The
value it leaves in errno is not part of the model. -/
def strtol (lw : Nat) (s : CStr) : Int :=
  let v : Int :=
    match s.dropWhile isspace with
    | '-' :: rest => -(digitsValue (rest.takeWhile isdigit) : Int)
    | '+' :: rest => (digitsValue (rest.takeWhile isdigit) : Int)
    | rest => (digitsValue (rest.takeWhile isdigit) : Int)
  max (-((2 ^ (lw - 1) : Nat) : Int)) (min v (((2 ^ (lw - 1) : Nat) : Int) - 1))

/-- The conversion of a long to an int of 32 bits: the int that is equal to it modulo
2 ^ 32. -/
def toInt32 (v : Int) : Int :=
  (v + ((2 ^ 31 : Nat) : Int)) % ((2 ^ 32 : Nat) : Int) - ((2 ^ 31 : Nat) : Int)

/-- The atoi of the C library, which is not code of the repository: the C library of the
platform (glibc) defines it as (int) strtol (s, NULL, 10), and lw is the number of bits of
its long. The C standard leaves atoi undefined when the number is out of the range of
int; what is modelled is what the library computes there. -/
def atoi (lw : Nat) (s : CStr) : Int := toInt32 (strtol lw s)

/-- Whether a string is a decimal numeral: one digit or more and nothing else. -/
def isNumeral (s : CStr) : Bool := !s.isEmpty && s.all isdigit

/-- The params of a server that has read nothing yet: empty strings, port -1, no table. -/
def emptyParams : config_params := ⟨[], -1, [], [], List.replicate 100 [], 0⟩

/-! ## echothread.c: the pool of worker slots -/

/-- The number of entries of the pool (echothread.c). -/
def MAX_THREADS : Nat := 10

/-- The pool of echothread.c: the array runtimeThreads, whose entries are named by
numbers, and the two indices of the circular buffer. -/
structure Pool where
  runtimeThreads : List Nat
  botRT : Nat
  topRT : Nat
  deriving DecidableEq

/-- The pool after main has allocated it: entry i is in row i, both indices 0. -/
def Pool.initial : Pool := ⟨List.range MAX_THREADS, 0, 0⟩

/-- The getThreadInfo function: none when the call waits on the condition variable (no
other thread runs in this model, so it waits for ever), else the entry taken and the pool
afterwards. -/
def getThreadInfo (p : Pool) : Option (Nat × Pool) :=
  if (p.botRT + 1) % MAX_THREADS = p.topRT then none
  else some (p.runtimeThreads.getD p.botRT 0, { p with botRT := (p.botRT + 1) % MAX_THREADS })

/-- The releaseThread function: none when its assertion fails. -/
def releaseThread (me : Nat) (p : Pool) : Option Pool :=
  if p.botRT = p.topRT then none
  else some { p with runtimeThreads := p.runtimeThreads.set p.topRT me,
                     topRT := (p.topRT + 1) % MAX_THREADS }

/-- A number of consecutive getThreadInfo calls with no releaseThread in between: the
entries taken, or none as soon as one of the calls waits. -/
def acquire : Nat → Pool → Option (List Nat × Pool)
  | 0, p => some ([], p)
  | n + 1, p =>
    match getThreadInfo p with
    | none => none
    | some (t, p2) =>
      match acquire n p2 with
      | none => none
      | some (ts, p3) => some (t :: ts, p3)

/-- How a run of send calls may be read as the sending of one line on a socket: the log
grows by calls on that socket, each offered a tail of the line; the bytes taken are a
head of the line, and the whole line exactly when the send status is 0. -/
def SendsLine (sock : Int) (line : CStr) (before : Sys) (sent : Int) (after : Sys) : Prop :=
  ∃ l, after.sendLog = before.sendLog ++ l ∧
    (∀ e ∈ l, e.1 = sock ∧ e.2.1 <:+ line) ∧
    delivered l <+: line ∧
    (sent = 0 ↔ delivered l = line)

/-- The params after a first server_host line has been accepted. -/
def hostParams : config_params := { emptyParams with server_host := "localhost".toList }

/-! ## utils.c: make_key and make_value -/

/-- The loop shared by make_key and make_value: the characters of buf that pass the test
are appended to new_buf, in order. -/
def copyIf (test : Char → Bool) : CStr → CStr → CStr
  | [], new_buf => new_buf
  | c :: cs, new_buf =>
    if test c then copyIf test cs (new_buf ++ [c]) else copyIf test cs new_buf

/-- Removes everything including special characters and spaces in a string (utils.c): the
value returned and the new content of buf. The array new_buf has MAX_VALUE_LEN bytes, all
zero at first; the result is none (undefined behaviour) when the characters kept fill it or
overrun it, since strcpy then finds no terminator. -/
def make_key (L : Limits) (buf : CStr) : Option (Int × CStr) :=
  if (copyIf isalnum buf []).length < L.MAX_VALUE_LEN then some (0, copyIf isalnum buf [])
  else none

/-- Removes special characters in a string (utils.c): as make_key, keeping white space
too. -/
def make_value (L : Limits) (buf : CStr) : Option (Int × CStr) :=
  if (copyIf (fun c => isalnum c || isspace c) buf []).length < L.MAX_VALUE_LEN then
    some (0, copyIf (fun c => isalnum c || isspace c) buf [])
  else none

/-! ## storage.c: what a call receives -/

/-- The result of the recvline call that follows a sendall of the request: status, the
bytes left in buf, and the system state. -/
def received (sock : Int) (request : CStr) (s : Sys) : Int × CStr × Sys :=
  recvline sock MAX_CMD_LEN (sendall sock request s).2

/-! ## echothread.c: the pool as a state machine -/

/-- The pool together with the entries that workers hold at the moment. -/
structure PoolState where
  pool : Pool
  held : List Nat
  deriving DecidableEq

/-- The start of the server: the pool as main allocates it, no entry held. -/
def PoolState.initial : PoolState := ⟨Pool.initial, []⟩

/-- One step of the pool: a getThreadInfo call that does not wait, whose entry its caller
then holds, or a releaseThread call by a worker on the entry it holds, whose assertion
passes. -/
inductive PoolStep : PoolState → PoolState → Prop where
  | get (s : PoolState) (e : Nat) (p : Pool) :
      getThreadInfo s.pool = some (e, p) → PoolStep s ⟨p, e :: s.held⟩
  | release (s : PoolState) (me : Nat) (p : Pool) :
      me ∈ s.held → releaseThread me s.pool = some p → PoolStep s ⟨p, s.held.erase me⟩

/-- The states the pool can reach from its start. -/
inductive Reachable : PoolState → Prop where
  | start : Reachable PoolState.initial
  | step (s t : PoolState) : Reachable s → PoolStep s t → Reachable t

/-- The entries in the ring positions from botRT up to topRT: as many as are not held,
read from botRT on, wrapping around. -/
def available (s : PoolState) : List Nat :=
  (List.range (MAX_THREADS - s.held.length)).map
    (fun i => s.pool.runtimeThreads.getD ((s.pool.botRT + i) % MAX_THREADS) 0)

/-! ## echothread.c: sendall -/

/-- The value of an ssize_t result once stored in a size_t of w bits. -/
def toSizeT (w : Nat) (r : Int) : Nat := (r % (2 ^ w : Nat)).toNat

/-- The loop of the sendall of echothread.c, where the result of send is kept in a size_t
of w bits. The buffer is a window on the memory mem: buf points at offset off, tosend
bytes are offered. Pointer and counter wrap around, so a result of -1 moves buf one byte
back and adds one to tosend. The first argument bounds the iterations; the result is none
when the loop has not ended within the bound. Returns tosend at loop exit. -/
def echoSendallLoop (w : Nat) (sock : Int) (mem : Int → Char) :
    Nat → Nat → Int → Sys → Option (Nat × Sys)
  | 0, tosend, _, s => if tosend > 0 then none else some (0, s)
  | fuel + 1, tosend, off, s =>
    if tosend > 0 then
      let r := send sock ((List.range tosend).map (fun i => mem (off + i))) s
      if toSizeT w r.1 ≤ 0 then some (tosend, r.2)
      else
        echoSendallLoop w sock mem fuel ((tosend + 2 ^ w - toSizeT w r.1) % 2 ^ w)
          (off + r.1) r.2
    else some (0, s)

/-- The sendall of echothread.c on the len bytes of memory from offset 0: 0 when tosend
is 0 at loop exit, -1 otherwise; none when the loop has not ended within the bound. -/
def echoSendall (w : Nat) (sock : Int) (mem : Int → Char) (fuel len : Nat) (s : Sys) :
    Option (Int × Sys) :=
  match echoSendallLoop w sock mem fuel len 0 s with
  | none => none
  | some (tosend, s2) => some (if tosend = 0 then 0 else -1, s2)

/-- A memory that holds the given bytes from offset 0 and NUL elsewhere. -/
def memoryOf (buf : CStr) (i : Int) : Char :=
  if i < 0 then Char.ofNat 0 else buf.getD i.toNat (Char.ofNat 0)

/-- A table list that is full under the sizes of the skeleton: 100 distinct names of two
letters. -/
def fullParams : config_params :=
  ⟨[], -1, [], [],
    (List.range 100).map (fun i => [Char.ofNat (97 + i / 10), Char.ofNat (97 + i % 10)]), 100⟩

/-! # Theorems -/

set_option maxRecDepth 16384


/-! ### errno and the logs through the transport helpers -/

theorem send_errno (sock : Int) (buf : CStr) (s : Sys) :
    (send sock buf s).2.errno = s.errno ∨ ∃ n, (send sock buf s).2.errno = Errno.sys n := by
  unfold send
  split <;> simp

theorem recv_errno (sock : Int) (s : Sys) :
    (recv sock s).2.2.errno = s.errno ∨ ∃ n, (recv sock s).2.2.errno = Errno.sys n := by
  unfold recv
  split <;> simp

theorem recv_sendLog (sock : Int) (s : Sys) : (recv sock s).2.2.sendLog = s.sendLog := by
  unfold recv
  split <;> rfl

theorem send_sendLog (sock : Int) (buf : CStr) (s : Sys) :
    (send sock buf s).2.sendLog = s.sendLog ++ [(sock, buf, (send sock buf s).1)] := by
  unfold send
  split <;> rfl

theorem sendallLoop_errno (sock : Int) (fuel : Nat) (buf : CStr) (s : Sys) :
    (sendallLoop sock fuel buf s).2.errno = s.errno ∨
      ∃ n, (sendallLoop sock fuel buf s).2.errno = Errno.sys n := by
  induction fuel generalizing buf s with
  | zero => left; rfl
  | succ fuel ih =>
    unfold sendallLoop
    by_cases hb : buf.length > 0
    · simp only [hb, if_true]
      by_cases hr : (send sock buf s).1 ≤ 0
      · simp only [hr, if_true]
        exact send_errno sock buf s
      · simp only [hr, if_false]
        rcases ih (buf.drop (send sock buf s).1.toNat) (send sock buf s).2 with h | ⟨n, h⟩
        · rcases send_errno sock buf s with h2 | ⟨m, h2⟩
          · left; rw [h, h2]
          · right; exact ⟨m, by rw [h, h2]⟩
        · right; exact ⟨n, h⟩
    · simp only [hb, if_false]
      left; trivial

theorem sendallLoop_sendLog (sock : Int) (fuel : Nat) (buf : CStr) (s : Sys) :
    ∃ l, (sendallLoop sock fuel buf s).2.sendLog = s.sendLog ++ l := by
  induction fuel generalizing buf s with
  | zero => exact ⟨[], by simp [sendallLoop]⟩
  | succ fuel ih =>
    unfold sendallLoop
    by_cases hb : buf.length > 0
    · simp only [hb, if_true]
      by_cases hr : (send sock buf s).1 ≤ 0
      · simp only [hr, if_true]
        exact ⟨_, send_sendLog sock buf s⟩
      · simp only [hr, if_false]
        obtain ⟨l, hl⟩ := ih (buf.drop (send sock buf s).1.toNat) (send sock buf s).2
        exact ⟨(sock, buf, (send sock buf s).1) :: l, by rw [hl, send_sendLog]; simp⟩
    · simp only [hb, if_false]
      exact ⟨[], by simp⟩

theorem sendallLoop_first (sock : Int) (fuel : Nat) (buf : CStr) (s : Sys)
    (hb : buf ≠ []) :
    ∃ res rest, (sendallLoop sock (fuel + 1) buf s).2.sendLog
      = s.sendLog ++ (sock, buf, res) :: rest := by
  have hb2 : buf.length > 0 := List.length_pos.mpr hb
  unfold sendallLoop
  simp only [hb2, if_true]
  by_cases hr : (send sock buf s).1 ≤ 0
  · simp only [hr, if_true]
    exact ⟨_, [], send_sendLog sock buf s⟩
  · simp only [hr, if_false]
    obtain ⟨l, hl⟩ := sendallLoop_sendLog sock fuel (buf.drop (send sock buf s).1.toNat)
      (send sock buf s).2
    exact ⟨(send sock buf s).1, l, by rw [hl, send_sendLog]; simp⟩

theorem sendall_errno (sock : Int) (buf : CStr) (s : Sys) :
    (sendall sock buf s).2.errno = s.errno ∨ ∃ n, (sendall sock buf s).2.errno = Errno.sys n :=
  sendallLoop_errno sock buf.length buf s

theorem sendall_first (sock : Int) (buf : CStr) (s : Sys) (hb : buf ≠ []) :
    ∃ res rest, (sendall sock buf s).2.sendLog = s.sendLog ++ (sock, buf, res) :: rest := by
  obtain ⟨n, hn⟩ : ∃ n, buf.length = n + 1 :=
    Nat.exists_eq_succ_of_ne_zero (by simpa using hb)
  have := sendallLoop_first sock n buf s hb
  simpa [sendall, hn] using this

theorem recvlineLoop_errno (sock : Int) (n : Nat) (acc : CStr) (s : Sys) :
    (recvlineLoop sock n acc s).2.2.errno = s.errno ∨
      ∃ e, (recvlineLoop sock n acc s).2.2.errno = Errno.sys e := by
  induction n generalizing acc s with
  | zero => left; rfl
  | succ n ih =>
    unfold recvlineLoop
    by_cases hr : (recv sock s).1 ≤ 0
    · simp only [hr, if_true]
      exact recv_errno sock s
    · simp only [hr, if_false]
      split
      · exact recv_errno sock s
      · split
        · exact recv_errno sock s
        · rename_i c _ _
          rcases ih (acc ++ [c]) (recv sock s).2.2 with h | ⟨e, h⟩
          · rcases recv_errno sock s with h2 | ⟨m, h2⟩
            · left; rw [h, h2]
            · right; exact ⟨m, by rw [h, h2]⟩
          · right; exact ⟨e, h⟩

theorem recvlineLoop_sendLog (sock : Int) (n : Nat) (acc : CStr) (s : Sys) :
    (recvlineLoop sock n acc s).2.2.sendLog = s.sendLog := by
  induction n generalizing acc s with
  | zero => rfl
  | succ n ih =>
    unfold recvlineLoop
    by_cases hr : (recv sock s).1 ≤ 0
    · simp only [hr, if_true]
      exact recv_sendLog sock s
    · simp only [hr, if_false]
      split
      · exact recv_sendLog sock s
      · split
        · exact recv_sendLog sock s
        · rw [ih, recv_sendLog]

/-! ### sscanf conversions hold no white space -/

theorem scan_fields_nospace (ds : List Directive) (inp : CStr) (acc : List CStr)
    (hacc : ∀ f ∈ acc, ∀ c ∈ f, isspace c = false) :
    ∀ f ∈ (scan ds inp acc).1, ∀ c ∈ f, isspace c = false := by
  induction ds generalizing inp acc with
  | nil => simpa [scan] using hacc
  | cons d ds ih =>
    cases d with
    | ws => simpa [scan] using ih _ _ hacc
    | lit x =>
      cases inp with
      | nil => simpa [scan] using hacc
      | cons y rest =>
        by_cases hxy : y = x
        · simpa [scan, hxy] using ih _ _ hacc
        · simpa [scan, hxy] using hacc
    | str =>
      unfold scan
      split
      · simpa using hacc
      · rename_i x rest _
        apply ih
        intro f hf c hc
        rcases List.mem_append.mp hf with h | h
        · exact hacc f h c hc
        · have hfe : f = (x :: rest).takeWhile (fun c => !isspace c) := by simpa using h
          rw [hfe] at hc
          have := List.mem_takeWhile_imp hc
          simpa using this

/-! ### The exchange with the server -/

theorem readReply_cases (L : Limits) (verb table : CStr) (record : Option CStr)
    (line : CStr) (st : Client) (r : Ret)
    (h : readReply L verb table record line st = some r) :
    (r.status = 0 ∧ r.st = st ∧
        r.record = some ((scan (replyFormat verb) line []).1.getD 2 [])) ∨
      (r.status = -1 ∧ r.record = record ∧
        (r.st = st.setErrno Errno.ERR_TABLE_NOT_FOUND ∨
          r.st = st.setErrno Errno.ERR_KEY_NOT_FOUND)) := by
  unfold readReply at h
  simp only at h
  split_ifs at h
  · cases record with
    | none => simp at h
    | some v =>
      simp only [Option.some.injEq] at h
      subst h
      left; exact ⟨rfl, rfl, rfl⟩
  · simp only [Option.some.injEq] at h
    subst h
    right; exact ⟨rfl, rfl, Or.inl rfl⟩
  · simp only [Option.some.injEq] at h
    subst h
    right; exact ⟨rfl, rfl, Or.inr rfl⟩

theorem logFailure_some (log : CStr) (chain : Option Ret) (r : Ret)
    (h : logFailure log chain = some r) : chain = some r := by
  unfold logFailure at h
  cases chain with
  | none => simp at h
  | some c =>
    simp only at h
    split_ifs at h
    · exact h
    · exact h

theorem logFailure_failed (log : CStr) (r : Ret) (hr : r.status ≠ 0) :
    logFailure log (some r) = if sprintfFits log = true then some r else none := by
  unfold logFailure
  simp only
  rw [if_neg hr]

theorem logFailure_fits (log : CStr) (chain : Option Ret) (hfit : sprintfFits log = true) :
    logFailure log chain = chain := by
  cases chain with
  | none => rfl
  | some c =>
    unfold logFailure
    simp only
    split_ifs <;> rfl

theorem logFailure_overrun (log : CStr) (r : Ret) (hr : r.status ≠ 0)
    (hlong : BUFFER_SIZE ≤ log.length) : logFailure log (some r) = none := by
  rw [logFailure_failed log r hr, if_neg]
  simp only [sprintfFits, decide_eq_true_eq]
  omega

theorem getFailureLog_length (t k : CStr) :
    (getFailureLog t k).length = t.length + k.length + 44 := by
  simp only [getFailureLog, List.length_append]
  have h1 : "Record retrieval failed. Table: ".toList.length = 32 := by decide
  have h2 : " and Key: ".toList.length = 10 := by decide
  have h3 : ".\n".toList.length = 2 := by decide
  omega

theorem setFailureLog_length (t k v : CStr) :
    (setFailureLog t k v).length = t.length + k.length + v.length + 56 := by
  simp only [setFailureLog, List.length_append]
  have h1 : "Record modification failed. Table: ".toList.length = 35 := by decide
  have h2 : ", Key: ".toList.length = 7 := by decide
  have h3 : " and Value: ".toList.length = 12 := by decide
  have h4 : ".\n".toList.length = 2 := by decide
  omega

theorem exchange_eq_transact (L : Limits) (verb table : CStr) (record : Option CStr)
    (sock : Int) (request log : CStr) (st : Client)
    (hc : st.connected = true) (ha : st.authenticated = true) :
    exchange L verb table record sock request log st
      = logFailure log (transact L verb table record sock request st) := by
  simp [exchange, hc, ha]

theorem exchange_transact (L : Limits) (verb table : CStr) (record : Option CStr)
    (sock : Int) (request log : CStr) (st : Client) (r : Ret)
    (hc : st.connected = true) (ha : st.authenticated = true)
    (h : exchange L verb table record sock request log st = some r) :
    transact L verb table record sock request st = some r := by
  rw [exchange_eq_transact _ _ _ _ _ _ _ _ hc ha] at h
  exact logFailure_some _ _ _ h

theorem transact_errno (L : Limits) (verb table : CStr) (record : Option CStr) (sock : Int)
    (request : CStr) (st : Client) (r : Ret)
    (h : transact L verb table record sock request st = some r)
    (he : r.st.sys.errno = Errno.ERR_INVALID_PARAM) :
    st.sys.errno = Errno.ERR_INVALID_PARAM := by
  have hs := sendall_errno sock request st.sys
  have hr := recvlineLoop_errno sock (MAX_CMD_LEN - 1) [] (sendall sock request st.sys).2
  have key : (recvline sock MAX_CMD_LEN (sendall sock request st.sys).2).2.2.errno
      = Errno.ERR_INVALID_PARAM → st.sys.errno = Errno.ERR_INVALID_PARAM := by
    intro h1
    simp only [recvline] at h1
    rcases hr with h2 | ⟨n, h2⟩
    · rw [h2] at h1
      rcases hs with h3 | ⟨m, h3⟩
      · rw [← h3]; exact h1
      · rw [h3] at h1; cases h1
    · rw [h2] at h1; cases h1
  unfold transact at h
  simp only at h
  split_ifs at h
  · rcases readReply_cases _ _ _ _ _ _ _ h with ⟨_, h2, _⟩ | ⟨_, _, h2 | h2⟩
    · rw [h2] at he; exact key he
    · rw [h2] at he; simp [Client.setErrno] at he
    · rw [h2] at he; simp [Client.setErrno] at he
  · simp only [Option.some.injEq] at h
    subst h
    exact key he
  · simp only [Option.some.injEq] at h
    subst h
    rcases hs with h3 | ⟨m, h3⟩
    · rw [← h3]; exact he
    · simp only at he; rw [h3] at he; cases he

theorem exchange_errno (L : Limits) (verb table : CStr) (record : Option CStr) (sock : Int)
    (request log : CStr) (st : Client) (r : Ret)
    (h : exchange L verb table record sock request log st = some r)
    (he : r.st.sys.errno = Errno.ERR_INVALID_PARAM) :
    st.sys.errno = Errno.ERR_INVALID_PARAM := by
  unfold exchange at h
  have h := logFailure_some _ _ _ h
  split_ifs at h
  · simp only [Option.some.injEq] at h
    subst h
    simp [Client.setErrno] at he
  · simp only [Option.some.injEq] at h
    subst h
    simp [Client.setErrno] at he
  · exact transact_errno _ _ _ _ _ _ _ _ h he

theorem transact_sendLog (L : Limits) (verb table : CStr) (record : Option CStr) (sock : Int)
    (request : CStr) (st : Client) (r : Ret) (hreq : request ≠ [])
    (h : transact L verb table record sock request st = some r) :
    ∃ res rest, r.st.sys.sendLog = st.sys.sendLog ++ (sock, request, res) :: rest := by
  have hs := sendall_first sock request st.sys hreq
  have hr := recvlineLoop_sendLog sock (MAX_CMD_LEN - 1) [] (sendall sock request st.sys).2
  unfold transact at h
  simp only at h
  split_ifs at h
  · have h3 : r.st.sys.sendLog
        = (recvline sock MAX_CMD_LEN (sendall sock request st.sys).2).2.2.sendLog := by
      rcases readReply_cases _ _ _ _ _ _ _ h with ⟨_, h2, _⟩ | ⟨_, _, h2 | h2⟩ <;>
        rw [h2] <;> rfl
    rw [h3]
    simp only [recvline]
    rw [hr]
    exact hs
  · simp only [Option.some.injEq] at h
    subst h
    simp only [recvline]
    rw [hr]
    exact hs
  · simp only [Option.some.injEq] at h
    subst h
    exact hs

/-! ### storage.c -/

theorem getRequest_ne_nil (t k : CStr) : getRequest t k ≠ [] := by
  simp [getRequest, snprintf, MAX_CMD_LEN]

theorem setRequest_ne_nil (t k v : CStr) : setRequest t k v ≠ [] := by
  simp [setRequest, snprintf, MAX_CMD_LEN]

theorem storage_get_some (L : Limits) (table key record : Option CStr) (conn : Int) (st : Client)
    (r : Ret) (hconn : conn ≠ 0) (h : storage_get L table key record conn st = some r) :
    ∃ t k, table = some t ∧ key = some k ∧
      exchange L "GET".toList t record conn (getRequest t k) (getFailureLog t k) st
        = some r := by
  unfold storage_get at h
  simp only [hconn, if_false] at h
  cases table with
  | none => simp at h
  | some t =>
    cases key with
    | none => simp at h
    | some k => exact ⟨t, k, rfl, rfl, h⟩

theorem storage_set_some (L : Limits) (table key record : Option CStr) (conn : Int) (st : Client)
    (r : Ret) (hconn : conn ≠ 0) (h : storage_set L table key record conn st = some r) :
    ∃ t k v, table = some t ∧ key = some k ∧ record = some v ∧
      exchange L "SET".toList t record conn (setRequest t k v) (setFailureLog t k v) st
        = some r := by
  unfold storage_set at h
  simp only [hconn, if_false] at h
  cases table with
  | none => simp at h
  | some t =>
    cases key with
    | none => simp at h
    | some k =>
      cases record with
      | none => simp at h
      | some v => exact ⟨t, k, v, rfl, rfl, rfl, h⟩

theorem exchange_status_zero (L : Limits) (verb table : CStr) (record : Option CStr)
    (sock : Int) (request log : CStr) (st : Client) (r : Ret)
    (h : exchange L verb table record sock request log st = some r) (h0 : r.status = 0) :
    ∃ line, r.record = some ((scan (replyFormat verb) line []).1.getD 2 []) := by
  unfold exchange at h
  have h := logFailure_some _ _ _ h
  split_ifs at h
  · simp only [Option.some.injEq] at h
    subst h
    simp at h0
  · simp only [Option.some.injEq] at h
    subst h
    simp at h0
  · unfold transact at h
    simp only at h
    split_ifs at h
    · rcases readReply_cases _ _ _ _ _ _ _ h with ⟨_, _, h2⟩ | ⟨h2, _⟩
      · exact ⟨_, h2⟩
      · rw [h0] at h2; simp at h2
    · simp only [Option.some.injEq] at h
      subst h
      simp at h0
    · simp only [Option.some.injEq] at h
      subst h
      simp at h0

theorem getD_nospace (fields : List CStr) (i : Nat)
    (h : ∀ f ∈ fields, ∀ c ∈ f, isspace c = false) :
    ∀ c ∈ fields.getD i [], isspace c = false := by
  intro c hc
  by_cases hi : i < fields.length
  · rw [List.getD_eq_getElem _ _ hi] at hc
    exact h _ (List.getElem_mem hi) c hc
  · rw [List.getD_eq_default _ _ (by omega)] at hc
    simp at hc

/-- C1 (storage_get, round trip). The claim is that a reply line "GET #T #K #V" makes
storage_get return 0 with record.value equal to V in full. The code reads the value with a
%s conversion, which stops at white space: whenever storage_get returns 0, the value it has
stored in the record holds no white-space character, so it is never a value of the form
"name value". -/
theorem storage_get_stores_one_word (L : Limits) (table key record : Option CStr) (conn : Int)
    (st : Client) (r : Ret)
    (h : storage_get L table key record conn st = some r) (h0 : r.status = 0) :
    ∃ v, r.record = some v ∧ ∀ c ∈ v, isspace c = false := by
  by_cases hconn : conn = 0
  · simp only [storage_get, hconn, if_true, Option.some.injEq] at h
    subst h
    simp at h0
  · obtain ⟨t, k, _, _, he⟩ := storage_get_some L table key record conn st r hconn h
    obtain ⟨line, hl⟩ := exchange_status_zero _ _ _ _ _ _ _ _ _ he h0
    refine ⟨_, hl, getD_nospace _ _ ?_⟩
    exact scan_fields_nospace _ _ _ (by simp)

/-- Witness for C1: the reply "GET #inttbl #somekey1 #col 221" makes storage_get return 0
with the record value "col", not "col 221". -/
theorem storage_get_stores_one_word_witness :
    ∃ r, storage_get skeletonLimits (some "inttbl".toList) (some "somekey1".toList)
          (some []) 3 (liveClient "GET #inttbl #somekey1 #col 221".toList) = some r ∧
      r.status = 0 ∧ r.record = some "col".toList ∧ r.record ≠ some "col 221".toList ∧
      ∃ v, r.record = some v ∧ ∀ c ∈ v, isspace c = false :=
  ⟨_, rfl, by decide, by decide, by decide,
    storage_get_stores_one_word skeletonLimits (some "inttbl".toList)
      (some "somekey1".toList) (some []) 3
      (liveClient "GET #inttbl #somekey1 #col 221".toList) _ rfl (by decide)⟩


/-- C2 (not authenticated). On a connected client that has not authenticated, storage_get
and storage_set with a non-null connection make no exchange and store
ERR_AUTHENTICATION_FAILED in errno, which is not the ERR_NOT_AUTHENTICATED of the claim;
they return -1 after formatting their failure text into client_buffer, which is undefined
behaviour when the text does not fit. -/
theorem storage_unauthenticated (L : Limits) (t k v : CStr) (rec : Option CStr) (conn : Int)
    (st : Client) (hconn : conn ≠ 0) (hc : st.connected = true)
    (ha : st.authenticated = false) :
    storage_get L (some t) (some k) rec conn st
      = (if sprintfFits (getFailureLog t k) = true then
          some ⟨-1, rec, st.setErrno Errno.ERR_AUTHENTICATION_FAILED⟩ else none) ∧
    storage_set L (some t) (some k) (some v) conn st
      = (if sprintfFits (setFailureLog t k v) = true then
          some ⟨-1, some v, st.setErrno Errno.ERR_AUTHENTICATION_FAILED⟩ else none) ∧
    (st.setErrno Errno.ERR_AUTHENTICATION_FAILED).sys.errno ≠ Errno.ERR_NOT_AUTHENTICATED := by
  refine ⟨?_, ?_, by simp [Client.setErrno]⟩
  · simp only [storage_get, if_neg hconn, exchange]
    rw [if_neg (by simp [hc]), if_pos ha]
    exact logFailure_failed _ _ (by simp)
  · simp only [storage_set, if_neg hconn, exchange]
    rw [if_neg (by simp [hc]), if_pos ha]
    exact logFailure_failed _ _ (by simp)

/-- Witness for C2: a get and a set on a connected client that has not authenticated. -/
theorem storage_unauthenticated_witness :
    storage_get skeletonLimits (some "inttbl".toList) (some "somekey".toList) (some []) 3
        (freshClient [])
      = some ⟨-1, some [], (freshClient []).setErrno Errno.ERR_AUTHENTICATION_FAILED⟩ ∧
    storage_set skeletonLimits (some "inttbl".toList) (some "somekey".toList)
        (some "col 22".toList) 3 (freshClient [])
      = some ⟨-1, some "col 22".toList,
          (freshClient []).setErrno Errno.ERR_AUTHENTICATION_FAILED⟩ ∧
    (storage_get skeletonLimits (some "inttbl".toList) (some "somekey".toList) (some []) 3
        (freshClient [])
      = (if sprintfFits (getFailureLog "inttbl".toList "somekey".toList) = true then
          some ⟨-1, some [], (freshClient []).setErrno Errno.ERR_AUTHENTICATION_FAILED⟩
        else none) ∧
    storage_set skeletonLimits (some "inttbl".toList) (some "somekey".toList)
        (some "col 22".toList) 3 (freshClient [])
      = (if sprintfFits (setFailureLog "inttbl".toList "somekey".toList "col 22".toList) = true
        then some ⟨-1, some "col 22".toList,
          (freshClient []).setErrno Errno.ERR_AUTHENTICATION_FAILED⟩
        else none) ∧
    ((freshClient []).setErrno Errno.ERR_AUTHENTICATION_FAILED).sys.errno
      ≠ Errno.ERR_NOT_AUTHENTICATED) :=
  ⟨by decide, by decide,
    storage_unauthenticated skeletonLimits "inttbl".toList "somekey".toList "col 22".toList
      (some []) 3 (freshClient []) (by decide) rfl rfl⟩

theorem storage_auth_success (crypt : CStr → CStr → Option CStr) (username passwd : Option CStr)
    (conn : Int) (st : Client) (r : Ret)
    (h : storage_auth crypt username passwd conn st = some r) (h0 : r.status = 0) :
    r.st.authenticated = true ∧ r.st.connected = st.connected ∧ st.connected = true ∧
      conn ≠ 0 ∧ ∃ l, r.st.sys.sendLog = st.sys.sendLog ++ l := by
  unfold storage_auth at h
  by_cases hconn : conn = 0
  · rw [if_pos hconn] at h
    simp only [Option.some.injEq] at h
    subst h; simp at h0
  · rw [if_neg hconn] at h
    by_cases hc : st.connected = false
    · rw [if_pos hc] at h
      simp only [Option.some.injEq] at h
      subst h; simp at h0
    · rw [if_neg hc] at h
      cases passwd with
      | none => simp at h
      | some p =>
        cases username with
        | none => simp at h
        | some u =>
          cases hcr : crypt p DEFAULT_CRYPT_SALT with
          | none => simp [hcr] at h
          | some e =>
            simp only [hcr, logAuth] at h
            split_ifs at h <;> simp only [Option.some.injEq] at h <;> subst h
            · refine ⟨rfl, rfl, by simpa using hc, hconn, ?_⟩
              obtain ⟨l, hl⟩ := sendallLoop_sendLog conn (authRequest u e).length
                (authRequest u e) st.sys
              exact ⟨l, by simp only [recvline, recvlineLoop_sendLog]; exact hl⟩
            · simp at h0
            · simp at h0
            · simp at h0

theorem storage_connect_success (L : Limits) (hostname : Option CStr) (port : Int)
    (env : ConnectResults) (st : Client) (c : Int × Client)
    (h : storage_connect L hostname port env st = some c) (hne : c.1 ≠ 0) :
    c.2.connected = true ∧ c.2.authenticated = st.authenticated ∧
    c.2.sys.sendLog = st.sys.sendLog := by
  unfold storage_connect at h
  cases hostname with
  | none =>
    simp only at h
    split_ifs at h <;> simp only [Option.some.injEq] at h <;> subst h <;> simp at hne
  | some hn =>
    simp only at h
    split_ifs at h
    all_goals first
      | (simp only [Option.some.injEq] at h
         subst h
         first
           | exact ⟨rfl, rfl, rfl⟩
           | simp at hne)
      | simp at h

theorem storage_disconnect_ok (conn : Int) (closeErr : Option Nat) (st : Client)
    (hconn : conn ≠ 0) :
    (storage_disconnect conn closeErr st).1 = 0 ∧
    (storage_disconnect conn closeErr st).2.connected = false ∧
    (storage_disconnect conn closeErr st).2.authenticated = st.authenticated ∧
    (storage_disconnect conn closeErr st).2.sys.sendLog = st.sys.sendLog := by
  simp [storage_disconnect, hconn]

/-- C3 (a new connection starts unauthenticated). After a successful storage_auth,
storage_disconnect returns 0 and a storage_connect that succeeds yields a state in which
authenticated is still true: a storage_get on the new handle that returns has handed its
request line to send, instead of failing without sending. -/
theorem authenticated_survives_reconnect (crypt : CStr → CStr → Option CStr)
    (username passwd : Option CStr) (conn : Int) (st : Client) (r : Ret)
    (closeErr : Option Nat) (hostname : Option CStr) (port : Int) (env : ConnectResults)
    (L : Limits) (c : Int × Client)
    (hauth : storage_auth crypt username passwd conn st = some r) (h0 : r.status = 0)
    (hconnect : storage_connect L hostname port env (storage_disconnect conn closeErr r.st).2
      = some c)
    (hnew : c.1 ≠ 0)
    (t k : CStr) (rec : Option CStr) (r2 : Ret)
    (hget : storage_get L (some t) (some k) rec c.1 c.2 = some r2) :
    (storage_disconnect conn closeErr r.st).1 = 0 ∧
    c.2.authenticated = true ∧
    ∃ res rest, r2.st.sys.sendLog = r.st.sys.sendLog ++ (c.1, getRequest t k, res) :: rest := by
  obtain ⟨ha, _, _, hconn, _⟩ := storage_auth_success crypt username passwd conn st r hauth h0
  obtain ⟨hd0, _, hda, hdl⟩ := storage_disconnect_ok conn closeErr r.st hconn
  obtain ⟨hcc, hca, hcl⟩ := storage_connect_success L hostname port env
    (storage_disconnect conn closeErr r.st).2 c hconnect hnew
  refine ⟨hd0, by rw [hca, hda, ha], ?_⟩
  obtain ⟨t2, k2, ht, hk, hex⟩ := storage_get_some L (some t) (some k) rec c.1 c.2 r2 hnew hget
  cases ht; cases hk
  have htr := exchange_transact L "GET".toList t rec c.1 (getRequest t k) (getFailureLog t k)
    c.2 r2 hcc (by rw [hca, hda, ha]) hex
  obtain ⟨res, rest, hlog⟩ := transact_sendLog L "GET".toList t rec c.1 (getRequest t k) c.2 r2
    (getRequest_ne_nil t k) htr
  exact ⟨res, rest, by rw [hlog, hcl, hdl]⟩

/-- Witness for C3: log in on handle 3, disconnect, connect again as handle 4; a
storage_get on handle 4 without storage_auth returns 0 with the value of the reply. -/
theorem authenticated_survives_reconnect_witness :
    ∃ r c r2,
      storage_auth sampleCrypt (some "admin".toList) (some "dog4sale".toList) 3
        (loginClient "GET #inttbl #somekey1 #col".toList) = some r ∧
      r.status = 0 ∧
      storage_connect skeletonLimits (some "localhost".toList) 4848 ⟨4, 0, 0⟩
        (storage_disconnect 3 none r.st).2 = some c ∧
      c.1 = 4 ∧
      storage_get skeletonLimits (some "inttbl".toList) (some "somekey1".toList) (some []) c.1
        c.2 = some r2 ∧
      r2.status = 0 ∧ r2.record = some "col".toList ∧
      ((storage_disconnect 3 none r.st).1 = 0 ∧
        c.2.authenticated = true ∧
        ∃ res rest, r2.st.sys.sendLog = r.st.sys.sendLog ++
          (c.1, getRequest "inttbl".toList "somekey1".toList, res) :: rest) :=
  ⟨_, _, _, rfl, by decide, rfl, by decide, rfl, by decide, by decide,
    authenticated_survives_reconnect sampleCrypt (some "admin".toList)
      (some "dog4sale".toList) 3 (loginClient "GET #inttbl #somekey1 #col".toList) _
      none (some "localhost".toList) 4848 ⟨4, 0, 0⟩ skeletonLimits _ rfl (by decide) rfl
      (by decide) "inttbl".toList "somekey1".toList (some []) _ rfl⟩


/-- C4 (null connection). With a null connection storage_get and storage_set return -1 and
set errno to ERR_INVALID_PARAM for every table, key and record (null or not) and every state;
the flags, the send log and both scripts are unchanged, so nothing is sent or received. -/
theorem storage_null_connection (L : Limits) (table key record : Option CStr) (st : Client) :
    storage_get L table key record 0 st
        = some ⟨-1, record, st.setErrno Errno.ERR_INVALID_PARAM⟩ ∧
    storage_set L table key record 0 st
        = some ⟨-1, record, st.setErrno Errno.ERR_INVALID_PARAM⟩ ∧
    (st.setErrno Errno.ERR_INVALID_PARAM).sys.errno = Errno.ERR_INVALID_PARAM ∧
    (st.setErrno Errno.ERR_INVALID_PARAM).connected = st.connected ∧
    (st.setErrno Errno.ERR_INVALID_PARAM).authenticated = st.authenticated ∧
    (st.setErrno Errno.ERR_INVALID_PARAM).sys.sendLog = st.sys.sendLog ∧
    (st.setErrno Errno.ERR_INVALID_PARAM).sys.sendq = st.sys.sendq ∧
    (st.setErrno Errno.ERR_INVALID_PARAM).sys.recvq = st.sys.recvq := by
  simp [storage_get, storage_set, Client.setErrno]

/-- C5 (null table, key or record). The claim is that these calls return -1 with
ERR_INVALID_PARAM. The code tests only the connection: with a non-null connection a null
table or key is handed to a %s conversion by storage_get and storage_set (undefined
behaviour, no return value), and storage_get with a null record never stores
ERR_INVALID_PARAM in errno. -/
theorem storage_null_argument (L : Limits) (table key record : Option CStr) (t k : CStr)
    (conn : Int) (st : Client) (hconn : conn ≠ 0)
    (he : st.sys.errno ≠ Errno.ERR_INVALID_PARAM) :
    storage_get L none key record conn st = none ∧
    storage_get L table none record conn st = none ∧
    storage_set L none key record conn st = none ∧
    storage_set L table none record conn st = none ∧
    ∀ r, storage_get L (some t) (some k) none conn st = some r →
      r.st.sys.errno ≠ Errno.ERR_INVALID_PARAM := by
  refine ⟨by simp [storage_get, hconn], ?_, by simp [storage_set, hconn], ?_, ?_⟩
  · cases table <;> simp [storage_get, hconn]
  · cases table <;> simp [storage_set, hconn]
  · intro r h hr
    obtain ⟨t2, k2, _, _, hex⟩ := storage_get_some L (some t) (some k) none conn st r hconn h
    exact he (exchange_errno _ _ _ _ _ _ _ _ _ hex hr)

/-- Witness for C5: null table, key and record on a live authenticated connection. -/
theorem storage_null_argument_witness :
    storage_get skeletonLimits none (some "somekey".toList) (some []) 3
      (liveClient "GET #inttbl #somekey #col".toList) = none ∧
    storage_get skeletonLimits (some "inttbl".toList) none (some []) 3
      (liveClient "GET #inttbl #somekey #col".toList) = none ∧
    storage_set skeletonLimits none (some "somekey".toList) (some []) 3
      (liveClient "GET #inttbl #somekey #col".toList) = none ∧
    storage_set skeletonLimits (some "inttbl".toList) none (some []) 3
      (liveClient "GET #inttbl #somekey #col".toList) = none ∧
    ∀ r, storage_get skeletonLimits (some "inttbl".toList) (some "somekey".toList) none 3
        (liveClient "GET #inttbl #somekey #col".toList) = some r →
      r.st.sys.errno ≠ Errno.ERR_INVALID_PARAM :=
  storage_null_argument skeletonLimits (some "inttbl".toList) (some "somekey".toList)
    (some []) "inttbl".toList "somekey".toList 3 (liveClient "GET #inttbl #somekey #col".toList)
    (by decide) (by decide)

/-- C6 (delete through a null record). The claim is that storage_set with a null record
sends a SET line with an empty value. The code formats record->value before any check
other than the one on the connection, so with a non-null connection and a null record it
dereferences NULL: undefined behaviour, no SET line and no return value. -/
theorem storage_set_null_record (L : Limits) (table key : Option CStr) (conn : Int)
    (st : Client) (hconn : conn ≠ 0) :
    storage_set L table key none conn st = none := by
  unfold storage_set
  rw [if_neg hconn]
  cases table <;> cases key <;> rfl

/-- Witness for C6: the delete call of the tests on a live authenticated connection. -/
theorem storage_set_null_record_witness :
    (3 : Int) ≠ 0 ∧
    storage_set skeletonLimits (some "inttbl".toList) (some "missingkey".toList) none 3
      (liveClient "SET #inttbl #missingkey #".toList) = none :=
  ⟨by decide, storage_set_null_record skeletonLimits (some "inttbl".toList)
    (some "missingkey".toList) 3 (liveClient "SET #inttbl #missingkey #".toList) (by decide)⟩


/-- C7 (identifiers with bad characters). The claim is that a table or key with a
character that is not alphanumeric is rejected with ERR_INVALID_PARAM. The code never
looks at the characters: on a live authenticated connection storage_get and storage_set
are the exchange with the server (followed by the log of a failure) for every table and
key, storage_get hands the request line with the identifiers to send, and neither stores
ERR_INVALID_PARAM in errno. -/
theorem storage_identifiers_unchecked (L : Limits) (t k v : CStr) (rec : Option CStr)
    (conn : Int) (st : Client) (hconn : conn ≠ 0) (hc : st.connected = true)
    (ha : st.authenticated = true) (he : st.sys.errno ≠ Errno.ERR_INVALID_PARAM) :
    storage_get L (some t) (some k) rec conn st
      = logFailure (getFailureLog t k)
          (transact L "GET".toList t rec conn (getRequest t k) st) ∧
    storage_set L (some t) (some k) (some v) conn st
      = logFailure (setFailureLog t k v)
          (transact L "SET".toList t (some v) conn (setRequest t k v) st) ∧
    (∀ r, storage_get L (some t) (some k) rec conn st = some r →
      r.st.sys.errno ≠ Errno.ERR_INVALID_PARAM ∧
      ∃ res rest, r.st.sys.sendLog = st.sys.sendLog ++ (conn, getRequest t k, res) :: rest) ∧
    (∀ r, storage_set L (some t) (some k) (some v) conn st = some r →
      r.st.sys.errno ≠ Errno.ERR_INVALID_PARAM) := by
  have hg : storage_get L (some t) (some k) rec conn st
      = logFailure (getFailureLog t k)
          (transact L "GET".toList t rec conn (getRequest t k) st) := by
    simp only [storage_get, if_neg hconn]
    exact exchange_eq_transact _ _ _ _ _ _ _ _ hc ha
  have hs : storage_set L (some t) (some k) (some v) conn st
      = logFailure (setFailureLog t k v)
          (transact L "SET".toList t (some v) conn (setRequest t k v) st) := by
    simp only [storage_set, if_neg hconn]
    exact exchange_eq_transact _ _ _ _ _ _ _ _ hc ha
  refine ⟨hg, hs, ?_, ?_⟩
  · intro r h
    rw [hg] at h
    have h := logFailure_some _ _ _ h
    exact ⟨fun hr => he (transact_errno _ _ _ _ _ _ _ _ h hr),
      transact_sendLog _ _ _ _ _ _ _ _ (getRequest_ne_nil t k) h⟩
  · intro r h
    rw [hs] at h
    have h := logFailure_some _ _ _ h
    exact fun hr => he (transact_errno _ _ _ _ _ _ _ _ h hr)

/-- Witness for C7: table "bad_table" and key "bad_key" on a live authenticated connection;
storage_get returns 0 when the server echoes them. -/
theorem storage_identifiers_unchecked_witness :
    (∃ r, storage_get skeletonLimits (some "bad_table".toList) (some "bad_key".toList)
        (some []) 3 (liveClient "GET #bad_table #bad_key #col".toList) = some r ∧
      r.status = 0) ∧
    (storage_get skeletonLimits (some "bad_table".toList) (some "bad_key".toList) (some []) 3
        (liveClient "GET #bad_table #bad_key #col".toList)
      = logFailure (getFailureLog "bad_table".toList "bad_key".toList)
          (transact skeletonLimits "GET".toList "bad_table".toList (some []) 3
            (getRequest "bad_table".toList "bad_key".toList)
            (liveClient "GET #bad_table #bad_key #col".toList)) ∧
    storage_set skeletonLimits (some "bad_table".toList) (some "bad_key".toList)
        (some "col 22".toList) 3 (liveClient "GET #bad_table #bad_key #col".toList)
      = logFailure (setFailureLog "bad_table".toList "bad_key".toList "col 22".toList)
          (transact skeletonLimits "SET".toList "bad_table".toList (some "col 22".toList) 3
            (setRequest "bad_table".toList "bad_key".toList "col 22".toList)
            (liveClient "GET #bad_table #bad_key #col".toList)) ∧
    (∀ r, storage_get skeletonLimits (some "bad_table".toList) (some "bad_key".toList)
        (some []) 3 (liveClient "GET #bad_table #bad_key #col".toList) = some r →
      r.st.sys.errno ≠ Errno.ERR_INVALID_PARAM ∧
      ∃ res rest, r.st.sys.sendLog
        = (liveClient "GET #bad_table #bad_key #col".toList).sys.sendLog ++
          (3, getRequest "bad_table".toList "bad_key".toList, res) :: rest) ∧
    (∀ r, storage_set skeletonLimits (some "bad_table".toList) (some "bad_key".toList)
        (some "col 22".toList) 3 (liveClient "GET #bad_table #bad_key #col".toList) = some r →
      r.st.sys.errno ≠ Errno.ERR_INVALID_PARAM)) :=
  ⟨⟨_, rfl, by decide⟩,
    storage_identifiers_unchecked skeletonLimits "bad_table".toList "bad_key".toList
      "col 22".toList (some []) 3 (liveClient "GET #bad_table #bad_key #col".toList)
      (by decide) rfl rfl (by decide)⟩

/-- C8 (values that do not match the schema). The claim is that storage_set rejects such
a value with ERR_INVALID_PARAM. The code does not examine the value: on a live authenticated
connection, for every value, a storage_set that returns has handed the SET line carrying
the value to send and has not stored ERR_INVALID_PARAM in errno. -/
theorem storage_set_value_unchecked (L : Limits) (t k v : CStr) (conn : Int) (st : Client)
    (r : Ret) (hconn : conn ≠ 0) (hc : st.connected = true) (ha : st.authenticated = true)
    (he : st.sys.errno ≠ Errno.ERR_INVALID_PARAM)
    (h : storage_set L (some t) (some k) (some v) conn st = some r) :
    r.st.sys.errno ≠ Errno.ERR_INVALID_PARAM ∧
    ∃ res rest, r.st.sys.sendLog = st.sys.sendLog ++ (conn, setRequest t k v, res) :: rest := by
  simp only [storage_set, if_neg hconn] at h
  have h := exchange_transact _ _ _ _ _ _ _ _ _ hc ha h
  exact ⟨fun hr => he (transact_errno _ _ _ _ _ _ _ _ h hr),
    transact_sendLog _ _ _ _ _ _ _ _ (setRequest_ne_nil t k v) h⟩

/-- Witness for C8: the value "col 22!?" is sent in the SET line, and storage_set returns 0
when the server echoes it. -/
theorem storage_set_value_unchecked_witness :
    ∃ r, storage_set skeletonLimits (some "inttbl".toList) (some "somekey".toList)
        (some "col 22!?".toList) 3 (liveClient "SET #inttbl #somekey #col 22!?".toList)
        = some r ∧
      r.status = 0 ∧
      setRequest "inttbl".toList "somekey".toList "col 22!?".toList
        = "SET #inttbl #somekey #col 22!?\n".toList ∧
      (r.st.sys.errno ≠ Errno.ERR_INVALID_PARAM ∧
        ∃ res rest, r.st.sys.sendLog
          = (liveClient "SET #inttbl #somekey #col 22!?".toList).sys.sendLog ++
            (3, setRequest "inttbl".toList "somekey".toList "col 22!?".toList, res) :: rest) :=
  ⟨_, rfl, by decide, by decide,
    storage_set_value_unchecked skeletonLimits "inttbl".toList "somekey".toList
      "col 22!?".toList 3 (liveClient "SET #inttbl #somekey #col 22!?".toList) _
      (by decide) rfl rfl (by decide) rfl⟩


/-- C9 (closed connection). The claim is that after storage_disconnect every storage_get
and storage_set on the handle returns -1 with errno ERR_CONNECTION_FAIL and sends nothing,
for every table, key and record. With connected false, as storage_disconnect leaves it,
the calls do so only when table and key (and the record of storage_set) are not NULL and
the failure text fits client_buffer; then nothing is sent or received. A NULL table or key
goes to a %s conversion, and a table of BUFFER_SIZE characters makes the sprintf of the
failure text overrun client_buffer: undefined behaviour instead of the return of -1. -/
theorem storage_after_disconnect (L : Limits) (conn : Int) (table key record : Option CStr)
    (st : Client) (hconn : conn ≠ 0) (hc : st.connected = false) :
    storage_get L table key record conn st
      = (match table, key with
        | some t, some k =>
          if sprintfFits (getFailureLog t k) = true then
            some ⟨-1, record, st.setErrno Errno.ERR_CONNECTION_FAIL⟩
          else none
        | _, _ => none) ∧
    storage_set L table key record conn st
      = (match table, key, record with
        | some t, some k, some v =>
          if sprintfFits (setFailureLog t k v) = true then
            some ⟨-1, record, st.setErrno Errno.ERR_CONNECTION_FAIL⟩
          else none
        | _, _, _ => none) ∧
    (∀ t k, BUFFER_SIZE ≤ t.length →
      storage_get L (some t) (some k) record conn st = none ∧
      ∀ v, storage_set L (some t) (some k) (some v) conn st = none) ∧
    (st.setErrno Errno.ERR_CONNECTION_FAIL).sys.errno = Errno.ERR_CONNECTION_FAIL ∧
    (st.setErrno Errno.ERR_CONNECTION_FAIL).sys.sendLog = st.sys.sendLog ∧
    (st.setErrno Errno.ERR_CONNECTION_FAIL).sys.sendq = st.sys.sendq ∧
    (st.setErrno Errno.ERR_CONNECTION_FAIL).sys.recvq = st.sys.recvq ∧
    (st.setErrno Errno.ERR_CONNECTION_FAIL).authenticated = st.authenticated ∧
    ∀ (closeErr : Option Nat) (st0 : Client),
      (storage_disconnect conn closeErr st0).1 = 0 ∧
      (storage_disconnect conn closeErr st0).2.connected = false ∧
      (storage_disconnect conn closeErr st0).2.authenticated = st0.authenticated ∧
      (storage_disconnect conn closeErr st0).2.sys.sendLog = st0.sys.sendLog ∧
      (storage_disconnect conn closeErr st0).2.sys.sendq = st0.sys.sendq ∧
      (storage_disconnect conn closeErr st0).2.sys.recvq = st0.sys.recvq := by
  have hg : ∀ t k, storage_get L (some t) (some k) record conn st
      = if sprintfFits (getFailureLog t k) = true then
          some ⟨-1, record, st.setErrno Errno.ERR_CONNECTION_FAIL⟩ else none := by
    intro t k
    simp only [storage_get, if_neg hconn, exchange]
    rw [if_pos hc]
    exact logFailure_failed _ _ (by simp)
  have hs : ∀ t k v, storage_set L (some t) (some k) (some v) conn st
      = if sprintfFits (setFailureLog t k v) = true then
          some ⟨-1, some v, st.setErrno Errno.ERR_CONNECTION_FAIL⟩ else none := by
    intro t k v
    simp only [storage_set, if_neg hconn, exchange]
    rw [if_pos hc]
    exact logFailure_failed _ _ (by simp)
  refine ⟨?_, ?_, ?_, rfl, rfl, rfl, rfl, rfl, ?_⟩
  · cases table with
    | none => simp [storage_get, hconn]
    | some t =>
      cases key with
      | none => simp [storage_get, hconn]
      | some k => exact hg t k
  · cases table with
    | none => simp [storage_set, hconn]
    | some t =>
      cases key with
      | none => simp [storage_set, hconn]
      | some k =>
        cases record with
        | none => simp [storage_set, hconn]
        | some v => exact hs t k v
  · intro t k hlong
    constructor
    · rw [hg t k, if_neg]
      have := getFailureLog_length t k
      simp only [sprintfFits, decide_eq_true_eq]
      omega
    · intro v
      rw [hs t k v, if_neg]
      have := setFailureLog_length t k v
      simp only [sprintfFits, decide_eq_true_eq]
      omega
  · intro closeErr st0
    simp [storage_disconnect, hconn]

/-- Witness for C9: handle 3 of a live authenticated client, closed and used again, with
the table of the tests and with a table of BUFFER_SIZE characters. -/
theorem storage_after_disconnect_witness :
    storage_get skeletonLimits (some "inttbl".toList) (some "somekey".toList) (some []) 3
        (storage_disconnect 3 none (liveClient [])).2
      = some ⟨-1, some [],
          (storage_disconnect 3 none (liveClient [])).2.setErrno Errno.ERR_CONNECTION_FAIL⟩ ∧
    storage_set skeletonLimits (some "inttbl".toList) (some "somekey".toList)
        (some "col 22".toList) 3 (storage_disconnect 3 none (liveClient [])).2
      = some ⟨-1, some "col 22".toList,
          (storage_disconnect 3 none (liveClient [])).2.setErrno Errno.ERR_CONNECTION_FAIL⟩ ∧
    storage_get skeletonLimits (some (List.replicate BUFFER_SIZE 'a')) (some "somekey".toList)
        (some []) 3 (storage_disconnect 3 none (liveClient [])).2 = none ∧
    storage_get skeletonLimits none (some "somekey".toList) (some []) 3
        (storage_disconnect 3 none (liveClient [])).2 = none :=
  ⟨by decide, by decide,
    ((storage_after_disconnect skeletonLimits 3 (some "inttbl".toList)
      (some "somekey".toList) (some []) (storage_disconnect 3 none (liveClient [])).2
      (by decide) rfl).2.2.1 (List.replicate BUFFER_SIZE 'a') "somekey".toList
      (by simp)).1,
    by decide⟩

theorem transact_transport_failure (L : Limits) (verb table : CStr) (record : Option CStr)
    (sock : Int) (request : CStr) (st : Client)
    (hfail : (sendall sock request st.sys).1 ≠ 0 ∨
      (recvline sock MAX_CMD_LEN (sendall sock request st.sys).2).1 ≠ 0)
    (he : st.sys.errno ≠ Errno.ERR_CONNECTION_FAIL) :
    ∃ r, transact L verb table record sock request st = some r ∧ r.status = -1 ∧
      r.record = record ∧ r.st.sys.errno ≠ Errno.ERR_CONNECTION_FAIL := by
  have hs := sendall_errno sock request st.sys
  have hr := recvlineLoop_errno sock (MAX_CMD_LEN - 1) [] (sendall sock request st.sys).2
  have hs2 : (sendall sock request st.sys).2.errno ≠ Errno.ERR_CONNECTION_FAIL := by
    rcases hs with h | ⟨n, h⟩ <;> rw [h]
    · exact he
    · simp
  have hr2 : (recvline sock MAX_CMD_LEN (sendall sock request st.sys).2).2.2.errno
      ≠ Errno.ERR_CONNECTION_FAIL := by
    simp only [recvline]
    rcases hr with h | ⟨n, h⟩ <;> rw [h]
    · exact hs2
    · simp
  unfold transact
  simp only
  by_cases h1 : (sendall sock request st.sys).1 = 0
  · have h2 : (recvline sock MAX_CMD_LEN (sendall sock request st.sys).2).1 ≠ 0 := by
      rcases hfail with h | h
      · exact absurd h1 h
      · exact h
    rw [if_pos h1, if_neg h2]
    exact ⟨_, rfl, rfl, rfl, hr2⟩
  · rw [if_neg h1]
    exact ⟨_, rfl, rfl, rfl, hs2⟩

/-- C10 (transport failure). The claim is that a failing sendall or recvline makes
storage_get and storage_set return -1 with errno set to ERR_CONNECTION_FAIL. They do
return -1 and leave the record alone (when the failure text fits client_buffer; the
sprintf overruns it otherwise), but they assign nothing to errno on this path: when errno
was not ERR_CONNECTION_FAIL before the call it is not afterwards. -/
theorem storage_transport_failure (L : Limits) (t k v : CStr) (rec : Option CStr) (conn : Int)
    (st : Client) (hconn : conn ≠ 0) (hc : st.connected = true) (ha : st.authenticated = true)
    (he : st.sys.errno ≠ Errno.ERR_CONNECTION_FAIL) :
    ((sendall conn (getRequest t k) st.sys).1 ≠ 0 ∨
        (recvline conn MAX_CMD_LEN (sendall conn (getRequest t k) st.sys).2).1 ≠ 0 →
      ∃ r, r.status = -1 ∧ r.record = rec ∧ r.st.sys.errno ≠ Errno.ERR_CONNECTION_FAIL ∧
        storage_get L (some t) (some k) rec conn st
          = if sprintfFits (getFailureLog t k) = true then some r else none) ∧
    ((sendall conn (setRequest t k v) st.sys).1 ≠ 0 ∨
        (recvline conn MAX_CMD_LEN (sendall conn (setRequest t k v) st.sys).2).1 ≠ 0 →
      ∃ r, r.status = -1 ∧ r.record = some v ∧
        r.st.sys.errno ≠ Errno.ERR_CONNECTION_FAIL ∧
        storage_set L (some t) (some k) (some v) conn st
          = if sprintfFits (setFailureLog t k v) = true then some r else none) := by
  constructor
  · intro hfail
    obtain ⟨r, h1, h2, h3, h4⟩ := transact_transport_failure L "GET".toList t rec conn
      (getRequest t k) st hfail he
    refine ⟨r, h2, h3, h4, ?_⟩
    simp only [storage_get, if_neg hconn]
    rw [exchange_eq_transact _ _ _ _ _ _ _ _ hc ha, h1]
    exact logFailure_failed _ _ (by rw [h2]; decide)
  · intro hfail
    obtain ⟨r, h1, h2, h3, h4⟩ := transact_transport_failure L "SET".toList t (some v) conn
      (setRequest t k v) st hfail he
    refine ⟨r, h2, h3, h4, ?_⟩
    simp only [storage_set, if_neg hconn]
    rw [exchange_eq_transact _ _ _ _ _ _ _ _ hc ha, h1]
    exact logFailure_failed _ _ (by rw [h2]; decide)

/-- Witness for C10: the peer closes the stream after the request; recvline returns -1,
storage_get returns -1 and errno still holds 0. -/
theorem storage_transport_failure_witness :
    (recvline 3 MAX_CMD_LEN
        (sendall 3 (getRequest "inttbl".toList "somekey".toList) closedPeerClient.sys).2).1
      = -1 ∧
    storage_get skeletonLimits (some "inttbl".toList) (some "somekey".toList) (some []) 3
        closedPeerClient
      = some ⟨-1, some [], ⟨true, true,
          ⟨Errno.sys 0, [], [],
            [(3, getRequest "inttbl".toList "somekey".toList, 21)], [], []⟩⟩⟩ ∧
    (∃ r, r.status = -1 ∧ r.record = some [] ∧
      r.st.sys.errno ≠ Errno.ERR_CONNECTION_FAIL ∧
      storage_get skeletonLimits (some "inttbl".toList) (some "somekey".toList) (some []) 3
          closedPeerClient
        = if sprintfFits (getFailureLog "inttbl".toList "somekey".toList) = true then some r
          else none) :=
  ⟨by decide, by decide,
    (storage_transport_failure skeletonLimits "inttbl".toList "somekey".toList [] (some []) 3
      closedPeerClient (by decide) rfl rfl (by decide)).1 (Or.inr (by decide))⟩


/-! ### utils.c: sendall and recvline -/

theorem send_result (sock : Int) (buf : CStr) (s : Sys) :
    (send sock buf s).1 = -1 ∨ (0 ≤ (send sock buf s).1 ∧ (send sock buf s).1 ≤ buf.length) := by
  unfold send
  split
  · left; rfl
  · right
    simp only
    constructor
    · exact Int.ofNat_nonneg _
    · exact Int.ofNat_le.mpr (Nat.min_le_right _ _)
  · left; rfl

/-- What the loop of sendall does, read off the log of send calls. -/
theorem sendallLoop_spec (sock : Int) (fuel : Nat) (buf : CStr) (s : Sys)
    (hf : buf.length ≤ fuel) :
    ∃ l, (sendallLoop sock fuel buf s).2.sendLog = s.sendLog ++ l ∧
      (∀ e ∈ l, e.1 = sock ∧ ∃ pre, pre ++ e.2.1 = buf) ∧
      (∃ rest, delivered l ++ rest = buf ∧ (sendallLoop sock fuel buf s).1 = rest.length) ∧
      (∀ e ∈ l.dropLast, 0 < e.2.2) ∧
      ((sendallLoop sock fuel buf s).1 ≠ 0 ↔ ∃ last, l.getLast? = some last ∧ last.2.2 ≤ 0) ∧
      (buf = [] → l = []) := by
  induction fuel generalizing buf s with
  | zero =>
    have hb : buf = [] := List.length_eq_zero.mp (Nat.le_zero.mp hf)
    subst hb
    exact ⟨[], by simp [sendallLoop], by simp, ⟨[], by simp [delivered, sendallLoop]⟩,
      by simp, by simp [sendallLoop], fun _ => rfl⟩
  | succ fuel ih =>
    unfold sendallLoop
    by_cases hb : buf.length > 0
    · have hne : buf ≠ [] := List.length_pos.mp hb
      simp only [hb, if_true]
      by_cases hr : (send sock buf s).1 ≤ 0
      · simp only [hr, if_true]
        refine ⟨[(sock, buf, (send sock buf s).1)], send_sendLog sock buf s, ?_, ?_, ?_, ?_, ?_⟩
        · intro e he
          simp only [List.mem_singleton] at he
          subst he
          exact ⟨rfl, [], rfl⟩
        · refine ⟨buf, ?_, rfl⟩
          simp [delivered, Int.toNat_of_nonpos hr]
        · simp
        · constructor
          · intro _
            exact ⟨_, rfl, hr⟩
          · intro _
            exact Nat.pos_iff_ne_zero.mp hb
        · intro h; exact absurd h hne
      · simp only [hr, if_false]
        have hpos : 0 < (send sock buf s).1 := not_le.mp hr
        have hle : (send sock buf s).1 ≤ buf.length := by
          rcases send_result sock buf s with h | ⟨_, h⟩
          · omega
          · exact h
        have hk : 1 ≤ (send sock buf s).1.toNat ∧ (send sock buf s).1.toNat ≤ buf.length := by
          omega
        have hf2 : (buf.drop (send sock buf s).1.toNat).length ≤ fuel := by
          rw [List.length_drop]; omega
        obtain ⟨l, hlog, hsuf, ⟨rest, hrest, hto⟩, hdl, hlast, hnil⟩ :=
          ih (buf.drop (send sock buf s).1.toNat) (send sock buf s).2 hf2
        refine ⟨(sock, buf, (send sock buf s).1) :: l, ?_, ?_, ?_, ?_, ?_, ?_⟩
        · rw [hlog, send_sendLog]; simp
        · intro e he
          rcases List.mem_cons.mp he with h | h
          · subst h; exact ⟨rfl, [], rfl⟩
          · obtain ⟨h1, pre, h2⟩ := hsuf e h
            exact ⟨h1, buf.take (send sock buf s).1.toNat ++ pre, by
              rw [List.append_assoc, h2, List.take_append_drop]⟩
        · refine ⟨rest, ?_, hto⟩
          simp only [delivered, List.append_assoc]
          rw [hrest, List.take_append_drop]
        · cases l with
          | nil => simp
          | cons e2 l2 =>
            intro e he
            simp only [List.dropLast_cons₂, List.mem_cons] at he
            rcases he with h | h
            · subst h; exact hpos
            · exact hdl e h
        · cases l with
          | nil =>
            simp only [List.getLast?_singleton, Option.some.injEq, exists_eq_left']
            constructor
            · intro h
              exact absurd ((hlast.mp h).choose_spec.1) (by simp)
            · intro h; omega
          | cons e2 l2 =>
            rw [List.getLast?_cons_cons]
            exact hlast
        · intro h; exact absurd h hne
    · have hb2 : buf = [] := by
        cases buf with
        | nil => rfl
        | cons a b => simp at hb
      subst hb2
      simp only [List.length_nil, gt_iff_lt, lt_self_iff_false, if_false]
      exact ⟨[], by simp, by simp, ⟨[], by simp [delivered]⟩, by simp, by simp, fun _ => rfl⟩


theorem sendall_spec (sock : Int) (buf : CStr) (s : Sys) :
    ∃ l, (sendall sock buf s).2.sendLog = s.sendLog ++ l ∧
      ((sendall sock buf s).1 = 0 ∨ (sendall sock buf s).1 = -1) ∧
      ((sendall sock buf s).1 = 0 ↔ delivered l = buf) ∧
      delivered l <+: buf ∧
      (∀ e ∈ l, e.1 = sock ∧ e.2.1 <:+ buf) ∧
      (∀ e ∈ l.dropLast, 0 < e.2.2) ∧
      ((sendall sock buf s).1 = -1 ↔ ∃ last, l.getLast? = some last ∧ last.2.2 ≤ 0) ∧
      (buf = [] → l = []) := by
  obtain ⟨l, hlog, hsuf, ⟨rest, hrest, hto⟩, hdl, hlast, hnil⟩ :=
    sendallLoop_spec sock buf.length buf s (le_refl _)
  refine ⟨l, hlog, ?_, ?_, ⟨rest, hrest⟩, ?_, hdl, ?_, hnil⟩
  · unfold sendall
    simp only
    split_ifs <;> simp
  · unfold sendall
    simp only
    constructor
    · intro h
      have h0 : (sendallLoop sock buf.length buf s).1 = 0 := by
        by_contra hne
        simp [hne] at h
      rw [hto] at h0
      have : rest = [] := List.length_eq_zero.mp h0
      rw [this] at hrest
      simpa using hrest
    · intro h
      have : rest = [] := by
        rw [← h] at hrest
        simpa using hrest
      rw [hto, this]
      simp
  · intro e he
    obtain ⟨h1, pre, h2⟩ := hsuf e he
    exact ⟨h1, pre, h2⟩
  · unfold sendall
    simp only
    rw [← hlast]
    split_ifs with h <;> simp [h]

theorem recvlineLoop_line (sock : Int) (bytes : CStr) (n : Nat) (acc : CStr) (s : Sys)
    (rest : List RecvResult) (hn : bytes.length < n)
    (hnl : ∀ c ∈ bytes, c ≠ Char.ofNat 10)
    (hq : s.recvq = bytes.map RecvResult.byte ++ RecvResult.byte (Char.ofNat 10) :: rest) :
    recvlineLoop sock n acc s = (0, acc ++ bytes, { s with recvq := rest }) := by
  induction bytes generalizing n acc s with
  | nil =>
    obtain ⟨m, rfl⟩ : ∃ m, n = m + 1 := Nat.exists_eq_succ_of_ne_zero (by simp at hn; omega)
    simp only [List.map_nil, List.nil_append] at hq
    simp [recvlineLoop, recv, hq]
  | cons c cs ih =>
    obtain ⟨m, rfl⟩ : ∃ m, n = m + 1 := Nat.exists_eq_succ_of_ne_zero (by simp at hn; omega)
    simp only [List.map_cons, List.cons_append] at hq
    have hc : c ≠ Char.ofNat 10 := hnl c (List.mem_cons_self _ _)
    have := ih m (acc ++ [c])
      { s with recvq := (cs.map RecvResult.byte ++ (RecvResult.byte (Char.ofNat 10) :: rest)) }
      (by simp at hn; omega) (fun x hx => hnl x (List.mem_cons_of_mem _ hx)) rfl
    simp only [recvlineLoop, recv, hq, hc, if_false]
    simpa using this

theorem recvlineLoop_full (sock : Int) (bytes : CStr) (acc : CStr) (s : Sys)
    (rest : List RecvResult) (hnl : ∀ c ∈ bytes, c ≠ Char.ofNat 10)
    (hq : s.recvq = bytes.map RecvResult.byte ++ rest) :
    recvlineLoop sock bytes.length acc s = (0, acc ++ bytes, { s with recvq := rest }) := by
  induction bytes generalizing acc s with
  | nil =>
    simp only [List.map_nil, List.nil_append] at hq
    simp [recvlineLoop, ← hq]
  | cons c cs ih =>
    simp only [List.map_cons, List.cons_append] at hq
    have hc : c ≠ Char.ofNat 10 := hnl c (List.mem_cons_self _ _)
    have := ih (acc ++ [c]) { s with recvq := (cs.map RecvResult.byte ++ rest) }
      (fun x hx => hnl x (List.mem_cons_of_mem _ hx)) rfl
    simp only [List.length_cons, recvlineLoop, recv, hq, hc, if_false]
    simpa using this

theorem recvlineLoop_stop (sock : Int) (bytes : CStr) (n : Nat) (acc : CStr) (s : Sys)
    (tail : List RecvResult) (hn : bytes.length < n)
    (hnl : ∀ c ∈ bytes, c ≠ Char.ofNat 10) (ht : isStop tail = true)
    (hq : s.recvq = bytes.map RecvResult.byte ++ tail) :
    recvlineLoop sock n acc s = (-1, acc ++ bytes, afterStop s tail) := by
  induction bytes generalizing n acc s with
  | nil =>
    obtain ⟨m, rfl⟩ : ∃ m, n = m + 1 := Nat.exists_eq_succ_of_ne_zero (by simp at hn; omega)
    simp only [List.map_nil, List.nil_append] at hq
    cases tail with
    | nil =>
      cases s
      simp only at hq
      subst hq
      simp [recvlineLoop, recv, afterStop]
    | cons e rest =>
      cases e with
      | byte c => simp [isStop] at ht
      | closed => simp [recvlineLoop, recv, hq, afterStop]
      | fails e => simp [recvlineLoop, recv, hq, afterStop]
  | cons c cs ih =>
    obtain ⟨m, rfl⟩ : ∃ m, n = m + 1 := Nat.exists_eq_succ_of_ne_zero (by simp at hn; omega)
    simp only [List.map_cons, List.cons_append] at hq
    have hc : c ≠ Char.ofNat 10 := hnl c (List.mem_cons_self _ _)
    have := ih m (acc ++ [c]) { s with recvq := (cs.map RecvResult.byte ++ tail) }
      (by simp at hn; omega) (fun x hx => hnl x (List.mem_cons_of_mem _ hx)) rfl
    simp only [recvlineLoop, recv, hq, hc, if_false]
    rw [show afterStop s tail
        = afterStop { s with recvq := (cs.map RecvResult.byte ++ tail) } tail
      from by cases tail with
        | nil => rfl
        | cons e rest => cases e <;> rfl]
    simpa using this

/-! ### Claims on storage_auth and on the wire format -/

theorem storage_auth_eq (crypt : CStr → CStr → Option CStr) (u p e : CStr) (conn : Int)
    (st : Client) (hconn : conn ≠ 0) (hc : st.connected = true)
    (hcr : crypt p DEFAULT_CRYPT_SALT = some e) :
    storage_auth crypt (some u) (some p) conn st =
      if (sendall conn (authRequest u e) st.sys).1 = 0 then
        if (recvline conn MAX_CMD_LEN (sendall conn (authRequest u e) st.sys).2).1 = 0 then
          if cstr (recvline conn MAX_CMD_LEN (sendall conn (authRequest u e) st.sys).2).2.1
              = "AUTH #pass".toList then
            logAuth (authSuccessLog u p) ⟨0, none, { st with
              sys := (recvline conn MAX_CMD_LEN (sendall conn (authRequest u e) st.sys).2).2.2,
              authenticated := true }⟩
          else logAuth (authFailureLog u p) ⟨-1, none, Client.setErrno { st with
              sys := (recvline conn MAX_CMD_LEN (sendall conn (authRequest u e) st.sys).2).2.2 }
              Errno.ERR_AUTHENTICATION_FAILED⟩
        else logAuth (authFailureLog u p) ⟨-1, none, { st with
            sys := (recvline conn MAX_CMD_LEN (sendall conn (authRequest u e) st.sys).2).2.2 }⟩
      else logAuth (authFailureLog u p)
        ⟨-1, none, { st with sys := (sendall conn (authRequest u e) st.sys).2 }⟩ := by
  unfold storage_auth
  rw [if_neg hconn, if_neg (by simp [hc])]
  simp only [hcr]

theorem authSuccessLog_length (u p : CStr) :
    (authSuccessLog u p).length = u.length + p.length + 60 := by
  simp only [authSuccessLog, pass_asterik, List.length_append, List.length_replicate]
  have h1 : "Client authorization successful. Username: ".toList.length = 43 := by decide
  have h2 : " and Password: ".toList.length = 15 := by decide
  have h3 : ".\n".toList.length = 2 := by decide
  omega

theorem authFailureLog_length (u p : CStr) :
    (authFailureLog u p).length = u.length + p.length + 57 := by
  simp only [authFailureLog, pass_asterik, List.length_append, List.length_replicate]
  have h1 : "Client authorization failure. Username: ".toList.length = 40 := by decide
  have h2 : " and Password: ".toList.length = 15 := by decide
  have h3 : ".\n".toList.length = 2 := by decide
  omega

theorem authFailureLog_fits (u p : CStr) (h : sprintfFits (authSuccessLog u p) = true) :
    sprintfFits (authFailureLog u p) = true := by
  have h1 := authSuccessLog_length u p
  have h2 := authFailureLog_length u p
  simp only [sprintfFits, decide_eq_true_eq] at h ⊢
  omega

theorem logAuth_fits (text : CStr) (r : Ret) (h : sprintfFits text = true) :
    logAuth text r = some r := by
  unfold logAuth
  rw [if_pos h]

theorem logAuth_some (text : CStr) (r r2 : Ret) (h : logAuth text r = some r2) : r2 = r := by
  unfold logAuth at h
  split_ifs at h
  simp only [Option.some.injEq] at h
  exact h.symm

theorem cstr_no_nul (line : CStr) (h : ∀ c ∈ line, c ≠ Char.ofNat 0) : cstr line = line := by
  unfold cstr
  rw [List.takeWhile_eq_self_iff]
  intro c hc
  simpa using h c hc

/-- Counterexample for C11: the reply line "AUTH #pass", a NUL byte, "denied" is not the
line "AUTH #pass", yet storage_auth returns 0 on it and marks the session authenticated. -/
theorem storage_auth_nul_reply :
    ¬ ∀ (crypt : CStr → CStr → Option CStr) (u p e : CStr) (conn : Int) (st : Client)
      (r : Ret), conn ≠ 0 → st.connected = true → crypt p DEFAULT_CRYPT_SALT = some e →
      storage_auth crypt (some u) (some p) conn st = some r →
      (r.status = 0 ∧ r.st.authenticated = true ↔
        (sendall conn (authRequest u e) st.sys).1 = 0 ∧
        (recvline conn MAX_CMD_LEN (sendall conn (authRequest u e) st.sys).2).1 = 0 ∧
        (recvline conn MAX_CMD_LEN (sendall conn (authRequest u e) st.sys).2).2.1
          = "AUTH #pass".toList) := by
  intro h
  have := h sampleCrypt "admin".toList "dog4sale".toList "xxelas4god".toList 3
    (freshClient ("AUTH #pass".toList ++ Char.ofNat 0 :: "denied".toList)) _
    (by decide) rfl (by decide) rfl
  revert this
  decide

/-- C11 (storage_auth and its reply), as amended: on a connected client with a non-null
handle, for a username and a password whose log text fits client_buffer and a crypt that
returns a string, storage_auth returns, with 0 or -1. It returns 0 exactly when sendall
delivered the request, recvline returned a line and that line as a C string (its bytes
before the first NUL byte: the whole line when it holds none) is "AUTH #pass"; then
authenticated is true. For any other line received it returns -1 with errno
ERR_AUTHENTICATION_FAILED. Whenever it returns -1 the authenticated flag is as before the
call, and connected is never changed. -/
theorem storage_auth_reply (crypt : CStr → CStr → Option CStr) (u p e : CStr) (conn : Int)
    (st : Client) (hconn : conn ≠ 0) (hc : st.connected = true)
    (hcr : crypt p DEFAULT_CRYPT_SALT = some e)
    (hfit : sprintfFits (authSuccessLog u p) = true) :
    ∃ r, storage_auth crypt (some u) (some p) conn st = some r ∧
      (r.status = 0 ∨ r.status = -1) ∧
      (r.status = 0 ↔
        (sendall conn (authRequest u e) st.sys).1 = 0 ∧
        (recvline conn MAX_CMD_LEN (sendall conn (authRequest u e) st.sys).2).1 = 0 ∧
        cstr (recvline conn MAX_CMD_LEN (sendall conn (authRequest u e) st.sys).2).2.1
          = "AUTH #pass".toList) ∧
      (r.status = 0 → r.st.authenticated = true) ∧
      ((sendall conn (authRequest u e) st.sys).1 = 0 →
        (recvline conn MAX_CMD_LEN (sendall conn (authRequest u e) st.sys).2).1 = 0 →
        cstr (recvline conn MAX_CMD_LEN (sendall conn (authRequest u e) st.sys).2).2.1
          ≠ "AUTH #pass".toList →
        r.status = -1 ∧ r.st.sys.errno = Errno.ERR_AUTHENTICATION_FAILED) ∧
      (r.status = -1 → r.st.authenticated = st.authenticated) ∧
      r.st.connected = st.connected ∧
      ((∀ c ∈ (recvline conn MAX_CMD_LEN (sendall conn (authRequest u e) st.sys).2).2.1,
          c ≠ Char.ofNat 0) →
        cstr (recvline conn MAX_CMD_LEN (sendall conn (authRequest u e) st.sys).2).2.1
          = (recvline conn MAX_CMD_LEN (sendall conn (authRequest u e) st.sys).2).2.1) := by
  have hfit2 := authFailureLog_fits u p hfit
  rw [storage_auth_eq crypt u p e conn st hconn hc hcr]
  by_cases h1 : (sendall conn (authRequest u e) st.sys).1 = 0
  · by_cases h2 : (recvline conn MAX_CMD_LEN (sendall conn (authRequest u e) st.sys).2).1 = 0
    · by_cases h3 : cstr (recvline conn MAX_CMD_LEN
          (sendall conn (authRequest u e) st.sys).2).2.1 = "AUTH #pass".toList
      · rw [if_pos h1, if_pos h2, if_pos h3, logAuth_fits _ _ hfit]
        exact ⟨_, rfl, Or.inl rfl, by simp [h1, h2, h3], fun _ => rfl,
          fun _ _ h => absurd h3 h, by simp, rfl, cstr_no_nul _⟩
      · rw [if_pos h1, if_pos h2, if_neg h3, logAuth_fits _ _ hfit2]
        refine ⟨_, rfl, Or.inr rfl, ?_, by simp,
          fun _ _ _ => ⟨rfl, rfl⟩, fun _ => rfl, rfl, cstr_no_nul _⟩
        constructor
        · intro h; simp at h
        · intro h; exact absurd h.2.2 h3
    · rw [if_pos h1, if_neg h2, logAuth_fits _ _ hfit2]
      exact ⟨_, rfl, Or.inr rfl, by simp [h2], by simp,
        fun _ h => absurd h h2, fun _ => rfl, rfl, cstr_no_nul _⟩
  · rw [if_neg h1, logAuth_fits _ _ hfit2]
    exact ⟨_, rfl, Or.inr rfl, by simp [h1], by simp,
      fun h => absurd h h1, fun _ => rfl, rfl, cstr_no_nul _⟩


/-- Witness for C11: a client that is answered "AUTH #pass" is authenticated; one that is
answered "AUTH #fail" gets -1 with ERR_AUTHENTICATION_FAILED and stays unauthenticated. -/
theorem storage_auth_reply_witness :
    (∃ r, storage_auth sampleCrypt (some "admin".toList) (some "dog4sale".toList) 3
        (freshClient "AUTH #pass".toList) = some r ∧ r.status = 0 ∧
        r.st.authenticated = true) ∧
    (∃ r, storage_auth sampleCrypt (some "admin".toList) (some "dog4sale".toList) 3
        (freshClient "AUTH #fail".toList) = some r ∧ r.status = -1 ∧
        r.st.sys.errno = Errno.ERR_AUTHENTICATION_FAILED ∧ r.st.authenticated = false) ∧
    ∃ r, storage_auth sampleCrypt (some "admin".toList) (some "dog4sale".toList) 3
        (freshClient "AUTH #fail".toList) = some r ∧
      (r.status = 0 ∨ r.status = -1) ∧
      (r.status = 0 ↔
        (sendall 3 (authRequest "admin".toList "xxelas4god".toList)
          (freshClient "AUTH #fail".toList).sys).1 = 0 ∧
        (recvline 3 MAX_CMD_LEN (sendall 3 (authRequest "admin".toList "xxelas4god".toList)
          (freshClient "AUTH #fail".toList).sys).2).1 = 0 ∧
        cstr (recvline 3 MAX_CMD_LEN (sendall 3 (authRequest "admin".toList "xxelas4god".toList)
          (freshClient "AUTH #fail".toList).sys).2).2.1 = "AUTH #pass".toList) ∧
      (r.status = 0 → r.st.authenticated = true) ∧
      ((sendall 3 (authRequest "admin".toList "xxelas4god".toList)
          (freshClient "AUTH #fail".toList).sys).1 = 0 →
        (recvline 3 MAX_CMD_LEN (sendall 3 (authRequest "admin".toList "xxelas4god".toList)
          (freshClient "AUTH #fail".toList).sys).2).1 = 0 →
        cstr (recvline 3 MAX_CMD_LEN (sendall 3 (authRequest "admin".toList "xxelas4god".toList)
          (freshClient "AUTH #fail".toList).sys).2).2.1 ≠ "AUTH #pass".toList →
        r.status = -1 ∧ r.st.sys.errno = Errno.ERR_AUTHENTICATION_FAILED) ∧
      (r.status = -1 → r.st.authenticated = (freshClient "AUTH #fail".toList).authenticated) ∧
      r.st.connected = (freshClient "AUTH #fail".toList).connected ∧
      ((∀ c ∈ (recvline 3 MAX_CMD_LEN (sendall 3
          (authRequest "admin".toList "xxelas4god".toList)
          (freshClient "AUTH #fail".toList).sys).2).2.1, c ≠ Char.ofNat 0) →
        cstr (recvline 3 MAX_CMD_LEN (sendall 3 (authRequest "admin".toList "xxelas4god".toList)
          (freshClient "AUTH #fail".toList).sys).2).2.1
          = (recvline 3 MAX_CMD_LEN (sendall 3 (authRequest "admin".toList "xxelas4god".toList)
          (freshClient "AUTH #fail".toList).sys).2).2.1) :=
  ⟨⟨_, rfl, by decide, by decide⟩, ⟨_, rfl, by decide, by decide, by decide⟩,
    storage_auth_reply sampleCrypt "admin".toList "dog4sale".toList "xxelas4god".toList 3
      (freshClient "AUTH #fail".toList) (by decide) rfl (by decide) (by decide)⟩

theorem readReply_sys (L : Limits) (verb table : CStr) (record : Option CStr)
    (line : CStr) (st : Client) (r : Ret)
    (h : readReply L verb table record line st = some r) :
    r.st.sys.sendLog = st.sys.sendLog := by
  rcases readReply_cases _ _ _ _ _ _ _ h with ⟨_, h2, _⟩ | ⟨_, _, h2 | h2⟩ <;> rw [h2] <;> rfl

theorem transact_log (L : Limits) (verb table : CStr) (record : Option CStr) (sock : Int)
    (request : CStr) (st : Client) (r : Ret)
    (h : transact L verb table record sock request st = some r) :
    r.st.sys.sendLog = (sendall sock request st.sys).2.sendLog ∧
      (r.status = 0 → (sendall sock request st.sys).1 = 0) := by
  have hr := recvlineLoop_sendLog sock (MAX_CMD_LEN - 1) [] (sendall sock request st.sys).2
  unfold transact at h
  simp only at h
  split_ifs at h with h1 h2
  · refine ⟨?_, fun _ => h1⟩
    rw [readReply_sys _ _ _ _ _ _ _ h]
    exact hr
  · simp only [Option.some.injEq] at h
    subst h
    exact ⟨hr, by simp⟩
  · simp only [Option.some.injEq] at h
    subst h
    exact ⟨rfl, by simp⟩

theorem storage_auth_log (crypt : CStr → CStr → Option CStr) (u p e : CStr) (conn : Int)
    (st : Client) (r : Ret) (hconn : conn ≠ 0) (hc : st.connected = true)
    (hcr : crypt p DEFAULT_CRYPT_SALT = some e)
    (h : storage_auth crypt (some u) (some p) conn st = some r) :
    r.st.sys.sendLog = (sendall conn (authRequest u e) st.sys).2.sendLog ∧
      (r.status = 0 → (sendall conn (authRequest u e) st.sys).1 = 0) := by
  have hr := recvlineLoop_sendLog conn (MAX_CMD_LEN - 1) [] (sendall conn (authRequest u e) st.sys).2
  rw [storage_auth_eq crypt u p e conn st hconn hc hcr] at h
  split_ifs at h with h1 h2 h3 <;> have h := logAuth_some _ _ _ h <;> subst h
  · exact ⟨hr, fun _ => h1⟩
  · exact ⟨hr, by simp⟩
  · exact ⟨hr, by simp⟩
  · exact ⟨rfl, by simp⟩

theorem storage_auth_returns (crypt : CStr → CStr → Option CStr) (u p e : CStr) (conn : Int)
    (st : Client) (hconn : conn ≠ 0) (hc : st.connected = true)
    (hcr : crypt p DEFAULT_CRYPT_SALT = some e)
    (hfit : sprintfFits (authSuccessLog u p) = true) :
    ∃ r, storage_auth crypt (some u) (some p) conn st = some r := by
  have hfit2 := authFailureLog_fits u p hfit
  rw [storage_auth_eq crypt u p e conn st hconn hc hcr]
  split_ifs
  · exact ⟨_, logAuth_fits _ _ hfit⟩
  · exact ⟨_, logAuth_fits _ _ hfit2⟩
  · exact ⟨_, logAuth_fits _ _ hfit2⟩
  · exact ⟨_, logAuth_fits _ _ hfit2⟩

theorem snprintf_short (size : Nat) (line : CStr) (h : line.length < size) :
    snprintf size line = line := by
  unfold snprintf
  exact List.take_of_length_le (by omega)

theorem sendall_sendsLine (sock : Int) (line : CStr) (s : Sys) :
    SendsLine sock line s (sendall sock line s).1 (sendall sock line s).2 := by
  obtain ⟨l, h1, _, h3, h4, h5, _⟩ := sendall_spec sock line s
  exact ⟨l, h1, h5, h4, h3⟩

/-- C12 (wire format). The claim is that each call sends exactly its formatted line and
that this is exactly one line. On a connected client with a non-null handle, when the
formatted line is shorter than MAX_CMD_LEN, the bytes are those of the claim: storage_get
hands to sendall exactly "GET #T #K\n", storage_set exactly "SET #T #K #V\n" and
storage_auth exactly "AUTH #U #E\n" with E the string crypt returned for the password (the
line carries P only if crypt returned P itself); the bytes the kernel takes are a head of
that line and the whole line exactly when sendall returns 0, and the send log of a call
that returns is the log after this one sendall. But T, K and V are copied as they are: the
line holds one newline more than they hold together, so a call whose argument holds a
newline sends more than one line. -/
theorem wire_format (crypt : CStr → CStr → Option CStr) (L : Limits) (t k v u p e : CStr)
    (rec : Option CStr) (conn : Int) (st : Client) (hconn : conn ≠ 0)
    (hc : st.connected = true) :
    (st.authenticated = true →
      ("GET #".toList ++ t ++ " #".toList ++ k ++ [Char.ofNat 10]).length < MAX_CMD_LEN →
      SendsLine conn ("GET #".toList ++ t ++ " #".toList ++ k ++ [Char.ofNat 10]) st.sys
        (sendall conn ("GET #".toList ++ t ++ " #".toList ++ k ++ [Char.ofNat 10]) st.sys).1
        (sendall conn ("GET #".toList ++ t ++ " #".toList ++ k ++ [Char.ofNat 10]) st.sys).2 ∧
      ∀ r, storage_get L (some t) (some k) rec conn st = some r →
        r.st.sys.sendLog = (sendall conn
          ("GET #".toList ++ t ++ " #".toList ++ k ++ [Char.ofNat 10]) st.sys).2.sendLog) ∧
    (st.authenticated = true →
      ("SET #".toList ++ t ++ " #".toList ++ k ++ " #".toList ++ v ++ [Char.ofNat 10]).length
        < MAX_CMD_LEN →
      SendsLine conn
        ("SET #".toList ++ t ++ " #".toList ++ k ++ " #".toList ++ v ++ [Char.ofNat 10]) st.sys
        (sendall conn
          ("SET #".toList ++ t ++ " #".toList ++ k ++ " #".toList ++ v ++ [Char.ofNat 10])
          st.sys).1
        (sendall conn
          ("SET #".toList ++ t ++ " #".toList ++ k ++ " #".toList ++ v ++ [Char.ofNat 10])
          st.sys).2 ∧
      ∀ r, storage_set L (some t) (some k) (some v) conn st = some r →
        r.st.sys.sendLog = (sendall conn
          ("SET #".toList ++ t ++ " #".toList ++ k ++ " #".toList ++ v ++ [Char.ofNat 10])
          st.sys).2.sendLog) ∧
    (crypt p DEFAULT_CRYPT_SALT = some e →
      ("AUTH #".toList ++ u ++ " #".toList ++ e ++ [Char.ofNat 10]).length < MAX_CMD_LEN →
      SendsLine conn ("AUTH #".toList ++ u ++ " #".toList ++ e ++ [Char.ofNat 10]) st.sys
        (sendall conn ("AUTH #".toList ++ u ++ " #".toList ++ e ++ [Char.ofNat 10]) st.sys).1
        (sendall conn ("AUTH #".toList ++ u ++ " #".toList ++ e ++ [Char.ofNat 10]) st.sys).2 ∧
      (∀ r, storage_auth crypt (some u) (some p) conn st = some r →
        r.st.sys.sendLog = (sendall conn
          ("AUTH #".toList ++ u ++ " #".toList ++ e ++ [Char.ofNat 10]) st.sys).2.sendLog) ∧
      (sprintfFits (authSuccessLog u p) = true →
        ∃ r, storage_auth crypt (some u) (some p) conn st = some r) ∧
      ("AUTH #".toList ++ u ++ " #".toList ++ e ++ [Char.ofNat 10]
        = "AUTH #".toList ++ u ++ " #".toList ++ p ++ [Char.ofNat 10] ↔ e = p)) ∧
    ("GET #".toList ++ t ++ " #".toList ++ k ++ [Char.ofNat 10]).count (Char.ofNat 10)
      = t.count (Char.ofNat 10) + k.count (Char.ofNat 10) + 1 ∧
    ("SET #".toList ++ t ++ " #".toList ++ k ++ " #".toList ++ v ++ [Char.ofNat 10]).count
        (Char.ofNat 10)
      = t.count (Char.ofNat 10) + k.count (Char.ofNat 10) + v.count (Char.ofNat 10) + 1 := by
  have c1 : "GET #".toList.count (Char.ofNat 10) = 0 := by decide
  have c2 : " #".toList.count (Char.ofNat 10) = 0 := by decide
  have c3 : "SET #".toList.count (Char.ofNat 10) = 0 := by decide
  have c4 : [Char.ofNat 10].count (Char.ofNat 10) = 1 := by decide
  refine ⟨?_, ?_, ?_, ?_, ?_⟩
  · intro ha hlen
    refine ⟨sendall_sendsLine _ _ _, ?_⟩
    intro r h
    simp only [storage_get, if_neg hconn] at h
    have h := exchange_transact _ _ _ _ _ _ _ _ _ hc ha h
    rw [getRequest, snprintf_short _ _ hlen] at h
    exact (transact_log _ _ _ _ _ _ _ _ h).1
  · intro ha hlen
    refine ⟨sendall_sendsLine _ _ _, ?_⟩
    intro r h
    simp only [storage_set, if_neg hconn] at h
    have h := exchange_transact _ _ _ _ _ _ _ _ _ hc ha h
    rw [setRequest, snprintf_short _ _ hlen] at h
    exact (transact_log _ _ _ _ _ _ _ _ h).1
  · intro hcr hlen
    refine ⟨sendall_sendsLine _ _ _, ?_, ?_, ?_⟩
    · intro r hr
      have := (storage_auth_log crypt u p e conn st r hconn hc hcr hr).1
      rwa [authRequest, snprintf_short _ _ hlen] at this
    · intro hfit
      exact storage_auth_returns crypt u p e conn st hconn hc hcr hfit
    · constructor
      · intro heq
        have h1 := List.append_cancel_right heq
        exact List.append_cancel_left h1
      · intro heq
        rw [heq]
  · simp only [List.count_append, c1, c2, c4]
    omega
  · simp only [List.count_append, c2, c3, c4]
    omega


/-- Witness for C12: the bytes delivered by a get, a set and an auth call on sample
clients, and a set whose value ends in a newline, as fgets leaves it in client.c: two
newlines are delivered. -/
theorem wire_format_witness :
    (∃ r, storage_get skeletonLimits (some "inttbl".toList) (some "somekey".toList) (some []) 3
        (liveClient "GET #inttbl #somekey #col".toList) = some r ∧
      delivered r.st.sys.sendLog = "GET #inttbl #somekey\n".toList) ∧
    (∃ r, storage_set skeletonLimits (some "inttbl".toList) (some "somekey".toList)
        (some "col 22".toList) 3 (liveClient "SET #inttbl #somekey #col".toList) = some r ∧
      delivered r.st.sys.sendLog = "SET #inttbl #somekey #col 22\n".toList) ∧
    (∃ r, storage_auth sampleCrypt (some "admin".toList) (some "dog4sale".toList) 3
        (freshClient "AUTH #pass".toList) = some r ∧
      delivered r.st.sys.sendLog = "AUTH #admin #xxelas4god\n".toList) ∧
    (∃ r, storage_set skeletonLimits (some "inttbl".toList) (some "somekey".toList)
        (some "col 22\n".toList) 3 (liveClient "SET #inttbl #somekey #col".toList) = some r ∧
      r.status = 0 ∧
      delivered r.st.sys.sendLog = "SET #inttbl #somekey #col 22\n\n".toList ∧
      (delivered r.st.sys.sendLog).count (Char.ofNat 10) = 2) ∧
    (SendsLine 3 ("GET #".toList ++ "inttbl".toList ++ " #".toList ++ "somekey".toList ++
        [Char.ofNat 10]) (liveClient "GET #inttbl #somekey #col".toList).sys
      (sendall 3 ("GET #".toList ++ "inttbl".toList ++ " #".toList ++ "somekey".toList ++
        [Char.ofNat 10]) (liveClient "GET #inttbl #somekey #col".toList).sys).1
      (sendall 3 ("GET #".toList ++ "inttbl".toList ++ " #".toList ++ "somekey".toList ++
        [Char.ofNat 10]) (liveClient "GET #inttbl #somekey #col".toList).sys).2 ∧
    ∀ r, storage_get skeletonLimits (some "inttbl".toList) (some "somekey".toList) (some []) 3
        (liveClient "GET #inttbl #somekey #col".toList) = some r →
      r.st.sys.sendLog = (sendall 3 ("GET #".toList ++ "inttbl".toList ++ " #".toList ++
        "somekey".toList ++ [Char.ofNat 10])
        (liveClient "GET #inttbl #somekey #col".toList).sys).2.sendLog) ∧
    ("SET #".toList ++ "inttbl".toList ++ " #".toList ++ "somekey".toList ++ " #".toList ++
        "col 22\n".toList ++ [Char.ofNat 10]).count (Char.ofNat 10)
      = "inttbl".toList.count (Char.ofNat 10) + "somekey".toList.count (Char.ofNat 10)
        + "col 22\n".toList.count (Char.ofNat 10) + 1 :=
  ⟨⟨_, rfl, by decide⟩, ⟨_, rfl, by decide⟩, ⟨_, rfl, by decide⟩,
    ⟨_, rfl, by decide, by decide, by decide⟩,
    (wire_format sampleCrypt skeletonLimits "inttbl".toList "somekey".toList "col 22".toList
      "admin".toList "dog4sale".toList "xxelas4god".toList (some []) 3
      (liveClient "GET #inttbl #somekey #col".toList) (by decide) rfl).1 rfl (by decide),
    (wire_format sampleCrypt skeletonLimits "inttbl".toList "somekey".toList
      "col 22\n".toList "admin".toList "dog4sale".toList "xxelas4god".toList (some []) 3
      (liveClient "GET #inttbl #somekey #col".toList) (by decide) rfl).2.2.2.2⟩

/-! ### Claims on recvline and sendall -/

/-- C13 (line longer than the buffer). The claim is that recvline returns -1 when the first
buflen - 1 bytes of the stream hold no newline. The loop ends when bufleft reaches 1 with
status still 0: recvline returns 0 (success) with those buflen - 1 bytes in buf and the
rest of the line left in the stream. -/
theorem recvline_long_line (sock : Int) (buflen : Nat) (s : Sys) (bytes : CStr)
    (rest : List RecvResult) (_hbuf : 2 ≤ buflen) (hlen : bytes.length = buflen - 1)
    (hnl : ∀ c ∈ bytes, c ≠ Char.ofNat 10)
    (hq : s.recvq = bytes.map RecvResult.byte ++ rest) :
    recvline sock buflen s = (0, bytes, { s with recvq := rest }) ∧
      (recvline sock buflen s).1 ≠ -1 := by
  have h := recvlineLoop_full sock bytes [] s rest hnl hq
  unfold recvline
  rw [← hlen, h]
  simp

/-- Witness for C13: a buffer of 4 bytes and the stream "abcdef" then newline; recvline
returns 0 with "abc" and leaves "def" and the newline in the stream. -/
theorem recvline_long_line_witness :
    recvline 3 4 (replyScript "abcdef".toList)
      = (0, "abc".toList, { replyScript "abcdef".toList with
          recvq := "def".toList.map RecvResult.byte ++ [RecvResult.byte (Char.ofNat 10)] }) ∧
    (recvline 3 4 (replyScript "abcdef".toList)).1 ≠ -1 :=
  recvline_long_line 3 4 (replyScript "abcdef".toList) "abc".toList
    ("def".toList.map RecvResult.byte ++ [RecvResult.byte (Char.ofNat 10)])
    (by decide) (by decide) (by decide) (by decide)

/-- C14 (stream ends in mid-line). When recv returns 0 or -1 after k bytes, none a newline,
with k less than buflen - 1, recvline returns -1 and buf holds exactly those k bytes (then
the terminator). -/
theorem recvline_incomplete_line (sock : Int) (buflen : Nat) (s : Sys) (bytes : CStr)
    (tail : List RecvResult) (_hbuf : 2 ≤ buflen) (hlen : bytes.length < buflen - 1)
    (hnl : ∀ c ∈ bytes, c ≠ Char.ofNat 10) (hstop : isStop tail = true)
    (hq : s.recvq = bytes.map RecvResult.byte ++ tail) :
    recvline sock buflen s = (-1, bytes, afterStop s tail) := by
  have h := recvlineLoop_stop sock bytes (buflen - 1) [] s tail hlen hnl hstop hq
  unfold recvline
  rw [h]
  simp

/-- Witness for C14: the stream "col" followed by a close, and by a failure. -/
theorem recvline_incomplete_line_witness :
    recvline 3 8 ⟨Errno.sys 0, [], "col".toList.map RecvResult.byte ++ [RecvResult.closed],
        [], [], []⟩
      = (-1, "col".toList, ⟨Errno.sys 0, [], [], [], [], []⟩) ∧
    recvline 3 8 ⟨Errno.sys 0, [], "col".toList.map RecvResult.byte ++ [RecvResult.fails 104],
        [], [], []⟩
      = (-1, "col".toList, ⟨Errno.sys 104, [], [], [], [], []⟩) :=
  ⟨recvline_incomplete_line 3 8
      ⟨Errno.sys 0, [], "col".toList.map RecvResult.byte ++ [RecvResult.closed], [], [], []⟩
      "col".toList [RecvResult.closed] (by decide) (by decide) (by decide) rfl rfl,
    by decide⟩

/-- C15 (a complete line). When the stream starts with k bytes, none a newline, followed by
a newline, with k at most buflen - 2, recvline returns 0, buf holds exactly those k bytes
(the newline is replaced by the terminator), and exactly k + 1 entries of the stream have
been consumed: what followed the newline is still to be read. -/
theorem recvline_complete_line (sock : Int) (buflen : Nat) (s : Sys) (bytes : CStr)
    (rest : List RecvResult) (hbuf : 2 ≤ buflen) (hlen : bytes.length ≤ buflen - 2)
    (hnl : ∀ c ∈ bytes, c ≠ Char.ofNat 10)
    (hq : s.recvq = bytes.map RecvResult.byte ++ RecvResult.byte (Char.ofNat 10) :: rest) :
    recvline sock buflen s = (0, bytes, { s with recvq := rest }) ∧
      (recvline sock buflen s).2.2.recvq.length + (bytes.length + 1) = s.recvq.length := by
  have h := recvlineLoop_line sock bytes (buflen - 1) [] s rest (by omega) hnl hq
  unfold recvline
  rw [h]
  simp [hq]
  omega

/-- Witness for C15: the stream "col 22", newline, "next" with a buffer of 8 bytes. -/
theorem recvline_complete_line_witness :
    recvline 3 8 ⟨Errno.sys 0, [],
        "col 22".toList.map RecvResult.byte ++ RecvResult.byte (Char.ofNat 10) ::
          "next".toList.map RecvResult.byte, [], [], []⟩
      = (0, "col 22".toList,
          { (⟨Errno.sys 0, [],
              "col 22".toList.map RecvResult.byte ++ RecvResult.byte (Char.ofNat 10) ::
                "next".toList.map RecvResult.byte, [], [], []⟩ : Sys) with
            recvq := "next".toList.map RecvResult.byte }) ∧
    (recvline 3 8 ⟨Errno.sys 0, [],
        "col 22".toList.map RecvResult.byte ++ RecvResult.byte (Char.ofNat 10) ::
          "next".toList.map RecvResult.byte, [], [], []⟩).2.2.recvq.length
        + ("col 22".toList.length + 1)
      = (⟨Errno.sys 0, [],
          "col 22".toList.map RecvResult.byte ++ RecvResult.byte (Char.ofNat 10) ::
            "next".toList.map RecvResult.byte, [], [], []⟩ : Sys).recvq.length :=
  recvline_complete_line 3 8 ⟨Errno.sys 0, [],
      "col 22".toList.map RecvResult.byte ++ RecvResult.byte (Char.ofNat 10) ::
        "next".toList.map RecvResult.byte, [], [], []⟩
    "col 22".toList ("next".toList.map RecvResult.byte) (by decide) (by decide) (by decide) rfl

/-- C16 (sendall). With len = 0 sendall returns 0 and makes no send call. In general it
returns 0 or -1 after a run of send calls on the socket, each offered a tail of the buffer;
the bytes taken, in order, are a head of the buffer and are the whole buffer exactly when
it returns 0; every call but the last returned a positive count, and it returns -1 exactly
when the last call returned 0 or less. In the model a send returns at most the number of
bytes offered. -/
theorem sendall_delivers (sock : Int) (buf : CStr) (s : Sys) :
    sendall sock [] s = (0, s) ∧
    ∃ l, (sendall sock buf s).2.sendLog = s.sendLog ++ l ∧
      ((sendall sock buf s).1 = 0 ∨ (sendall sock buf s).1 = -1) ∧
      ((sendall sock buf s).1 = 0 ↔ delivered l = buf) ∧
      delivered l <+: buf ∧
      (∀ e ∈ l, e.1 = sock ∧ e.2.1 <:+ buf) ∧
      (∀ e ∈ l.dropLast, 0 < e.2.2) ∧
      ((sendall sock buf s).1 = -1 ↔ ∃ last, l.getLast? = some last ∧ last.2.2 ≤ 0) :=
  ⟨rfl, by
    obtain ⟨l, h1, h2, h3, h4, h5, h6, h7, _⟩ := sendall_spec sock buf s
    exact ⟨l, h1, h2, h3, h4, h5, h6, h7⟩⟩

/-- Two runs of sendall on "abcde": the kernel takes 2 bytes, then 3, and sendall returns
0 after two calls; the kernel takes 2 bytes and the next send fails, and sendall returns
-1 with "ab" delivered. -/
theorem sendall_examples :
    sendall 3 "abcde".toList
        ⟨Errno.sys 0, [SendResult.accepts 2, SendResult.accepts 9], [], [], [], []⟩
      = (0, ⟨Errno.sys 0, [], [],
          [(3, "abcde".toList, 2), (3, "cde".toList, 3)], [], []⟩) ∧
    sendall 3 "abcde".toList
        ⟨Errno.sys 0, [SendResult.accepts 2, SendResult.fails 32], [], [], [], []⟩
      = (-1, ⟨Errno.sys 32, [], [],
          [(3, "abcde".toList, 2), (3, "cde".toList, -1)], [], []⟩) ∧
    delivered [(3, "abcde".toList, 2), (3, "cde".toList, -1)] = "ab".toList := by
  decide

/-! ### Words of a line and the sscanf of process_config_line -/

theorem tokensAux_eq (inp cur : CStr) :
    tokensAux inp cur =
      (if cur ++ inp.takeWhile (fun c => !isspace c) = [] then []
        else [cur ++ inp.takeWhile (fun c => !isspace c)]) ++
      tokensAux (inp.dropWhile (fun c => !isspace c)) [] := by
  induction inp generalizing cur with
  | nil => simp [tokensAux]
  | cons c cs ih =>
    by_cases hc : isspace c = true
    · by_cases hcur : cur = []
      · simp [tokensAux, hc, hcur]
      · simp [tokensAux, hc, hcur]
    · simp only [Bool.not_eq_true] at hc
      rw [tokensAux]
      simp only [hc, Bool.false_eq_true, if_false]
      rw [ih (cur ++ [c])]
      simp [List.takeWhile_cons, List.dropWhile_cons, hc]

theorem tokens_dropWhile (inp : CStr) : tokens (inp.dropWhile isspace) = tokens inp := by
  induction inp with
  | nil => rfl
  | cons c cs ih =>
    by_cases hc : isspace c = true
    · rw [List.dropWhile_cons_of_pos hc, ih]
      simp [tokens, tokensAux, hc]
    · rw [List.dropWhile_cons_of_neg hc]

theorem tokens_cons_nonspace (x : Char) (rest : CStr) (hx : isspace x = false) :
    tokens (x :: rest) = (x :: rest).takeWhile (fun c => !isspace c) ::
      tokens ((x :: rest).dropWhile (fun c => !isspace c)) := by
  unfold tokens
  rw [tokensAux_eq]
  simp [List.takeWhile_cons, hx]

theorem dropWhile_head_nonspace (inp : CStr) (x : Char) (rest : CStr)
    (h : inp.dropWhile isspace = x :: rest) : isspace x = false := by
  have := List.head_dropWhile_not isspace inp (by rw [h]; simp)
  simpa [h] using this

theorem tokens_eq_nil (inp : CStr) (h : inp.dropWhile isspace = []) : tokens inp = [] := by
  rw [← tokens_dropWhile, h]
  rfl

theorem tokens_step (inp : CStr) (x : Char) (rest : CStr)
    (h : inp.dropWhile isspace = x :: rest) :
    tokens inp = (x :: rest).takeWhile (fun c => !isspace c) ::
      tokens ((x :: rest).dropWhile (fun c => !isspace c)) := by
  rw [← tokens_dropWhile, h]
  exact tokens_cons_nonspace x rest (dropWhile_head_nonspace inp x rest h)

theorem dropWhile_dropWhile_space (inp : CStr) :
    (inp.dropWhile isspace).dropWhile isspace = inp.dropWhile isspace := by
  induction inp with
  | nil => rfl
  | cons c cs ih =>
    by_cases hc : isspace c = true
    · rw [List.dropWhile_cons_of_pos hc, ih]
    · rw [List.dropWhile_cons_of_neg hc, List.dropWhile_cons_of_neg hc]

/-- The conversions of "%s %s %s\n" are the first three words of the line, and sscanf met
the end of the input exactly when there are fewer than three. -/
theorem scan_configFormat (line : CStr) :
    (scan configFormat line []).1 = (tokens line).take 3 ∧
      ((scan configFormat line []).2 = true ↔ (tokens line).length < 3) := by
  unfold configFormat
  cases h1 : line.dropWhile isspace with
  | nil =>
    rw [tokens_eq_nil line h1]
    simp [scan, h1]
  | cons x1 r1 =>
    rw [tokens_step line x1 r1 h1]
    cases h2 : ((x1 :: r1).dropWhile (fun c => !isspace c)).dropWhile isspace with
    | nil =>
      rw [tokens_eq_nil _ h2]
      simp [scan, h1, h2, dropWhile_dropWhile_space]
    | cons x2 r2 =>
      rw [tokens_step _ x2 r2 h2]
      have e2 : List.dropWhile isspace (x2 :: r2) = x2 :: r2 :=
        List.dropWhile_cons_of_neg (by simp [dropWhile_head_nonspace _ x2 r2 h2])
      cases h3 : ((x2 :: r2).dropWhile (fun c => !isspace c)).dropWhile isspace with
      | nil =>
        rw [tokens_eq_nil _ h3]
        simp [scan, h1, h2, h3, e2]
      | cons x3 r3 =>
        rw [tokens_step _ x3 r3 h3]
        have e3 : List.dropWhile isspace (x3 :: r3) = x3 :: r3 :=
          List.dropWhile_cons_of_neg (by simp [dropWhile_head_nonspace _ x3 r3 h3])
        simp [scan, h1, h2, h3, e2, e3]

theorem scanCount_configFormat (line : CStr) :
    (scanCount (scan configFormat line []) = 2 ↔ (tokens line).length = 2) := by
  obtain ⟨h1, h2⟩ := scan_configFormat line
  unfold scanCount
  rw [h1]
  cases ht : tokens line with
  | nil =>
    have : (scan configFormat line []).2 = true := h2.mpr (by simp [ht])
    simp [this]
  | cons a l =>
    cases l with
    | nil => simp
    | cons b l2 =>
      cases l2 with
      | nil => simp
      | cons c l3 => simp


/-! ### process_config_line -/

theorem process_config_line_pair (CL : ConfigLimits) (atoi : CStr → Int) (line : CStr)
    (name value : CStr) (params : config_params) (hcom : line.head? ≠ some '#')
    (htok : tokens line = [name, value])
    (hn : name.length < CL.MAX_CONFIG_LINE_LEN) (hv : value.length < CL.MAX_CONFIG_LINE_LEN) :
    process_config_line CL atoi line params = processEntry CL atoi name value params := by
  obtain ⟨h1, _⟩ := scan_configFormat line
  have hc := scanCount_configFormat line
  rw [htok] at h1 hc
  unfold process_config_line
  rw [if_neg hcom]
  simp only
  have hall : (scan configFormat line []).1.all
      (fun w => decide (w.length < CL.MAX_CONFIG_LINE_LEN)) = true := by
    rw [h1]
    simp [hn, hv]
  rw [if_neg (by simp [hall]), if_neg (by simp [hc.mpr rfl]), h1]
  rfl

theorem strcmpRow_terminated (size : Nat) (row value : CStr) (h : row.length < size) :
    strcmpRow size row value = some (decide (row = value)) := by
  unfold strcmpRow
  rw [if_pos h]

theorem tableLoop_found (CL : ConfigLimits) (names : List CStr) (value : CStr) (n start : Nat)
    (h : ∃ i, start ≤ i ∧ i < start + n ∧ i < CL.MAX_TABLES ∧ names.getD i [] = value ∧
      value.length < CL.MAX_TABLE_LEN ∧
      ∀ j, start ≤ j → j < i → (names.getD j []).length < CL.MAX_TABLE_LEN) :
    tableLoop CL names value n start = some true := by
  induction n generalizing start with
  | zero =>
    obtain ⟨i, h1, h2, _⟩ := h
    omega
  | succ n ih =>
    obtain ⟨i, h1, h2, h3, h4, h5, h6⟩ := h
    unfold tableLoop
    rw [if_neg (by omega)]
    by_cases hs : start = i
    · subst hs
      rw [strcmpRow_terminated _ _ _ (by rw [h4]; exact h5), decide_eq_true h4]
    · have hlt : start < i := by omega
      have hrow := h6 start (le_refl _) hlt
      rw [strcmpRow_terminated _ _ _ hrow]
      by_cases heq : names.getD start [] = value
      · rw [decide_eq_true heq]
      · rw [decide_eq_false heq]
        exact ih (start + 1) ⟨i, by omega, by omega, h3, h4, h5,
          fun j hj1 hj2 => h6 j (by omega) hj2⟩

theorem processEntry_duplicate (CL : ConfigLimits) (atoi : CStr → Int) (name value : CStr)
    (params : config_params)
    (hdup : (name = "server_host".toList ∧ params.server_host ≠ []) ∨
      (name = "username".toList ∧ params.username ≠ []) ∨
      (name = "password".toList ∧ params.password ≠ []) ∨
      (name = "server_port".toList ∧ params.server_port ≠ -1) ∨
      (name = "table".toList ∧ ∃ i : Nat, (i : Int) < params.num_tables ∧ i < CL.MAX_TABLES ∧
        params.table_names.getD i [] = value ∧ value.length < CL.MAX_TABLE_LEN ∧
        ∀ j, j < i → (params.table_names.getD j []).length < CL.MAX_TABLE_LEN)) :
    processEntry CL atoi name value params = some (1, params) := by
  rcases hdup with ⟨hn, h⟩ | ⟨hn, h⟩ | ⟨hn, h⟩ | ⟨hn, h⟩ | ⟨hn, i, h1, h2, h3, h4, h5⟩
  · subst hn; simp [processEntry, h]
  · subst hn
    unfold processEntry
    rw [if_neg (by decide), if_neg (by decide), if_pos rfl, if_neg h]
  · subst hn
    unfold processEntry
    rw [if_neg (by decide), if_neg (by decide), if_neg (by decide), if_pos rfl, if_neg h]
  · subst hn
    unfold processEntry
    rw [if_neg (by decide), if_pos rfl, if_neg (fun hh => h hh.1)]
  · subst hn
    unfold processEntry
    rw [if_neg (by decide), if_neg (by decide), if_neg (by decide), if_neg (by decide),
      if_pos rfl]
    by_cases hcs : check_special value = false
    · rw [if_pos hcs]
    · rw [if_neg hcs]
      have := tableLoop_found CL params.table_names value params.num_tables.toNat 0
        ⟨i, Nat.zero_le _, by omega, h2, h3, h4, fun j _ hj => h5 j hj⟩
      rw [this]


/-! ### read_config -/

theorem fgetsChars_append (n : Nat) (cs : CStr) :
    (fgetsChars n cs).1 ++ (fgetsChars n cs).2.1 = cs := by
  induction n generalizing cs with
  | zero => simp [fgetsChars]
  | succ n ih =>
    cases cs with
    | nil => simp [fgetsChars]
    | cons c cs =>
      unfold fgetsChars
      split_ifs
      · simp
      · simp [ih cs]

theorem fgetsChars_ne_nil (n : Nat) (c : Char) (cs : CStr) :
    (fgetsChars (n + 1) (c :: cs)).1 ≠ [] := by
  unfold fgetsChars
  split_ifs <;> simp

theorem fgetsChars_eof (n : Nat) (cs : CStr) (h : (fgetsChars n cs).2.2 = true) :
    (fgetsChars n cs).2.1 = [] := by
  induction n generalizing cs with
  | zero => simp [fgetsChars] at h
  | succ n ih =>
    cases cs with
    | nil => simp [fgetsChars]
    | cons c cs =>
      unfold fgetsChars at h ⊢
      by_cases hc : c = Char.ofNat 10
      · simp [hc] at h
      · simp only [hc, if_false] at h ⊢
        exact ih cs h

theorem fgetsChars_length (n : Nat) (cs : CStr) : (fgetsChars n cs).1.length ≤ n := by
  induction n generalizing cs with
  | zero => simp [fgetsChars]
  | succ n ih =>
    cases cs with
    | nil => simp [fgetsChars]
    | cons c cs =>
      unfold fgetsChars
      split_ifs
      · simp
      · simp only [List.length_cons]
        have := ih cs
        omega

theorem fgetsChars_rest_lt (n : Nat) (c : Char) (cs : CStr) :
    (fgetsChars (n + 1) (c :: cs)).2.1.length < (c :: cs).length := by
  have h1 := fgetsChars_append (n + 1) (c :: cs)
  have h2 := fgetsChars_ne_nil n c cs
  have h3 : ((fgetsChars (n + 1) (c :: cs)).1 ++ (fgetsChars (n + 1) (c :: cs)).2.1).length
      = (c :: cs).length := by rw [h1]
  rw [List.length_append] at h3
  have h4 : 0 < (fgetsChars (n + 1) (c :: cs)).1.length := List.length_pos.mpr h2
  omega

/-- The loop of read_config processes the strings that fgets yields, in order, until
process_config_line rejects one. -/
theorem readLoop_eq (CL : ConfigLimits) (atoi : CStr → Int) (hsize : 2 ≤ CL.MAX_CONFIG_LINE_LEN)
    (n : Nat) (content : CStr) (eof : Bool) (params : config_params) (fuel fuel2 : Nat)
    (hn : content.length ≤ n) (heof : eof = true → content = [])
    (hf : content.length + 2 ≤ fuel) (hf2 : content.length ≤ fuel2) :
    readLoop CL atoi fuel content eof params
      = processLines CL atoi (fileLines CL fuel2 content) params := by
  induction n generalizing content eof params fuel fuel2 with
  | zero =>
    have hc : content = [] := List.length_eq_zero.mp (Nat.le_zero.mp hn)
    subst hc
    obtain ⟨f, rfl⟩ : ∃ f, fuel = f + 1 := Nat.exists_eq_succ_of_ne_zero (by omega)
    obtain ⟨g, rfl⟩ : ∃ g, f = g + 1 := Nat.exists_eq_succ_of_ne_zero (by simp at hf; omega)
    obtain ⟨k, hk⟩ : ∃ k, CL.MAX_CONFIG_LINE_LEN - 1 = k + 1 :=
      Nat.exists_eq_succ_of_ne_zero (by omega)
    have hfl : fileLines CL fuel2 [] = [] := by cases fuel2 <;> rfl
    rw [hfl]
    cases eof with
    | true => simp [readLoop, processLines]
    | false => simp [readLoop, processLines, hk, fgetsChars]
  | succ n ih =>
    cases content with
    | nil =>
      obtain ⟨f, rfl⟩ : ∃ f, fuel = f + 1 := Nat.exists_eq_succ_of_ne_zero (by omega)
      obtain ⟨g, rfl⟩ : ∃ g, f = g + 1 := Nat.exists_eq_succ_of_ne_zero (by simp at hf; omega)
      obtain ⟨k, hk⟩ : ∃ k, CL.MAX_CONFIG_LINE_LEN - 1 = k + 1 :=
        Nat.exists_eq_succ_of_ne_zero (by omega)
      have hfl : fileLines CL fuel2 [] = [] := by cases fuel2 <;> rfl
      rw [hfl]
      cases eof with
      | true => simp [readLoop, processLines]
      | false => simp [readLoop, processLines, hk, fgetsChars]
    | cons c cs =>
      have he : eof = false := by
        cases eof with
        | true => exact absurd (heof rfl) (by simp)
        | false => rfl
      subst he
      obtain ⟨f, rfl⟩ : ∃ f, fuel = f + 1 := Nat.exists_eq_succ_of_ne_zero (by omega)
      obtain ⟨g, rfl⟩ : ∃ g, fuel2 = g + 1 :=
        Nat.exists_eq_succ_of_ne_zero (by simp at hf2; omega)
      obtain ⟨k, hk⟩ : ∃ k, CL.MAX_CONFIG_LINE_LEN - 1 = k + 1 :=
        Nat.exists_eq_succ_of_ne_zero (by omega)
      have hne := fgetsChars_ne_nil k c cs
      have hlt := fgetsChars_rest_lt k c cs
      have heof2 := fgetsChars_eof (k + 1) (c :: cs)
      simp only [List.length_cons] at hn hf hf2 hlt
      have hrec := fun p2 => ih (fgetsChars (k + 1) (c :: cs)).2.1
        (fgetsChars (k + 1) (c :: cs)).2.2 p2 f g (by omega) heof2 (by omega) (by omega)
      unfold readLoop fileLines processLines
      simp only [hk, Bool.false_eq_true, if_false]
      rw [if_neg (fun h => hne h.1)]
      cases hp : process_config_line CL atoi (cstr (fgetsChars (k + 1) (c :: cs)).1) params with
      | none => rfl
      | some r =>
        obtain ⟨e, p2⟩ := r
        simp only
        by_cases he0 : e ≠ 0
        · rw [if_pos he0, if_pos he0]
        · rw [if_neg he0, if_neg he0]
          exact hrec p2

theorem processLines_append (CL : ConfigLimits) (atoi : CStr → Int) (ls1 ls2 : List CStr)
    (p q : config_params) (h : processLines CL atoi ls1 p = some (0, q)) :
    processLines CL atoi (ls1 ++ ls2) p = processLines CL atoi ls2 q := by
  induction ls1 generalizing p with
  | nil =>
    simp only [processLines, Option.some.injEq, Prod.mk.injEq, true_and] at h
    subst h
    rfl
  | cons l ls ih =>
    simp only [List.cons_append]
    rw [processLines] at h
    rw [processLines]
    cases hp : process_config_line CL atoi l p with
    | none => rw [hp] at h; simp at h
    | some r =>
      obtain ⟨e, p2⟩ := r
      rw [hp] at h
      simp only at h ⊢
      by_cases he0 : e ≠ 0
      · rw [if_pos he0] at h
        simp only [Option.some.injEq, Prod.mk.injEq] at h
        exact absurd h.1 he0
      · rw [if_neg he0] at h
        rw [if_neg he0]
        exact ih p2 h

theorem read_config_eq (CL : ConfigLimits) (atoi : CStr → Int) (hsize : 2 ≤ CL.MAX_CONFIG_LINE_LEN)
    (content : CStr) (params : config_params) :
    read_config CL atoi (some content) params =
      match processLines CL atoi (fileLines CL content.length content) params with
      | none => none
      | some (e, params2) =>
        some (if (if params2.num_tables = 0 then 1 else e) ≠ 0 then -1 else 0, params2) := by
  unfold read_config
  simp only
  rw [readLoop_eq CL atoi hsize content.length content false params (content.length + 2)
    content.length (le_refl _) (by simp) (le_refl _) (le_refl _)]

/-- A file in which a line is rejected after the lines before it were accepted: read_config
returns -1 with the params as they were before that line. -/
theorem read_config_rejected (CL : ConfigLimits) (atoi : CStr → Int)
    (hsize : 2 ≤ CL.MAX_CONFIG_LINE_LEN) (content : CStr) (ls1 ls2 : List CStr) (line : CStr)
    (p0 p : config_params)
    (hfile : fileLines CL content.length content = ls1 ++ line :: ls2)
    (hpre : processLines CL atoi ls1 p0 = some (0, p))
    (hrej : process_config_line CL atoi line p = some (1, p)) :
    read_config CL atoi (some content) p0 = some (-1, p) := by
  rw [read_config_eq CL atoi hsize, hfile, processLines_append CL atoi ls1 _ p0 p hpre]
  rw [processLines, hrej]
  by_cases hz : p.num_tables = 0 <;> simp [hz]


theorem processEntry_num_tables (CL : ConfigLimits) (atoi : CStr → Int) (name value : CStr)
    (q q2 : config_params) (e : Int)
    (h : processEntry CL atoi name value q = some (e, q2))
    (hne : name ≠ "table".toList ∨ e ≠ 0) : q2.num_tables = q.num_tables := by
  unfold processEntry at h
  split_ifs at h with h1 h2 h3 h4 h5 h6 h7 h8 h9 h10
  all_goals try (simp only [Option.some.injEq, Prod.mk.injEq] at h; obtain ⟨_, h⟩ := h; subst h; rfl)
  all_goals
    rcases hne with hne | hne
    · exact absurd h9 hne
    · split at h
      · simp at h
      · simp only [Option.some.injEq, Prod.mk.injEq] at h; obtain ⟨_, h⟩ := h; subst h; rfl
      · first
        | (simp only [Option.some.injEq, Prod.mk.injEq] at h; exact absurd h.1.symm hne)
        | simp at h


theorem process_config_line_num_tables (CL : ConfigLimits) (atoi : CStr → Int) (line : CStr)
    (q q2 : config_params) (e : Int)
    (h : process_config_line CL atoi line q = some (e, q2))
    (hne : isTableLine line = false ∨ e ≠ 0) : q2.num_tables = q.num_tables := by
  obtain ⟨h1, _⟩ := scan_configFormat line
  have hc := scanCount_configFormat line
  unfold process_config_line at h
  by_cases hcom : line.head? = some '#'
  · rw [if_pos hcom] at h
    simp only [Option.some.injEq, Prod.mk.injEq] at h
    obtain ⟨_, h⟩ := h
    subst h; rfl
  · rw [if_neg hcom] at h
    simp only at h
    split_ifs at h with h2 h3
    · simp only [Option.some.injEq, Prod.mk.injEq] at h
      obtain ⟨_, h⟩ := h
      subst h; rfl
    · have hlen : (tokens line).length = 2 := hc.mp (not_not.mp h3)
      refine processEntry_num_tables CL atoi _ _ q q2 e h ?_
      rcases hne with hne | hne
      · left
        rw [h1]
        intro hname
        unfold isTableLine at hne
        cases ht : tokens line with
        | nil => rw [ht] at hlen; simp at hlen
        | cons a l =>
          rw [ht] at hname hne
          simp only [List.take_succ_cons, List.getD_cons_zero] at hname
          subst hname
          rw [ht] at hlen
          simp [hcom, hlen] at hne
          simp at hlen
          exact hne hlen
      · right; exact hne

theorem processLines_num_tables (CL : ConfigLimits) (atoi : CStr → Int) (ls : List CStr)
    (p q : config_params) (e : Int)
    (h : processLines CL atoi ls p = some (e, q))
    (hno : ∀ l ∈ acceptedLines CL atoi ls p, isTableLine l = false) :
    q.num_tables = p.num_tables := by
  induction ls generalizing p with
  | nil =>
    simp only [processLines, Option.some.injEq, Prod.mk.injEq] at h
    rw [← h.2]
  | cons l ls ih =>
    rw [processLines] at h
    rw [acceptedLines] at hno
    cases hp : process_config_line CL atoi l p with
    | none => rw [hp] at h; simp at h
    | some r =>
      obtain ⟨e1, p1⟩ := r
      rw [hp] at h hno
      simp only at h
      by_cases he0 : e1 ≠ 0
      · rw [if_pos he0] at h
        simp only [Option.some.injEq, Prod.mk.injEq] at h
        rw [← h.2]
        exact process_config_line_num_tables CL atoi l p p1 e1 hp (Or.inr he0)
      · rw [if_neg he0] at h
        have he : e1 = 0 := not_not.mp he0
        subst he
        simp only [List.mem_cons, forall_eq_or_imp] at hno
        rw [ih p1 h hno.2]
        exact process_config_line_num_tables CL atoi l p p1 0 hp (Or.inl hno.1)

/-! ### Claims on the configuration file -/

/-- Duplicate entries that the code rejects. For a line that is not a comment and whose
words are a name and a value (each fitting the arrays of process_config_line): when the
name is server_host, username or password and that field of params is already non-empty,
or server_port and the port is no longer -1, or table and the value is one of the first
num_tables rows (a terminated row inside the table list, the rows before it terminated),
process_config_line returns 1 and leaves params unchanged; and read_config on a file in
which this line follows lines that were all accepted returns -1, the params being those
before the line. -/
theorem duplicate_entry_rejected (CL : ConfigLimits) (atoi : CStr → Int) (line name value : CStr)
    (params : config_params) (hcom : line.head? ≠ some '#')
    (htok : tokens line = [name, value])
    (hn : name.length < CL.MAX_CONFIG_LINE_LEN) (hv : value.length < CL.MAX_CONFIG_LINE_LEN)
    (hdup : (name = "server_host".toList ∧ params.server_host ≠ []) ∨
      (name = "username".toList ∧ params.username ≠ []) ∨
      (name = "password".toList ∧ params.password ≠ []) ∨
      (name = "server_port".toList ∧ params.server_port ≠ -1) ∨
      (name = "table".toList ∧ ∃ i : Nat, (i : Int) < params.num_tables ∧ i < CL.MAX_TABLES ∧
        params.table_names.getD i [] = value ∧ value.length < CL.MAX_TABLE_LEN ∧
        ∀ j, j < i → (params.table_names.getD j []).length < CL.MAX_TABLE_LEN)) :
    process_config_line CL atoi line params = some (1, params) ∧
    ∀ (content : CStr) (ls1 ls2 : List CStr) (p0 : config_params),
      2 ≤ CL.MAX_CONFIG_LINE_LEN →
      fileLines CL content.length content = ls1 ++ line :: ls2 →
      processLines CL atoi ls1 p0 = some (0, params) →
      read_config CL atoi (some content) p0 = some (-1, params) := by
  have h : process_config_line CL atoi line params = some (1, params) := by
    rw [process_config_line_pair CL atoi line name value params hcom htok hn hv]
    exact processEntry_duplicate CL atoi name value params hdup
  exact ⟨h, fun content ls1 ls2 p0 hsize hfile hpre =>
    read_config_rejected CL atoi hsize content ls1 ls2 line p0 params hfile hpre h⟩

/-- C18 (at least one table). When num_tables is 0 at the start and the lines of the file
are processed without undefined behaviour, none of the accepted lines being a table line,
read_config returns -1, even if every line was accepted; it also returns -1 when the file
cannot be opened. -/
theorem no_table_no_config (CL : ConfigLimits) (atoi : CStr → Int) (content : CStr)
    (params q : config_params) (e : Int) (hsize : 2 ≤ CL.MAX_CONFIG_LINE_LEN)
    (hzero : params.num_tables = 0)
    (hrun : processLines CL atoi (fileLines CL content.length content) params = some (e, q))
    (hno : ∀ l ∈ acceptedLines CL atoi (fileLines CL content.length content) params,
      isTableLine l = false) :
    read_config CL atoi (some content) params = some (-1, q) ∧
    read_config CL atoi none params = some (-1, params) := by
  have hq : q.num_tables = 0 := by
    rw [processLines_num_tables CL atoi _ params q e hrun hno, hzero]
  constructor
  · rw [read_config_eq CL atoi hsize, hrun]
    simp [hq]
  · simp [read_config]

/-- Examples of duplicate entries that are rejected: a second server_host line, alone and
in a file; a file with a table name given twice. -/
theorem duplicate_entry_rejected_witness :
    process_config_line skeletonConfigLimits sampleAtoi "server_host other\n".toList hostParams
      = some (1, hostParams) ∧
    read_config skeletonConfigLimits sampleAtoi
      (some "server_host localhost\nserver_host other\ntable inttbl\n".toList) emptyParams
      = some (-1, hostParams) ∧
    read_config skeletonConfigLimits sampleAtoi
      (some "table inttbl\ntable strtbl\ntable inttbl\n".toList) emptyParams
      = some (-1, { emptyParams with
          table_names := setRow (setRow emptyParams.table_names 0 "inttbl".toList) 1
            "strtbl".toList,
          num_tables := 2 }) :=
  ⟨(duplicate_entry_rejected skeletonConfigLimits sampleAtoi "server_host other\n".toList
      "server_host".toList "other".toList hostParams (by decide) (by decide) (by decide)
      (by decide) (Or.inl ⟨rfl, by decide⟩)).1,
    (duplicate_entry_rejected skeletonConfigLimits sampleAtoi "server_host other\n".toList
      "server_host".toList "other".toList hostParams (by decide) (by decide) (by decide)
      (by decide) (Or.inl ⟨rfl, by decide⟩)).2
      "server_host localhost\nserver_host other\ntable inttbl\n".toList
      ["server_host localhost\n".toList] ["table inttbl\n".toList] emptyParams
      (by decide) (by decide) (by decide),
    by decide⟩

theorem strcmpRow_unterminated (size : Nat) (value : CStr) (h : size ≤ value.length) :
    strcmpRow size (strncpy size value) value = none := by
  unfold strcmpRow strncpy
  have hlen : (value.take size).length = size := by
    rw [List.length_take]; omega
  rw [if_neg (by omega), if_pos]
  rw [List.isPrefixOf_iff_prefix]
  exact List.take_prefix _ _

theorem tableLoop_unterminated (CL : ConfigLimits) (names : List CStr) (value : CStr)
    (n start : Nat)
    (h : ∃ i, start ≤ i ∧ i < start + n ∧ i < CL.MAX_TABLES ∧
      names.getD i [] = strncpy CL.MAX_TABLE_LEN value ∧
      CL.MAX_TABLE_LEN ≤ value.length ∧
      ∀ j, start ≤ j → j < i →
        strcmpRow CL.MAX_TABLE_LEN (names.getD j []) value = some false) :
    tableLoop CL names value n start = none := by
  induction n generalizing start with
  | zero =>
    obtain ⟨i, h1, h2, _⟩ := h
    omega
  | succ n ih =>
    obtain ⟨i, h1, h2, h3, h4, h5, h6⟩ := h
    unfold tableLoop
    rw [if_neg (by omega)]
    by_cases hs : start = i
    · subst hs
      rw [h4, strcmpRow_unterminated _ _ h5]
    · have hlt : start < i := by omega
      rw [h6 start (le_refl _) hlt]
      exact ih (start + 1) ⟨i, by omega, by omega, h3, h4, h5,
        fun j hj1 hj2 => h6 j (by omega) hj2⟩

theorem read_config_undefined (CL : ConfigLimits) (atoi : CStr → Int)
    (hsize : 2 ≤ CL.MAX_CONFIG_LINE_LEN) (content : CStr) (ls1 ls2 : List CStr) (line : CStr)
    (p0 p : config_params)
    (hfile : fileLines CL content.length content = ls1 ++ line :: ls2)
    (hpre : processLines CL atoi ls1 p0 = some (0, p))
    (hrej : process_config_line CL atoi line p = none) :
    read_config CL atoi (some content) p0 = none := by
  rw [read_config_eq CL atoi hsize, hfile, processLines_append CL atoi ls1 _ p0 p hpre]
  rw [processLines, hrej]

/-- C17 (duplicate entries). The claim is that a table line whose name is already among
the first num_tables names is rejected with a non-zero value, params unchanged, and that
read_config then returns -1. A name of MAX_TABLE_LEN characters or more is stored by
strncpy without a terminator, so the row that holds it does not end inside the array:
when the same table line comes again (the rows before it comparing different), strcmp
runs past the row, which is undefined behaviour instead of the return of 1, for
process_config_line and for read_config on a file with this line. -/
theorem duplicate_table_unterminated (CL : ConfigLimits) (atoi : CStr → Int) (line value : CStr)
    (params : config_params) (i : Nat) (hcom : line.head? ≠ some '#')
    (htok : tokens line = ["table".toList, value])
    (hn : "table".toList.length < CL.MAX_CONFIG_LINE_LEN)
    (hv : value.length < CL.MAX_CONFIG_LINE_LEN)
    (hcs : check_special value = true)
    (hlong : CL.MAX_TABLE_LEN ≤ value.length)
    (hi : (i : Int) < params.num_tables) (hmax : i < CL.MAX_TABLES)
    (hrow : params.table_names.getD i [] = strncpy CL.MAX_TABLE_LEN value)
    (hbefore : ∀ j, j < i →
      strcmpRow CL.MAX_TABLE_LEN (params.table_names.getD j []) value = some false) :
    process_config_line CL atoi line params = none ∧
    process_config_line CL atoi line params ≠ some (1, params) ∧
    ∀ (content : CStr) (ls1 ls2 : List CStr) (p0 : config_params),
      2 ≤ CL.MAX_CONFIG_LINE_LEN →
      fileLines CL content.length content = ls1 ++ line :: ls2 →
      processLines CL atoi ls1 p0 = some (0, params) →
      read_config CL atoi (some content) p0 = none := by
  have h : process_config_line CL atoi line params = none := by
    rw [process_config_line_pair CL atoi line _ value params hcom htok hn hv]
    unfold processEntry
    rw [if_neg (by decide), if_neg (by decide), if_neg (by decide), if_neg (by decide),
      if_pos rfl, if_neg (by simp [hcs]),
      tableLoop_unterminated CL params.table_names value params.num_tables.toNat 0
        ⟨i, Nat.zero_le _, by omega, hmax, hrow, hlong, fun j _ hj => hbefore j hj⟩]
  refine ⟨h, by rw [h]; simp, fun content ls1 ls2 p0 hsize hfile hpre => ?_⟩
  exact read_config_undefined CL atoi hsize content ls1 ls2 line p0 params hfile hpre h

/-- Witness for C17: a file with two table names of 20 characters, the first one given
again in the third line, under the sizes of the skeleton. -/
theorem duplicate_table_unterminated_witness :
    processLines skeletonConfigLimits sampleAtoi
        ["table aaaaaaaaaaaaaaaaaaaa\n".toList, "table bbbbbbbbbbbbbbbbbbbb\n".toList]
        emptyParams
      = some (0, { emptyParams with
          table_names := setRow (setRow emptyParams.table_names 0
            "aaaaaaaaaaaaaaaaaaaa".toList) 1 "bbbbbbbbbbbbbbbbbbbb".toList,
          num_tables := 2 }) ∧
    read_config skeletonConfigLimits sampleAtoi
      (some ("table aaaaaaaaaaaaaaaaaaaa\ntable bbbbbbbbbbbbbbbbbbbb\n" ++
        "table aaaaaaaaaaaaaaaaaaaa\n").toList)
      emptyParams = none ∧
    (process_config_line skeletonConfigLimits sampleAtoi "table aaaaaaaaaaaaaaaaaaaa\n".toList
        { emptyParams with
          table_names := setRow (setRow emptyParams.table_names 0
            "aaaaaaaaaaaaaaaaaaaa".toList) 1 "bbbbbbbbbbbbbbbbbbbb".toList,
          num_tables := 2 } = none ∧
    process_config_line skeletonConfigLimits sampleAtoi "table aaaaaaaaaaaaaaaaaaaa\n".toList
        { emptyParams with
          table_names := setRow (setRow emptyParams.table_names 0
            "aaaaaaaaaaaaaaaaaaaa".toList) 1 "bbbbbbbbbbbbbbbbbbbb".toList,
          num_tables := 2 }
      ≠ some (1, { emptyParams with
          table_names := setRow (setRow emptyParams.table_names 0
            "aaaaaaaaaaaaaaaaaaaa".toList) 1 "bbbbbbbbbbbbbbbbbbbb".toList,
          num_tables := 2 }) ∧
    ∀ (content : CStr) (ls1 ls2 : List CStr) (p0 : config_params),
      2 ≤ skeletonConfigLimits.MAX_CONFIG_LINE_LEN →
      fileLines skeletonConfigLimits content.length content
        = ls1 ++ "table aaaaaaaaaaaaaaaaaaaa\n".toList :: ls2 →
      processLines skeletonConfigLimits sampleAtoi ls1 p0
        = some (0, { emptyParams with
          table_names := setRow (setRow emptyParams.table_names 0
            "aaaaaaaaaaaaaaaaaaaa".toList) 1 "bbbbbbbbbbbbbbbbbbbb".toList,
          num_tables := 2 }) →
      read_config skeletonConfigLimits sampleAtoi (some content) p0 = none) :=
  ⟨by decide, by decide,
    duplicate_table_unterminated skeletonConfigLimits sampleAtoi
      "table aaaaaaaaaaaaaaaaaaaa\n".toList "aaaaaaaaaaaaaaaaaaaa".toList
      { emptyParams with
          table_names := setRow (setRow emptyParams.table_names 0
            "aaaaaaaaaaaaaaaaaaaa".toList) 1 "bbbbbbbbbbbbbbbbbbbb".toList,
          num_tables := 2 } 0
      (by decide) (by decide) (by decide) (by decide) (by decide) (by decide) (by decide)
      (by decide) (by decide) (by intro j hj; omega)⟩

/-- Witness for C18: a file with a host and a port and no table, every line accepted. -/
theorem no_table_no_config_witness :
    read_config skeletonConfigLimits sampleAtoi
      (some "server_host localhost\nserver_port 4848\n".toList) emptyParams
      = some (-1, { emptyParams with server_host := "localhost".toList, server_port := 4848 }) ∧
    read_config skeletonConfigLimits sampleAtoi none emptyParams = some (-1, emptyParams) :=
  no_table_no_config skeletonConfigLimits sampleAtoi
    "server_host localhost\nserver_port 4848\n".toList emptyParams
    { emptyParams with server_host := "localhost".toList, server_port := 4848 } 0
    (by decide) rfl (by decide) (by decide)

/-- C20 (capacity of the pool). The claim is that MAX_THREADS consecutive getThreadInfo calls
return without waiting. From the initial pool every run of fewer than MAX_THREADS calls
returns; after MAX_THREADS - 1 calls botRT is MAX_THREADS - 1 and topRT is 0, so the test
(botRT + 1) % MAX_THREADS == topRT holds and the next call, the MAX_THREADS-th, waits
although the last entry of runtimeThreads has not been handed out. -/
theorem pool_admits_one_less :
    (∀ k, k < MAX_THREADS → (acquire k Pool.initial).isSome = true) ∧
    acquire (MAX_THREADS - 1) Pool.initial
      = some (List.range (MAX_THREADS - 1), ⟨List.range MAX_THREADS, MAX_THREADS - 1, 0⟩) ∧
    getThreadInfo ⟨List.range MAX_THREADS, MAX_THREADS - 1, 0⟩ = none ∧
    acquire MAX_THREADS Pool.initial = none := by
  decide

/-! ### check_special, make_key and make_value -/

theorem copyIf_eq (test : Char → Bool) (buf new_buf : CStr) :
    copyIf test buf new_buf = new_buf ++ buf.filter test := by
  induction buf generalizing new_buf with
  | nil => simp [copyIf]
  | cons c cs ih =>
    unfold copyIf
    by_cases h : test c = true
    · simp [h, ih]
    · simp [h, ih]

theorem check_special_iff (s : CStr) :
    check_special s = true ↔ ∀ c ∈ s, isalnum c = true ∨ isspace c = true := by
  simp [check_special, List.all_eq_true]

/-- Counterexample for C21: the claim fails on the string made of one tab, which is
neither alphanumeric nor the space character and which check_special accepts. -/
theorem check_special_accepts_tab :
    ¬ ∀ s : CStr, ((∃ c ∈ s, isalnum c = false ∧ c ≠ ' ') → check_special s = false) ∧
      ((¬ ∃ c ∈ s, isalnum c = false ∧ c ≠ ' ') → check_special s = true) := by
  intro h
  have := (h [Char.ofNat 9]).1 ⟨Char.ofNat 9, by simp, by decide, by decide⟩
  revert this
  decide

/-- C21 (check_special), as amended: check_special returns false whenever the string holds
a character that is neither alphanumeric nor a white-space character (isspace: space, tab,
newline, vertical tab, form feed, carriage return), and true otherwise, in particular for
the empty string; the space character is white space. -/
theorem check_special_spec (s : CStr) :
    ((∃ c ∈ s, isalnum c = false ∧ isspace c = false) → check_special s = false) ∧
    ((¬ ∃ c ∈ s, isalnum c = false ∧ isspace c = false) → check_special s = true) ∧
    check_special [] = true ∧
    (∀ c, c = ' ' → isspace c = true) := by
  refine ⟨?_, ?_, rfl, ?_⟩
  · rintro ⟨c, hc, h1, h2⟩
    by_contra hne
    have ht : check_special s = true := by simpa using hne
    rcases (check_special_iff s).mp ht c hc with h | h
    · rw [h] at h1; cases h1
    · rw [h] at h2; cases h2
  · intro hno
    rw [check_special_iff]
    intro c hc
    by_contra hcon
    push_neg at hcon
    exact hno ⟨c, hc, by simpa using hcon.1, by simpa using hcon.2⟩
  · intro c hc
    subst hc
    decide

/-- C22 (make_key). For a string shorter than MAX_VALUE_LEN, make_key returns 0 and leaves
in buf the alphanumeric characters of the string in their order: a subsequence of the
string with no white space and no special character, the string itself when all its
characters are alphanumeric, and a string that make_key leaves as it is. -/
theorem make_key_spec (L : Limits) (s : CStr) (hlen : s.length < L.MAX_VALUE_LEN) :
    make_key L s = some (0, s.filter isalnum) ∧
    (s.filter isalnum).Sublist s ∧
    (∀ c ∈ s.filter isalnum, isalnum c = true ∧ isspace c = false) ∧
    ((∀ c ∈ s, isalnum c = true) → make_key L s = some (0, s)) ∧
    make_key L (s.filter isalnum) = some (0, s.filter isalnum) := by
  have hf : (s.filter isalnum).length < L.MAX_VALUE_LEN :=
    lt_of_le_of_lt (List.length_filter_le _ _) hlen
  have h1 : make_key L s = some (0, s.filter isalnum) := by
    unfold make_key
    rw [copyIf_eq]
    simp [hf]
  refine ⟨h1, List.filter_sublist _, ?_, ?_, ?_⟩
  · intro c hc
    have hal : isalnum c = true := (List.mem_filter.mp hc).2
    refine ⟨hal, ?_⟩
    revert hal
    unfold isalnum isspace
    intro hal
    simp only [Bool.or_eq_true, Bool.and_eq_true, decide_eq_true_eq] at hal
    simp only [Bool.or_eq_false_iff, beq_eq_false_iff_ne, Bool.and_eq_false_iff,
      decide_eq_false_iff_not]
    omega
  · intro hall
    rw [h1, List.filter_eq_self.mpr hall]
  · unfold make_key
    rw [copyIf_eq]
    simp [hf]


/-- Witness for C22: make_key on "some key_1!" leaves "somekey1". -/
theorem make_key_spec_witness :
    make_key skeletonLimits "some key_1!".toList = some (0, "somekey1".toList) ∧
    make_key skeletonLimits "some key_1!".toList
      = some (0, "some key_1!".toList.filter isalnum) ∧
    ("some key_1!".toList.filter isalnum).Sublist "some key_1!".toList ∧
    (∀ c ∈ "some key_1!".toList.filter isalnum, isalnum c = true ∧ isspace c = false) ∧
    ((∀ c ∈ "some key_1!".toList, isalnum c = true) →
      make_key skeletonLimits "some key_1!".toList = some (0, "some key_1!".toList)) ∧
    make_key skeletonLimits ("some key_1!".toList.filter isalnum)
      = some (0, "some key_1!".toList.filter isalnum) :=
  ⟨by decide, make_key_spec skeletonLimits "some key_1!".toList (by decide)⟩

/-- C23 (make_value and check_special). For a string shorter than MAX_VALUE_LEN, make_value
returns 0 and leaves a string that check_special accepts; the string is unchanged exactly
when check_special accepted it before; what is left is a subsequence of the string, and a
character of the string is kept exactly when it is alphanumeric or white space. -/
theorem make_value_spec (L : Limits) (s : CStr) (hlen : s.length < L.MAX_VALUE_LEN) :
    ∃ r, make_value L s = some (0, r) ∧
      r = s.filter (fun c => isalnum c || isspace c) ∧
      check_special r = true ∧
      (r = s ↔ check_special s = true) ∧
      r.Sublist s ∧
      (∀ c ∈ s, (c ∈ r ↔ isalnum c = true ∨ isspace c = true)) := by
  have hf : (s.filter (fun c => isalnum c || isspace c)).length < L.MAX_VALUE_LEN :=
    lt_of_le_of_lt (List.length_filter_le _ _) hlen
  refine ⟨s.filter (fun c => isalnum c || isspace c), ?_, rfl, ?_, ?_, List.filter_sublist _, ?_⟩
  · unfold make_value
    rw [copyIf_eq]
    simp [hf]
  · rw [check_special_iff]
    intro c hc
    simpa using (List.mem_filter.mp hc).2
  · rw [List.filter_eq_self, check_special_iff]
    simp
  · intro c hc
    simp [List.mem_filter, hc]

/-- Witness for C23: make_value on "col 22!?" leaves "col 22". -/
theorem make_value_spec_witness :
    make_value skeletonLimits "col 22!?".toList = some (0, "col 22".toList) ∧
    check_special "col 22!?".toList = false ∧
    ∃ r, make_value skeletonLimits "col 22!?".toList = some (0, r) ∧
      r = "col 22!?".toList.filter (fun c => isalnum c || isspace c) ∧
      check_special r = true ∧
      (r = "col 22!?".toList ↔ check_special "col 22!?".toList = true) ∧
      r.Sublist "col 22!?".toList ∧
      (∀ c ∈ "col 22!?".toList, (c ∈ r ↔ isalnum c = true ∨ isspace c = true)) :=
  ⟨by decide, by decide, make_value_spec skeletonLimits "col 22!?".toList (by decide)⟩

/-! ### Claims on the reply, the port and the record -/

theorem transact_received (L : Limits) (verb table : CStr) (record : Option CStr) (sock : Int)
    (request : CStr) (st : Client)
    (hs : (sendall sock request st.sys).1 = 0) (hr : (received sock request st.sys).1 = 0) :
    transact L verb table record sock request st
      = readReply L verb table record (cstr (received sock request st.sys).2.1)
          { st with sys := (received sock request st.sys).2.2 } := by
  unfold received at hr
  unfold transact received
  simp only
  rw [if_pos hs, if_pos hr]

theorem readReply_not_parsed (L : Limits) (verb table : CStr) (record : Option CStr)
    (line : CStr) (st : Client)
    (hn : scanCount (scan (replyFormat verb) line []) ≠ 3) :
    readReply L verb table record line st
      = if fieldsFit L (scan (replyFormat verb) line []).1 = true then
          some ⟨-1, record, st.setErrno
            (if (scan (replyFormat verb) line []).1.getD 0 [] ≠ table
              then Errno.ERR_TABLE_NOT_FOUND else Errno.ERR_KEY_NOT_FOUND)⟩
        else none := by
  unfold readReply
  simp only
  by_cases hfit : fieldsFit L (scan (replyFormat verb) line []).1 = true
  · rw [if_neg (by simp [hfit]), if_neg hn, if_pos hfit]
    split_ifs <;> rfl
  · rw [if_pos (by simpa using hfit), if_neg hfit]

theorem logFailure_not_parsed (log : CStr) (fit : Bool) (r : Ret) (hr : r.status ≠ 0) :
    logFailure log (if fit = true then some r else none)
      = if fit = true ∧ sprintfFits log = true then some r else none := by
  cases fit with
  | false => simp [logFailure]
  | true =>
    simp only [if_true, true_and]
    exact logFailure_failed log r hr

/-- C24 (a reply that does not parse). The claim is that every reply line that does not
parse into three fields makes storage_get and storage_set return -1 with errno
ERR_TABLE_NOT_FOUND exactly when the first field converted (the empty string when none
was) differs from the requested table, and ERR_KEY_NOT_FOUND otherwise. On a live
authenticated connection, when the request was sent and a line received that does not give
three fields, this is what the calls do, leaving the record alone, only when the fields
that sscanf did convert fit their arrays and the failure text fits client_buffer. A reply
whose field is as long as its array makes the %s conversion of sscanf write past the
array, and a long table or key makes the sprintf overrun client_buffer: undefined
behaviour instead of the return of -1. -/
theorem reply_not_parsed (L : Limits) (t k v : CStr) (rec : Option CStr) (conn : Int)
    (st : Client) (hconn : conn ≠ 0) (hc : st.connected = true)
    (ha : st.authenticated = true) :
    ((sendall conn (getRequest t k) st.sys).1 = 0 →
      (received conn (getRequest t k) st.sys).1 = 0 →
      scanCount (scan (replyFormat "GET".toList)
        (cstr (received conn (getRequest t k) st.sys).2.1) []) ≠ 3 →
      storage_get L (some t) (some k) rec conn st
        = if fieldsFit L (scan (replyFormat "GET".toList)
              (cstr (received conn (getRequest t k) st.sys).2.1) []).1 = true ∧
            sprintfFits (getFailureLog t k) = true then
          some ⟨-1, rec,
            Client.setErrno { st with sys := (received conn (getRequest t k) st.sys).2.2 }
            (if (scan (replyFormat "GET".toList)
                (cstr (received conn (getRequest t k) st.sys).2.1) []).1.getD 0 [] ≠ t
              then Errno.ERR_TABLE_NOT_FOUND else Errno.ERR_KEY_NOT_FOUND)⟩
        else none) ∧
    ((sendall conn (setRequest t k v) st.sys).1 = 0 →
      (received conn (setRequest t k v) st.sys).1 = 0 →
      scanCount (scan (replyFormat "SET".toList)
        (cstr (received conn (setRequest t k v) st.sys).2.1) []) ≠ 3 →
      storage_set L (some t) (some k) (some v) conn st
        = if fieldsFit L (scan (replyFormat "SET".toList)
              (cstr (received conn (setRequest t k v) st.sys).2.1) []).1 = true ∧
            sprintfFits (setFailureLog t k v) = true then
          some ⟨-1, some v,
            Client.setErrno { st with sys := (received conn (setRequest t k v) st.sys).2.2 }
            (if (scan (replyFormat "SET".toList)
                (cstr (received conn (setRequest t k v) st.sys).2.1) []).1.getD 0 [] ≠ t
              then Errno.ERR_TABLE_NOT_FOUND else Errno.ERR_KEY_NOT_FOUND)⟩
        else none) := by
  constructor
  · intro hs hr hn
    simp only [storage_get, if_neg hconn]
    rw [exchange_eq_transact _ _ _ _ _ _ _ _ hc ha, transact_received _ _ _ _ _ _ _ hs hr,
      readReply_not_parsed _ _ _ _ _ _ hn]
    exact logFailure_not_parsed _ _ _ (by simp)
  · intro hs hr hn
    simp only [storage_set, if_neg hconn]
    rw [exchange_eq_transact _ _ _ _ _ _ _ _ hc ha, transact_received _ _ _ _ _ _ _ hs hr,
      readReply_not_parsed _ _ _ _ _ _ hn]
    exact logFailure_not_parsed _ _ _ (by simp)

/-- Witness for C24: a reply with another table gives ERR_TABLE_NOT_FOUND, a reply of two
fields with the requested table gives ERR_KEY_NOT_FOUND, and a reply whose table field has
62 characters overruns temp_table. -/
theorem reply_not_parsed_witness :
    (∃ r, storage_get skeletonLimits (some "missingtable".toList) (some "somekey".toList)
        (some []) 3 (liveClient "GET #notfound".toList) = some r ∧ r.status = -1 ∧
      r.st.sys.errno = Errno.ERR_TABLE_NOT_FOUND) ∧
    (∃ r, storage_get skeletonLimits (some "inttbl".toList) (some "missingkey".toList)
        (some []) 3 (liveClient "GET #inttbl #missingkey".toList) = some r ∧ r.status = -1 ∧
      r.st.sys.errno = Errno.ERR_KEY_NOT_FOUND) ∧
    storage_get skeletonLimits (some "inttbl".toList) (some "somekey".toList) (some []) 3
        (liveClient ("GET #".toList ++ List.replicate 62 'a')) = none ∧
    storage_get skeletonLimits (some "inttbl".toList) (some "somekey".toList) (some []) 3
        (liveClient ("GET #".toList ++ List.replicate 62 'a'))
      = (if fieldsFit skeletonLimits (scan (replyFormat "GET".toList)
            (cstr (received 3 (getRequest "inttbl".toList "somekey".toList)
              (liveClient ("GET #".toList ++ List.replicate 62 'a')).sys).2.1) []).1 = true ∧
          sprintfFits (getFailureLog "inttbl".toList "somekey".toList) = true then
        some ⟨-1, some [], Client.setErrno
          { liveClient ("GET #".toList ++ List.replicate 62 'a') with
            sys := (received 3 (getRequest "inttbl".toList "somekey".toList)
              (liveClient ("GET #".toList ++ List.replicate 62 'a')).sys).2.2 }
          (if (scan (replyFormat "GET".toList)
              (cstr (received 3 (getRequest "inttbl".toList "somekey".toList)
                (liveClient ("GET #".toList ++ List.replicate 62 'a')).sys).2.1) []).1.getD 0 []
              ≠ "inttbl".toList
            then Errno.ERR_TABLE_NOT_FOUND else Errno.ERR_KEY_NOT_FOUND)⟩
      else none) :=
  ⟨⟨_, rfl, by decide, by decide⟩, ⟨_, rfl, by decide, by decide⟩, by decide,
    (reply_not_parsed skeletonLimits "inttbl".toList "somekey".toList [] (some []) 3
      (liveClient ("GET #".toList ++ List.replicate 62 'a')) (by decide) rfl rfl).1
      (by decide) (by decide) (by decide)⟩

theorem isdigit_not_space (c : Char) (h : isdigit c = true) :
    isspace c = false ∧ c ≠ '-' ∧ c ≠ '+' := by
  unfold isdigit at h
  simp only [Bool.and_eq_true, decide_eq_true_eq] at h
  refine ⟨?_, ?_, ?_⟩
  · unfold isspace
    simp only [Bool.or_eq_false_iff, beq_eq_false_iff_ne, Bool.and_eq_false_iff,
      decide_eq_false_iff_not]
    omega
  · intro hc
    subst hc
    revert h
    decide
  · intro hc
    subst hc
    revert h
    decide

theorem toInt32_small (v : Int) (h0 : 0 ≤ v) (h1 : v < 2 ^ 31) : toInt32 v = v := by
  unfold toInt32
  have e1 : ((2 ^ 31 : Nat) : Int) = 2147483648 := by norm_num
  have e2 : ((2 ^ 32 : Nat) : Int) = 4294967296 := by norm_num
  have e3 : (2 : Int) ^ 31 = 2147483648 := by norm_num
  rw [e1, e2]
  rw [e3] at h1
  omega

theorem strtol_numeral (lw : Nat) (s : CStr) (hnum : isNumeral s = true)
    (hval : digitsValue s < 2 ^ (lw - 1)) : strtol lw s = digitsValue s := by
  unfold isNumeral at hnum
  simp only [Bool.and_eq_true, Bool.not_eq_true', List.all_eq_true] at hnum
  obtain ⟨hne, hall⟩ := hnum
  cases s with
  | nil => simp at hne
  | cons c cs =>
    obtain ⟨hsp, hm, hp⟩ := isdigit_not_space c (hall c (List.mem_cons_self _ _))
    have htw : (c :: cs).takeWhile isdigit = c :: cs := by
      rw [List.takeWhile_eq_self_iff]
      exact hall
    have hdrop : (c :: cs).dropWhile isspace = c :: cs := by
      simp [List.dropWhile, hsp]
    unfold strtol
    rw [hdrop]
    have hv : (match c :: cs with
        | '-' :: rest => -(digitsValue (rest.takeWhile isdigit) : Int)
        | '+' :: rest => (digitsValue (rest.takeWhile isdigit) : Int)
        | rest => (digitsValue (rest.takeWhile isdigit) : Int))
        = (digitsValue (c :: cs) : Int) := by
      split
      · rename_i heq
        simp only [List.cons.injEq] at heq
        exact absurd heq.1 hm
      · rename_i heq
        simp only [List.cons.injEq] at heq
        exact absurd heq.1 hp
      · rw [htw]
    simp only [hv]
    have h1 : ((digitsValue (c :: cs) : Nat) : Int) < ((2 ^ (lw - 1) : Nat) : Int) :=
      Int.ofNat_lt.mpr hval
    have h2 : (0 : Int) ≤ ((digitsValue (c :: cs) : Nat) : Int) := Int.ofNat_nonneg _
    have h3 : (0 : Int) ≤ ((2 ^ (lw - 1) : Nat) : Int) := Int.ofNat_nonneg _
    omega

/-- C25 (the server_port line). The claim is that a line "server_port V" is accepted
exactly when server_port is still -1 and the integer value of V lies in 1024..65535, and
that the port becomes that integer. For a line that is not a comment and whose words are
server_port and V (fitting the arrays), process_config_line returns 0 exactly when
server_port is still -1 and atoi(V) lies in 1024..65535, storing atoi(V) and changing
nothing else; otherwise it returns 1 and params is unchanged. For a decimal numeral V that
fits in a long, atoi(V) is the integer value of V converted to an int of 32 bits: the
integer itself below 2 ^ 31, but a different number from 2 ^ 31 on, so that a value of V
far above 65535 is accepted as a port. -/
theorem server_port_line (CL : ConfigLimits) (lw : Nat) (line value : CStr)
    (params : config_params) (hcom : line.head? ≠ some '#')
    (htok : tokens line = ["server_port".toList, value])
    (hn : "server_port".toList.length < CL.MAX_CONFIG_LINE_LEN)
    (hv : value.length < CL.MAX_CONFIG_LINE_LEN) :
    process_config_line CL (atoi lw) line params
      = (if params.server_port = -1 ∧ 1024 ≤ atoi lw value ∧ atoi lw value ≤ 65535 then
          some (0, { params with server_port := atoi lw value })
        else some (1, params)) ∧
    (isNumeral value = true → digitsValue value < 2 ^ (lw - 1) →
      atoi lw value = toInt32 (digitsValue value)) ∧
    (isNumeral value = true → digitsValue value < 2 ^ (lw - 1) → digitsValue value < 2 ^ 31 →
      atoi lw value = digitsValue value) := by
  have hcond : (params.server_port = -1 ∧ atoi lw value > 1023 ∧ atoi lw value < 65536) ↔
      (params.server_port = -1 ∧ 1024 ≤ atoi lw value ∧ atoi lw value ≤ 65535) := by
    constructor <;> rintro ⟨h1, h2, h3⟩ <;> exact ⟨h1, by omega, by omega⟩
  have hnum : isNumeral value = true → digitsValue value < 2 ^ (lw - 1) →
      atoi lw value = toInt32 (digitsValue value) := by
    intro h1 h2
    unfold atoi
    rw [strtol_numeral lw value h1 h2]
  refine ⟨?_, hnum, ?_⟩
  · rw [process_config_line_pair CL (atoi lw) line _ value params hcom htok hn hv]
    unfold processEntry
    rw [if_neg (by decide), if_pos rfl]
    by_cases h : params.server_port = -1 ∧ 1024 ≤ atoi lw value ∧ atoi lw value ≤ 65535
    · rw [if_pos (hcond.mpr h), if_pos h]
    · rw [if_neg (fun hh => h (hcond.mp hh)), if_neg h]
  · intro h1 h2 h3
    rw [hnum h1 h2]
    exact toInt32_small _ (Int.ofNat_nonneg _) (by exact_mod_cast h3)

/-- Witness for C25: with a long of 64 bits, port 4848 is accepted, port 80 and a second
port line are not, and the line "server_port 4294968320" is accepted with port 1024. -/
theorem server_port_line_witness :
    process_config_line skeletonConfigLimits (atoi 64) "server_port 4848\n".toList emptyParams
      = some (0, { emptyParams with server_port := 4848 }) ∧
    process_config_line skeletonConfigLimits (atoi 64) "server_port 80\n".toList emptyParams
      = some (1, emptyParams) ∧
    process_config_line skeletonConfigLimits (atoi 64) "server_port 4849\n".toList
        { emptyParams with server_port := 4848 }
      = some (1, { emptyParams with server_port := 4848 }) ∧
    digitsValue "4294968320".toList = 4294968320 ∧
    process_config_line skeletonConfigLimits (atoi 64) "server_port 4294968320\n".toList
        emptyParams
      = some (0, { emptyParams with server_port := 1024 }) ∧
    (process_config_line skeletonConfigLimits (atoi 64) "server_port 4294968320\n".toList
        emptyParams
      = (if emptyParams.server_port = -1 ∧ 1024 ≤ atoi 64 "4294968320".toList ∧
          atoi 64 "4294968320".toList ≤ 65535 then
          some (0, { emptyParams with server_port := atoi 64 "4294968320".toList })
        else some (1, emptyParams)) ∧
    (isNumeral "4294968320".toList = true → digitsValue "4294968320".toList < 2 ^ (64 - 1) →
      atoi 64 "4294968320".toList = toInt32 (digitsValue "4294968320".toList)) ∧
    (isNumeral "4294968320".toList = true → digitsValue "4294968320".toList < 2 ^ (64 - 1) →
      digitsValue "4294968320".toList < 2 ^ 31 →
      atoi 64 "4294968320".toList = digitsValue "4294968320".toList)) :=
  ⟨by decide, by decide, by decide, by decide, by decide,
    server_port_line skeletonConfigLimits 64 "server_port 4294968320\n".toList
      "4294968320".toList emptyParams (by decide) (by decide) (by decide) (by decide)⟩

/-- C26 (port out of range). For every hostname and every port below 1024 or above 65535,
storage_connect returns NULL with errno ERR_INVALID_PARAM, makes no socket call, and leaves
connected (and authenticated) as they were. -/
theorem storage_connect_bad_port (L : Limits) (hostname : Option CStr) (port : Int)
    (env : ConnectResults) (st : Client) (hport : port < 1024 ∨ 65535 < port) :
    storage_connect L hostname port env st = some (0, st.setErrno Errno.ERR_INVALID_PARAM) ∧
    (st.setErrno Errno.ERR_INVALID_PARAM).sys.errno = Errno.ERR_INVALID_PARAM ∧
    (st.setErrno Errno.ERR_INVALID_PARAM).sys.socketLog = st.sys.socketLog ∧
    (st.setErrno Errno.ERR_INVALID_PARAM).connected = st.connected ∧
    (st.setErrno Errno.ERR_INVALID_PARAM).authenticated = st.authenticated := by
  refine ⟨?_, rfl, rfl, rfl, rfl⟩
  unfold storage_connect
  rw [if_pos (by omega)]

/-- Witness for C26: port 80 on a client that has just started. -/
theorem storage_connect_bad_port_witness :
    storage_connect skeletonLimits (some "localhost".toList) 80 ⟨4, 0, 0⟩
        (Client.start (replyScript []))
      = some (0, (Client.start (replyScript [])).setErrno Errno.ERR_INVALID_PARAM) ∧
    ((Client.start (replyScript [])).setErrno Errno.ERR_INVALID_PARAM).sys.errno
      = Errno.ERR_INVALID_PARAM ∧
    ((Client.start (replyScript [])).setErrno Errno.ERR_INVALID_PARAM).sys.socketLog
      = (Client.start (replyScript [])).sys.socketLog ∧
    ((Client.start (replyScript [])).setErrno Errno.ERR_INVALID_PARAM).connected
      = (Client.start (replyScript [])).connected ∧
    ((Client.start (replyScript [])).setErrno Errno.ERR_INVALID_PARAM).authenticated
      = (Client.start (replyScript [])).authenticated :=
  storage_connect_bad_port skeletonLimits (some "localhost".toList) 80 ⟨4, 0, 0⟩
    (Client.start (replyScript [])) (Or.inl (by decide))

theorem exchange_record (L : Limits) (verb table : CStr) (record : Option CStr) (sock : Int)
    (request log : CStr) (st : Client) (r : Ret)
    (h : exchange L verb table record sock request log st = some r) :
    (r.status = 0 ∨ r.status = -1) ∧ (r.status = -1 → r.record = record) ∧
      (r.status = 0 → (sendall sock request st.sys).1 = 0 ∧
        (received sock request st.sys).1 = 0 ∧
        r.record = some ((scan (replyFormat verb)
          (cstr (received sock request st.sys).2.1) []).1.getD 2 [])) := by
  unfold exchange at h
  have h := logFailure_some _ _ _ h
  split_ifs at h
  · simp only [Option.some.injEq] at h
    subst h
    exact ⟨Or.inr rfl, fun _ => rfl, by simp⟩
  · simp only [Option.some.injEq] at h
    subst h
    exact ⟨Or.inr rfl, fun _ => rfl, by simp⟩
  · unfold transact at h
    simp only at h
    split_ifs at h with h1 h2
    · rcases readReply_cases _ _ _ _ _ _ _ h with ⟨h3, _, h4⟩ | ⟨h3, h4, _⟩
      · refine ⟨Or.inl h3, ?_, fun _ => ⟨h1, h2, h4⟩⟩
        intro hh
        rw [h3] at hh
        cases hh
      · refine ⟨Or.inr h3, fun _ => h4, ?_⟩
        intro hh
        rw [h3] at hh
        cases hh
    · simp only [Option.some.injEq] at h
      subst h
      exact ⟨Or.inr rfl, fun _ => rfl, by simp⟩
    · simp only [Option.some.injEq] at h
      subst h
      exact ⟨Or.inr rfl, fun _ => rfl, by simp⟩

/-- C28 (the record after storage_set). The claim is that storage_set never modifies the
record of the caller. A storage_set that returns has returned 0 or -1; when it returns -1
the record is as before the call, but when it returns 0 it has overwritten record.value
with the third field that sscanf converted from the reply, a single word, which is not the
value that was sent when that value holds white space. -/
theorem storage_set_record (L : Limits) (table key record : Option CStr) (conn : Int)
    (st : Client) (r : Ret) (h : storage_set L table key record conn st = some r) :
    (r.status = 0 ∨ r.status = -1) ∧
    (r.status = -1 → r.record = record) ∧
    (r.status = 0 → ∃ t k v, table = some t ∧ key = some k ∧ record = some v ∧
      r.record = some ((scan (replyFormat "SET".toList)
        (cstr (received conn (setRequest t k v) st.sys).2.1) []).1.getD 2 []) ∧
      ∀ c ∈ (scan (replyFormat "SET".toList)
        (cstr (received conn (setRequest t k v) st.sys).2.1) []).1.getD 2 [],
        isspace c = false) := by
  by_cases hconn : conn = 0
  · simp only [storage_set, hconn, if_true, Option.some.injEq] at h
    subst h
    exact ⟨Or.inr rfl, fun _ => rfl, by simp⟩
  · obtain ⟨t, k, v, ht, hk, hv, hex⟩ := storage_set_some L table key record conn st r hconn h
    obtain ⟨h1, h2, h3⟩ := exchange_record _ _ _ _ _ _ _ _ _ hex
    exact ⟨h1, h2, fun h0 => ⟨t, k, v, ht, hk, hv, (h3 h0).2.2,
      getD_nospace _ _ (scan_fields_nospace _ _ _ (by simp))⟩⟩

/-- Witness for C28: the record "col 22" is "col" after a storage_set that the server
answers with the line it was sent, "SET #inttbl #somekey #col 22", and that returns 0. -/
theorem storage_set_record_witness :
    ∃ r, storage_set skeletonLimits (some "inttbl".toList) (some "somekey".toList)
        (some "col 22".toList) 3 (liveClient "SET #inttbl #somekey #col 22".toList) = some r ∧
      r.status = 0 ∧ r.record = some "col".toList ∧ r.record ≠ some "col 22".toList ∧
      ((r.status = 0 ∨ r.status = -1) ∧
      (r.status = -1 → r.record = some "col 22".toList) ∧
      (r.status = 0 → ∃ t k v, some "inttbl".toList = some t ∧ some "somekey".toList = some k ∧
        some "col 22".toList = some v ∧
        r.record = some ((scan (replyFormat "SET".toList)
          (cstr (received 3 (setRequest t k v)
            (liveClient "SET #inttbl #somekey #col 22".toList).sys).2.1) []).1.getD 2 []) ∧
        ∀ c ∈ (scan (replyFormat "SET".toList)
          (cstr (received 3 (setRequest t k v)
            (liveClient "SET #inttbl #somekey #col 22".toList).sys).2.1) []).1.getD 2 [],
          isspace c = false)) :=
  ⟨_, rfl, by decide, by decide, by decide,
    storage_set_record skeletonLimits (some "inttbl".toList) (some "somekey".toList)
      (some "col 22".toList) 3 (liveClient "SET #inttbl #somekey #col 22".toList) _ rfl⟩

theorem tableLoop_not_found (CL : ConfigLimits) (names : List CStr) (value : CStr) (n start : Nat)
    (hmax : start + n ≤ CL.MAX_TABLES)
    (hrows : ∀ i < CL.MAX_TABLES, (names.getD i []).length < CL.MAX_TABLE_LEN ∧
      names.getD i [] ≠ value) :
    tableLoop CL names value n start = some false := by
  induction n generalizing start with
  | zero => rfl
  | succ n ih =>
    unfold tableLoop
    rw [if_neg (by omega), strcmpRow_terminated _ _ _ (hrows start (by omega)).1,
      decide_eq_false (hrows start (by omega)).2]
    exact ih (start + 1) (by omega)

/-- C29 (the table list never overflows). The claim is that a table line is rejected when
MAX_TABLES tables are defined. The code has no such test: for a table line with a new,
well-formed name and num_tables equal to MAX_TABLES (all rows terminated), the loop finds
no duplicate and the code writes table_names[MAX_TABLES], outside the array: undefined
behaviour, not the return value 1. -/
theorem table_list_overflow (CL : ConfigLimits) (atoi : CStr → Int) (line value : CStr)
    (params : config_params) (hcom : line.head? ≠ some '#')
    (htok : tokens line = ["table".toList, value])
    (hn : "table".toList.length < CL.MAX_CONFIG_LINE_LEN)
    (hv : value.length < CL.MAX_CONFIG_LINE_LEN)
    (hcs : check_special value = true)
    (hfull : params.num_tables = CL.MAX_TABLES)
    (hrows : ∀ i < CL.MAX_TABLES, (params.table_names.getD i []).length < CL.MAX_TABLE_LEN ∧
      params.table_names.getD i [] ≠ value) :
    process_config_line CL atoi line params = none ∧
    process_config_line CL atoi line params ≠ some (1, params) := by
  have h : process_config_line CL atoi line params = none := by
    rw [process_config_line_pair CL atoi line _ value params hcom htok hn hv]
    unfold processEntry
    rw [if_neg (by decide), if_neg (by decide), if_neg (by decide), if_neg (by decide),
      if_pos rfl, if_neg (by simp [hcs]),
      tableLoop_not_found CL params.table_names value params.num_tables.toNat 0
        (by rw [hfull]; simp) hrows]
    simp only
    rw [if_pos (Or.inr (by rw [hfull]))]
  rw [h]
  exact ⟨rfl, by simp⟩

/-- Witness for C29: a table line on a list of 100 tables under the sizes of the
skeleton. -/
theorem table_list_overflow_witness :
    fullParams.num_tables = skeletonConfigLimits.MAX_TABLES ∧
    (process_config_line skeletonConfigLimits sampleAtoi "table newtbl\n".toList fullParams
      = none ∧
    process_config_line skeletonConfigLimits sampleAtoi "table newtbl\n".toList fullParams
      ≠ some (1, fullParams)) :=
  ⟨rfl, table_list_overflow skeletonConfigLimits sampleAtoi "table newtbl\n".toList
    "newtbl".toList fullParams (by decide) (by decide) (by decide) (by decide) (by decide) rfl
    (by decide)⟩

/-! ### The pool of echothread.c -/

theorem getD_set (l : List Nat) (n m a d : Nat) :
    (l.set n a).getD m d = if n = m ∧ n < l.length then a else l.getD m d := by
  simp only [List.getD_eq_getElem?_getD, List.getElem?_set]
  by_cases h : n = m
  · subst h
    by_cases h2 : n < l.length
    · simp [h2]
    · have hnone : l[n]? = none := List.getElem?_eq_none (by omega)
      simp [h2, hnone]
  · simp [h]

/-- The invariant of the pool. -/
theorem reachable_invariant (s : PoolState) (hs : Reachable s) :
    s.pool.botRT < MAX_THREADS ∧ s.pool.topRT < MAX_THREADS ∧
    s.pool.runtimeThreads.length = MAX_THREADS ∧
    s.held.length < MAX_THREADS ∧
    s.pool.topRT = (s.pool.botRT + (MAX_THREADS - s.held.length)) % MAX_THREADS ∧
    (available s ++ s.held).Perm (List.range MAX_THREADS) := by
  induction hs with
  | start => decide
  | step s t _ hstep ih =>
    obtain ⟨hb, ht, hl, hh, htop, hperm⟩ := ih
    cases hstep with
    | get e p hget =>
      unfold getThreadInfo at hget
      split_ifs at hget with hg
      simp only [Option.some.injEq, Prod.mk.injEq] at hget
      obtain ⟨he, hp⟩ := hget
      subst hp
      simp only [MAX_THREADS] at hb ht hl hh htop hg ⊢
      have hh8 : s.held.length ≤ 8 := by
        by_contra hcon
        have : s.held.length = 9 := by omega
        rw [this] at htop
        omega
      refine ⟨by omega, ht, hl, by simp only [List.length_cons]; omega, ?_, ?_⟩
      · simp only [List.length_cons]
        omega
      · have hav : available s = e :: available ⟨{ s.pool with botRT := (s.pool.botRT + 1) % 10 },
            e :: s.held⟩ := by
          unfold available
          simp only [MAX_THREADS, List.length_cons]
          obtain ⟨k, hk⟩ : ∃ k, 10 - s.held.length = k + 1 := ⟨10 - s.held.length - 1, by omega⟩
          have hk2 : 10 - (s.held.length + 1) = k := by omega
          rw [hk, hk2, List.range_succ_eq_map, List.map_cons, List.map_map]
          congr 1
          · rw [← he]
            simp [Nat.mod_eq_of_lt hb]
          · apply List.map_congr_left
            intro i _
            simp only [Function.comp]
            congr 1
            omega
        rw [hav] at hperm
        exact (List.perm_middle).trans hperm
    | release me p hme hrel =>
      unfold releaseThread at hrel
      split_ifs at hrel with hg
      simp only [Option.some.injEq] at hrel
      subst hrel
      simp only [MAX_THREADS] at hb ht hl hh htop ⊢
      have hpos : 0 < s.held.length := List.length_pos_of_mem hme
      have hlen : (s.held.erase me).length = s.held.length - 1 := List.length_erase_of_mem hme
      refine ⟨hb, by omega, by simp [hl], by omega, ?_, ?_⟩
      · simp only [hlen]
        omega
      · have hav : available ⟨{ s.pool with
            runtimeThreads := s.pool.runtimeThreads.set s.pool.topRT me,
            topRT := (s.pool.topRT + 1) % 10 }, s.held.erase me⟩ = available s ++ [me] := by
          unfold available
          simp only [MAX_THREADS, hlen]
          have hk2 : 10 - (s.held.length - 1) = (10 - s.held.length) + 1 := by omega
          rw [hk2, List.range_succ, List.map_append, List.map_singleton]
          congr 1
          · apply List.map_congr_left
            intro i hi
            rw [List.mem_range] at hi
            rw [getD_set, if_neg]
            intro hcon
            have := hcon.1
            omega
          · rw [getD_set, if_pos]
            refine ⟨?_, by omega⟩
            omega
        rw [hav]
        have h1 : (available s ++ [me] ++ s.held.erase me).Perm
            (available s ++ (me :: s.held.erase me)) := by
          rw [List.append_assoc]
          rfl
        exact h1.trans ((List.Perm.append_left _ (List.perm_cons_erase hme).symm).trans hperm)


/-- C27 (pool invariant). In every state reachable from the initial pool by getThreadInfo
calls that do not wait and releaseThread calls by workers on entries they hold: the number
of held entries is (botRT - topRT) mod MAX_THREADS; the ring positions from botRT up to
topRT hold exactly the entries that are not held, each once; getThreadInfo never hands out
an entry that is held; and the assertion of releaseThread passes for every held entry. -/
theorem pool_invariant (s : PoolState) (hs : Reachable s) :
    s.held.length = (s.pool.botRT + MAX_THREADS - s.pool.topRT) % MAX_THREADS ∧
    s.pool.topRT = (s.pool.botRT + (MAX_THREADS - s.held.length)) % MAX_THREADS ∧
    (available s ++ s.held).Perm (List.range MAX_THREADS) ∧
    (∀ e, e ∈ available s ↔ e < MAX_THREADS ∧ e ∉ s.held) ∧
    (available s).Nodup ∧
    (∀ e p, getThreadInfo s.pool = some (e, p) → e ∉ s.held) ∧
    (∀ me, me ∈ s.held → (releaseThread me s.pool).isSome = true) := by
  obtain ⟨hb, ht, hl, hh, htop, hperm⟩ := reachable_invariant s hs
  have hnd : (available s ++ s.held).Nodup := hperm.nodup_iff.mpr (List.nodup_range _)
  have hdis := List.disjoint_of_nodup_append hnd
  have hmem : ∀ e, e ∈ available s ↔ e < MAX_THREADS ∧ e ∉ s.held := by
    intro e
    constructor
    · intro he
      exact ⟨List.mem_range.mp (hperm.subset (List.mem_append_left _ he)), fun h => hdis he h⟩
    · rintro ⟨h1, h2⟩
      have := hperm.symm.subset (List.mem_range.mpr h1)
      rcases List.mem_append.mp this with h | h
      · exact h
      · exact absurd h h2
  refine ⟨?_, htop, hperm, hmem, (List.nodup_append.mp hnd).1, ?_, ?_⟩
  · simp only [MAX_THREADS] at hb ht hh htop ⊢
    omega
  · intro e p hget
    unfold getThreadInfo at hget
    split_ifs at hget with hg
    simp only [Option.some.injEq, Prod.mk.injEq] at hget
    obtain ⟨he, _⟩ := hget
    have hav : e ∈ available s := by
      unfold available
      rw [List.mem_map]
      refine ⟨0, List.mem_range.mpr (by simp only [MAX_THREADS] at hh ⊢; omega), ?_⟩
      rw [← he]
      simp [Nat.mod_eq_of_lt hb]
    exact (hmem e).mp hav |>.2
  · intro me hme
    have hpos : 0 < s.held.length := List.length_pos_of_mem hme
    unfold releaseThread
    rw [if_neg]
    · rfl
    · simp only [MAX_THREADS] at hb ht hh htop
      omega

/-- Witness for C27: the state after the first getThreadInfo call. -/
theorem pool_invariant_witness :
    ([0] : List Nat).length = (1 + MAX_THREADS - 0) % MAX_THREADS ∧
    (0 : Nat) = (1 + (MAX_THREADS - ([0] : List Nat).length)) % MAX_THREADS ∧
    (available ⟨⟨List.range MAX_THREADS, 1, 0⟩, [0]⟩ ++ [0]).Perm (List.range MAX_THREADS) ∧
    (∀ e, e ∈ available ⟨⟨List.range MAX_THREADS, 1, 0⟩, [0]⟩ ↔
      e < MAX_THREADS ∧ e ∉ ([0] : List Nat)) ∧
    (available ⟨⟨List.range MAX_THREADS, 1, 0⟩, [0]⟩).Nodup ∧
    (∀ e p, getThreadInfo ⟨List.range MAX_THREADS, 1, 0⟩ = some (e, p) → e ∉ ([0] : List Nat)) ∧
    (∀ me, me ∈ ([0] : List Nat) →
      (releaseThread me ⟨List.range MAX_THREADS, 1, 0⟩).isSome = true) :=
  pool_invariant ⟨⟨List.range MAX_THREADS, 1, 0⟩, [0]⟩
    (Reachable.step PoolState.initial _ Reachable.start
      (PoolStep.get PoolState.initial 0 ⟨List.range MAX_THREADS, 1, 0⟩ (by decide)))

/-! ### The sendall of echothread.c -/

theorem toSizeT_neg_one (w : Nat) : toSizeT w (-1) = 2 ^ w - 1 := by
  unfold toSizeT
  have hpos : 0 < 2 ^ w := Nat.pow_pos (by decide)
  generalize 2 ^ w = n at hpos
  have h1 : (-1 : Int) % (n : Int) = (n : Int) - 1 := by
    have h2 : (-1 : Int) % (n : Int) = ((n : Int) - 1 + (n : Int) * (-1)) % (n : Int) := by
      congr 1
      ring
    rw [h2, Int.add_mul_emod_self_left]
    apply Int.emod_eq_of_lt <;> omega
  rw [h1]
  omega

/-- C30 (sendall of echothread.c after a send error). The claim is that sendall stops and
returns -1 when send returns -1. The result of send is kept in a size_t, so -1 becomes the
largest size_t and the test bytes <= 0 fails: the loop goes on with tosend increased by
one (and buf moved one byte back) instead of stopping. -/
theorem echo_sendall_ignores_error (w : Nat) (sock : Int) (mem : Int → Char)
    (fuel tosend : Nat) (off : Int) (s : Sys) (hpos : 0 < tosend) (hw : tosend + 1 < 2 ^ w)
    (hfail : (send sock ((List.range tosend).map (fun i => mem (off + i))) s).1 = -1) :
    echoSendallLoop w sock mem (fuel + 1) tosend off s
      = echoSendallLoop w sock mem fuel (tosend + 1) (off - 1)
          (send sock ((List.range tosend).map (fun i => mem (off + i))) s).2 ∧
    tosend < tosend + 1 := by
  refine ⟨?_, Nat.lt_succ_self _⟩
  rw [echoSendallLoop]
  simp only [hpos, if_true, hfail, toSizeT_neg_one]
  have h2 : ¬ (2 ^ w - 1 ≤ 0) := by omega
  rw [if_neg h2]
  have h3 : (tosend + 2 ^ w - (2 ^ w - 1)) % 2 ^ w = tosend + 1 := by
    have : tosend + 2 ^ w - (2 ^ w - 1) = tosend + 1 := by omega
    rw [this]
    exact Nat.mod_eq_of_lt hw
  rw [h3]
  rfl

/-- Witness for C30: on 5 bytes, a send that fails and a send that takes 6 bytes: sendall
returns 0, having offered the byte before the buffer. -/
theorem echo_sendall_ignores_error_witness :
    echoSendall 64 3 (memoryOf "hello".toList) 8 5
        ⟨Errno.sys 0, [SendResult.fails 104, SendResult.accepts 6], [], [], [], []⟩
      = some (0, ⟨Errno.sys 104, [], [],
          [(3, "hello".toList, -1), (3, Char.ofNat 0 :: "hello".toList, 6)], [], []⟩) ∧
    (echoSendallLoop 64 3 (memoryOf "hello".toList) (7 + 1) 5 0
        ⟨Errno.sys 0, [SendResult.fails 104, SendResult.accepts 6], [], [], [], []⟩
      = echoSendallLoop 64 3 (memoryOf "hello".toList) 7 (5 + 1) (0 - 1)
          (send 3 ((List.range 5).map (fun i => memoryOf "hello".toList (0 + i)))
            ⟨Errno.sys 0, [SendResult.fails 104, SendResult.accepts 6], [], [], [], []⟩).2 ∧
    5 < 5 + 1) :=
  ⟨by decide,
    echo_sendall_ignores_error 64 3 (memoryOf "hello".toList) 7 5 0
      ⟨Errno.sys 0, [SendResult.fails 104, SendResult.accepts 6], [], [], [], []⟩
      (by decide) (by decide) (by decide)⟩

end ECE297
